import Mathlib

/-!
# Alchemy-Database: key codec (`bt.c`) and single-row insert (`DB/alsosql.c`)

A shallow embedding of the encoded-key stream codec of `bt.c`
(`createSimKeyFromRaw`, `getSflag`, `get14BitInt`, `get28BitInt`, `getInt`,
`getTinyString`, `getString`, `btStreamCmp`, `assignKeyRobj`, `skipToVal`) and
of `insertCommit` of `DB/alsosql.c`.

Conventions of the embedding.

* A byte is a `Nat` (every byte the codec itself produces is reduced
  `% 256`); a block of memory is a `List Nat`.
* A `uchar *` into a block is the list of the bytes from that address on, so
  `p + k` is `p.drop k` and `*p` is the head of the list.
* Multi-byte integers are stored little-endian, as on the x86 targets of the
  program (the tag bits of the 14-bit and 28-bit variants are read from the
  first byte, which is the low byte only on a little-endian machine).
* `uint32` and `ushort` arithmetic is `Nat` arithmetic with an explicit
  `% 2^32` and `% 2^16`.
* `assert` failures are a separate outcome (`none`, or `assertFailed`).
-/

namespace AlchemyDB

/-! ## Constants and types declared outside `bt.c` -/

/-- Modelled from the spec: `TWO_POW_7` of `common.h` (not among the sources),
the bound below which a string key uses the tiny form. -/
def TWO_POW_7 : Nat := 128

/-- Modelled from the spec: `TWO_POW_14` of `common.h`, the bound of the
14-bit integer variant. -/
def TWO_POW_14 : Nat := 16384

/-- Modelled from the spec: `TWO_POW_28` of `common.h`, the bound of the
28-bit integer variant. -/
def TWO_POW_28 : Nat := 268435456

/-- Modelled from the spec: `TWO_POW_32` of `common.h`, the first value that
no longer fits an unsigned 32-bit integer. -/
def TWO_POW_32 : Nat := 4294967296

/-- The size of the static key buffer: `#define SIMKEY_BUFFER_SIZE 2048`. -/
def SIMKEY_BUFFER_SIZE : Nat := 2048

/-- Modelled from the spec: the column type codes `COL_TYPE_*` of `common.h`;
the spec lists the per-column types INT, LONG, FLOAT and STRING. -/
inductive ColType where
  | INT
  | LONG
  | FLOAT
  | STRING
  deriving DecidableEq, Repr

/-- The `encoding` field of a `robj` (`REDIS_ENCODING_RAW`,
`REDIS_ENCODING_INT` of `redis.h`). -/
inductive Encoding where
  | RAW
  | INT
  deriving DecidableEq, Repr

/-- The `type` field of a `robj` as far as `bt.c` sets it. -/
inductive RedisType where
  | REDIS_STRING
  | REDIS_ROW
  | REDIS_BTREE
  deriving DecidableEq, Repr

/-- What a `void *key_ptr` handed to `createSimKeyFromRaw` denotes under each of
the three readings the function makes of it: the pointer value itself
(`(ulong)key_ptr`, the integer key), the `sds` string it points at
(`sdslen(key_ptr)` is the length of `sds`), and the bit pattern of the
`float` that `atof(key_ptr)` converts to.  The pointer is `NULL` when `addr`
is `0`; what `atof` does with a null pointer is not modelled (the float reading
is taken as given). -/
structure KeyPtr where
  addr : Nat
  sds : List Nat
  atof : Nat
  deriving DecidableEq, Repr

/-- The `ptr` field of a `robj` produced by `assignKeyRobj`: an integer stored
in the pointer itself, or a freshly allocated `sds` string. -/
inductive RobjPtr where
  | int (k : Nat)
  | sds (bytes : List Nat)
  deriving DecidableEq, Repr

/-- The fields of a `robj` that `assignKeyRobj` writes. -/
structure robj where
  type : RedisType
  encoding : Encoding
  ptr : RobjPtr
  refcount : Nat
  deriving DecidableEq, Repr

/-! ## Memory primitives -/

/-- The two bytes of a `ushort` in memory (little-endian). -/
def le16 (m : Nat) : List Nat := [m % 256, m / 256 % 256]

/-- The four bytes of a `uint32` (or of a `float` bit pattern) in memory. -/
def le32 (d : Nat) : List Nat :=
  [d % 256, d / 256 % 256, d / 65536 % 256, d / 16777216 % 256]

/-- Reading `*((unsigned short *)s)`. -/
def read16 (s : List Nat) : Nat := s.getD 0 0 + 256 * s.getD 1 0

/-- Reading `*((uint32 *)s)`. -/
def read32 (s : List Nat) : Nat :=
  s.getD 0 0 + 256 * s.getD 1 0 + 65536 * s.getD 2 0 + 16777216 * s.getD 3 0

/-- The libc call `memcpy(dst + off, src, n)`: the block `dst` with the `n`
bytes at offset `off` replaced by the first `n` bytes of `src`. -/
def memcpy (dst : List Nat) (off : Nat) (src : List Nat) (n : Nat) : List Nat :=
  dst.take off ++ src.take n ++ dst.drop (off + n)

/-- The libc call `malloc(n)`: a fresh block of `n` bytes (every byte of it is
overwritten by the caller before it is read). -/
def malloc (n : Nat) : List Nat := List.replicate n 0

/-- The call `sdsnewlen(init, initlen)`: a new string holding the first
`initlen` bytes at `init`. -/
def sdsnewlen (init : List Nat) (initlen : Nat) : List Nat := init.take initlen

/-! ## Decoding: `getSflag` and the per-variant readers -/

/-- The variant tag of a stream, from its first byte; `none` is the
`assert(!"getSflag programming error")` of the last branch. -/
def getSflag (b1 : Nat) : Option Nat :=
  if b1 &&& 1 ≠ 0 then some 1
  else if b1 &&& 2 ≠ 0 then some 2
  else if b1 &&& 4 ≠ 0 then some 4
  else if b1 &&& 8 ≠ 0 then some 8
  else if b1 &&& 16 ≠ 0 then some 16
  else if b1 &&& 32 ≠ 0 then some 32
  else none

/-- The 14-bit variant: `key = *(ushort *)s; key -= 2; key /= 4` on a
`uint32`. -/
def get14BitInt (s : List Nat) : Nat :=
  ((read16 s + 2 ^ 32 - 2) % 2 ^ 32) / 4

/-- The 28-bit variant: `key = *(uint32 *)s; key -= 8; key /= 16`. -/
def get28BitInt (s : List Nat) : Nat :=
  ((read32 s + 2 ^ 32 - 8) % 2 ^ 32) / 16

/-- The full variant: `*s = *s + 1; key = *(uint32 *)*s`; returns the key and
the advanced pointer. -/
def getInt (s : List Nat) : Nat × List Nat :=
  let s := s.drop 1
  (read32 s, s)

/-- The tiny string: `*slen = (int)*s / 2; s++`; returns the advanced pointer
and `slen`. -/
def getTinyString (s : List Nat) : List Nat × Nat :=
  let slen := s.headD 0 / 2
  (s.drop 1, slen)

/-- The long string: `s++; *slen = *(uint32 *)s; s += 4`. -/
def getString (s : List Nat) : List Nat × Nat :=
  let s := s.drop 1
  let slen := read32 s
  (s.drop 4, slen)

/-- The float: `s++; memcpy(&f, s, 4)`; the result is the bit pattern of
`f`. -/
def getFloat (s : List Nat) : Nat := read32 (s.drop 1)

/-! ## Encoding: `createSimKeyFromRaw` -/

/-- What `createSimKeyFromRaw` hands back on a non-`NULL` return: the stream
`simkey` (the bytes from the returned pointer on) and the out-parameters
`*med`, `*sflag`, `*ksize`. -/
structure SimKey where
  simkey : List Nat
  med : Bool
  sflag : Nat
  ksize : Nat
  deriving DecidableEq, Repr

/-- The three outcomes of `createSimKeyFromRaw`: an assertion failed, `NULL`
was returned, or a stream was returned. -/
inductive SimKeyRet where
  | assertFailed
  | NULL
  | ok (k : SimKey)
  deriving DecidableEq, Repr

/-- The function `createSimKeyFromRaw(key_ptr, ktype, &med, &sflag, &ksize)` of
`bt.c`.  `SimKeyBuffer` is the current content of the static buffer of that
name. -/
def createSimKeyFromRaw (SimKeyBuffer : List Nat) (key_ptr : KeyPtr)
    (ktype : ColType) : SimKeyRet :=
  -- assert(key_ptr || ktype != COL_TYPE_STRING)
  if key_ptr.addr = 0 ∧ ktype = ColType.STRING then SimKeyRet.assertFailed
  else
    match ktype with
    | ColType.STRING =>
      let sdslen := key_ptr.sds.length
      -- assert(sdslen(key_ptr) < TWO_POW_32)
      if ¬ sdslen < TWO_POW_32 then SimKeyRet.assertFailed
      else if sdslen < TWO_POW_7 then
        let sflag := 1
        let ksize := (sdslen + 1) % 2 ^ 32
        let data := (sdslen * 2 + 1) % 2 ^ 32
        let sm : List Nat × Bool :=
          if sdslen + 1 ≥ SIMKEY_BUFFER_SIZE then (malloc (sdslen + 1), true)
          else (SimKeyBuffer, false)
        let simkey := memcpy sm.1 0 [data % 256] 1
        let simkey := memcpy simkey 1 key_ptr.sds sdslen
        SimKeyRet.ok ⟨simkey, sm.2, sflag, ksize⟩
      else
        let len := sdslen % 2 ^ 32
        let sflag := 4
        let ksize := (sdslen + 5) % 2 ^ 32
        let sm : List Nat × Bool :=
          if sdslen + 5 ≥ SIMKEY_BUFFER_SIZE then (malloc (sdslen + 5), true)
          else (SimKeyBuffer, false)
        let simkey := memcpy sm.1 0 [4] 1
        let data := len
        let simkey := memcpy simkey 1 (le32 data) 4
        let simkey := memcpy simkey 5 key_ptr.sds sdslen
        SimKeyRet.ok ⟨simkey, sm.2, sflag, ksize⟩
    | ColType.INT =>
      let i := key_ptr.addr
      let simkey := SimKeyBuffer
      if i ≥ TWO_POW_32 then SimKeyRet.NULL
      else if i < TWO_POW_14 then
        let m := (i * 4 + 2) % 2 ^ 16
        SimKeyRet.ok ⟨memcpy simkey 0 (le16 m) 2, false, 2, 2⟩
      else if i < TWO_POW_28 then
        let data := (i * 16 + 8) % 2 ^ 32
        SimKeyRet.ok ⟨memcpy simkey 0 (le32 data) 4, false, 8, 4⟩
      else
        let simkey := memcpy simkey 0 [16] 1
        let data := i % 2 ^ 32
        SimKeyRet.ok ⟨memcpy simkey 1 (le32 data) 4, false, 16, 5⟩
    | ColType.FLOAT =>
      let f := key_ptr.atof
      let simkey := SimKeyBuffer
      let simkey := memcpy simkey 0 [32] 1
      SimKeyRet.ok ⟨memcpy simkey 1 (le32 f) 4, false, 32, 5⟩
    | ColType.LONG =>
      -- no branch of the if-chain matches: `simkey` is still NULL
      SimKeyRet.NULL

/-! ## `assignKeyRobj` and `skipToVal` -/

/-- The function `assignKeyRobj(stream, key)` of `bt.c`: decodes the key at the
head of `stream` into the `robj` `key`.  `sprintfOutputFloat` (declared
outside `bt.c`) renders a float, given by its bit pattern, as text.  `none` is
the assertion of `getSflag`. -/
def assignKeyRobj (sprintfOutputFloat : Nat → List Nat) (stream : List Nat)
    (key : robj) : Option robj :=
  let b1 := stream.headD 0
  (getSflag b1).bind fun sflag =>
    let key : robj :=
      if sflag = 1 then
        let r := getTinyString stream
        { key with encoding := Encoding.RAW, ptr := RobjPtr.sds (sdsnewlen r.1 r.2) }
      else if sflag = 2 then
        let k := get14BitInt stream
        { key with encoding := Encoding.INT, ptr := RobjPtr.int k }
      else if sflag = 4 then
        let r := getString stream
        { key with encoding := Encoding.RAW, ptr := RobjPtr.sds (sdsnewlen r.1 r.2) }
      else if sflag = 8 then
        let k := get28BitInt stream
        { key with encoding := Encoding.INT, ptr := RobjPtr.int k }
      else if sflag = 16 then
        let k := (getInt stream).1
        { key with encoding := Encoding.INT, ptr := RobjPtr.int k }
      else if sflag = 32 then
        let buf := sprintfOutputFloat (getFloat stream)
        { key with encoding := Encoding.RAW, ptr := RobjPtr.sds (sdsnewlen buf buf.length) }
      else key
    some { key with type := RedisType.REDIS_STRING, refcount := 1 }

/-- The function `skipToVal(&stream)` of `bt.c`: returns `klen` and the
advanced pointer `*stream + klen`. -/
def skipToVal (stream : List Nat) : Option (Nat × List Nat) :=
  (getSflag (stream.headD 0)).bind fun sflag =>
    let klen : Nat :=
      if sflag = 1 then ((getTinyString stream).2 + 1) % 2 ^ 32
      else if sflag = 2 then 2
      else if sflag = 4 then ((getString stream).2 + 5) % 2 ^ 32
      else if sflag = 8 then 4
      else if sflag = 16 then 5
      else if sflag = 32 then 5
      else 0
    some (klen, stream.drop klen)

/-! ## Comparison: `btStreamCmp` -/

/-- The libc call `strncmp(s1, s2, n)`: compares at most `n` bytes as unsigned
characters and stops after a zero byte.  C fixes only the sign of the result;
the difference of the two bytes is returned here.  `none` is a read past the
end of a block. -/
def strncmp : List Nat → List Nat → Nat → Option Int
  | _, _, 0 => some 0
  | c1 :: s1, c2 :: s2, n + 1 =>
    if c1 ≠ c2 then some ((c1 : Int) - (c2 : Int))
    else if c1 = 0 then some 0
    else strncmp s1 s2 n
  | _, _, _ + 1 => none

/-- Conversion of a `uint32` to `int` (two's complement). -/
def toInt32 (u : Nat) : Int :=
  if u % 2 ^ 32 < 2 ^ 31 then ((u % 2 ^ 32 : Nat) : Int)
  else ((u % 2 ^ 32 : Nat) : Int) - 2 ^ 32

/-- Conversion of an `int` to the `size_t` parameter of `strncmp` (64 bit). -/
def toSizeT (i : Int) : Nat := (i % 2 ^ 64).toNat

/-- The function `btStreamCmp(a, b)` of `bt.c`.  A `NULL` argument is `none`.
`floatCmp` stands for the float branch
`f = key1 - key2; (f == 0.0) ? 0 : ((f > 0.0) ? 1 : -1)` on the bit patterns of
the two floats.  The result `none` is an assertion of `getSflag` or a read
past the end of a block. -/
def btStreamCmp (floatCmp : Nat → Nat → Int) (a b : Option (List Nat)) :
    Option Int :=
  match a, b with
  | none, _ => some (-1)
  | some _, none => some (-1)
  | some s1, some s2 =>
    (getSflag (s1.headD 0)).bind fun sflag1 =>
    (getSflag (s2.headD 0)).bind fun sflag2 =>
      if sflag1 = 1 ∨ sflag1 = 4 then
        let r1 : List Nat × Nat :=
          if sflag1 = 1 then getTinyString s1
          else if sflag1 = 4 then getString s1
          else (s1, 0)
        let r2 : List Nat × Nat :=
          if sflag2 = 1 then getTinyString s2
          else if sflag2 = 4 then getString s2
          else (s2, 0)
        let slen1 := r1.2
        let slen2 := r2.2
        if slen1 = slen2 then strncmp r1.1 r2.1 slen1
        else
          let i : Int := toInt32 (if slen1 < slen2 then slen1 else slen2)
          (strncmp r1.1 r2.1 (toSizeT i)).map fun ret =>
            if ret = 0 then (if slen1 < slen2 then -1 else 1) else ret
      else if sflag1 ≤ 16 then
        let key1 :=
          if sflag1 = 2 then get14BitInt s1
          else if sflag1 = 8 then get28BitInt s1
          else (getInt s1).1
        let key2 :=
          if sflag2 = 2 then get14BitInt s2
          else if sflag2 = 8 then get28BitInt s2
          else (getInt s2).1
        some (if key1 = key2 then 0 else if key1 > key2 then 1 else -1)
      else
        some (floatCmp (getFloat s1) (getFloat s2))

/-- The function `createSimKey(key, ktype, &med, &sflag, &ksize)` of `bt.c`, on
the fields `encoding` and `ptr` of the `robj` `key`.  `atol` is the libc
conversion; its `long` result becomes the pointer value (64 bit). -/
def createSimKey (atol : List Nat → Int) (SimKeyBuffer : List Nat)
    (key_encoding : Encoding) (key_ptr : KeyPtr) (ktype : ColType) : SimKeyRet :=
  let ptr : KeyPtr :=
    match ktype with
    | ColType.INT =>
      if key_encoding = Encoding.INT then key_ptr
      else { key_ptr with addr := (atol key_ptr.sds % 2 ^ 64).toNat }
    | ColType.STRING => key_ptr
    | ColType.FLOAT => key_ptr
    | ColType.LONG => ⟨0, [], 0⟩
  createSimKeyFromRaw SimKeyBuffer ptr ktype

/-! ## `bt.c`: the B-tree API over the container of `btree.c`

The container (`bt_create`, `bt_insert`, `bt_find`, `bt_delete`, `bt_malloc`,
`bt_free` of `btree.c`) is not among the sources; it is modelled from the
specification as a collection of entries that is searched with the comparator
`btStreamCmp`.  The functions of `bt.c` are embedded over it, with the static
buffer `SimKeyBuffer` and the B-tree passed in and handed back. -/

/-- Modelled from the spec: the kinds of B-tree (`BTREE_TABLE`, `BTREE_INDEX`,
`BTREE_INDEX_NODE` of `btree.h`): a data B-tree, an index B-tree, and the
nested B-tree of primary keys inside an index. -/
inductive BtKind where
  | BTREE_TABLE
  | BTREE_INDEX
  | BTREE_INDEX_NODE
  deriving DecidableEq, Repr

/-- What a `void *` value pointer denotes: `NULL`, the bytes of a row, or a
nested B-tree (of type `N`). -/
inductive ValPtr (N : Type) where
  | NULL
  | row (bytes : List Nat)
  | nbtr (t : N)
  deriving DecidableEq, Repr

/-- An entry of a B-tree: the bytes of the block at `stream` (the encoded key,
followed by the bytes of the row in a data B-tree), and what the pointer
stored after the key of an index entry points at (its eight bytes are not
read as bytes). -/
structure Entry (N : Type) where
  stream : List Nat
  ptr : ValPtr N
  deriving DecidableEq, Repr

/-- Modelled from the spec: the header `bt` of `btree.h`, with the fields that
`bt.c` reads or writes (`ktype`, `is_index`, `num`, `numkeys`, `malloc_size`,
`data_size`), the capacity given to `bt_create`, and the entries reachable
from `root` (`[]` for a `NULL` root), the one inserted last first. -/
structure bt (N : Type) where
  ktype : ColType
  is_index : BtKind
  num : Int
  numkeys : Nat
  malloc_size : Int
  data_size : Int
  capacity : Nat
  root : List (Entry N)
  deriving DecidableEq, Repr

/-- What the functions of `bt.c` take from outside the sources: the libc
conversion `atol`, the float branch of `btStreamCmp`, `getRowMallocSize` of
`row.h`, the constants `TRANSITION_ONE_MAX`, `TRANSITION_ONE_BTREE_BYTES` and
`TRANSITION_TWO_BTREE_BYTES` of `btree.h`, and the bytes that `bt_create`
charges to `malloc_size` for an empty container of a given capacity. -/
structure BtEnv where
  atol : List Nat → Int
  floatCmp : Nat → Nat → Int
  getRowMallocSize : List Nat → Nat
  TRANSITION_ONE_MAX : Nat
  TRANSITION_ONE_BTREE_BYTES : Nat
  TRANSITION_TWO_BTREE_BYTES : Nat
  bt_overhead : Nat → Int

/-- Modelled from the spec: `DICT_OK` of `dict.h`. -/
def DICT_OK : Int := 0

/-- Modelled from the spec: `DICT_ERR` of `dict.h`. -/
def DICT_ERR : Int := 1

/-- The size `sizeof(void *)` of a pointer (64 bit). -/
def SIZEOF_PTR : Nat := 8

/-- Whether the comparator `btStreamCmp` returns `0` for the key stream
`simkey` and the entry `e`. -/
def keyMatches {N : Type} (E : BtEnv) (simkey : List Nat) (e : Entry N) : Bool :=
  btStreamCmp E.floatCmp (some simkey) (some e.stream) == some 0

/-- Modelled from the spec: `bt_create(cmp, size)` of `btree.c`, an empty
container of capacity `size` (the comparator is always `btStreamCmp`); the
fields `ktype`, `is_index` and `num` are assigned by the caller. -/
def bt_create {N : Type} (E : BtEnv) (size : Nat) : bt N :=
  { ktype := ColType.INT, is_index := BtKind.BTREE_TABLE, num := 0, numkeys := 0,
    malloc_size := E.bt_overhead size, data_size := 0, capacity := size, root := [] }

/-- Modelled from the spec: `bt_find(btr, simkey)` of `btree.c`, the entry for
which the comparator returns `0`, if any. -/
def bt_find {N : Type} (E : BtEnv) (btr : bt N) (simkey : List Nat) : Option (Entry N) :=
  btr.root.find? (keyMatches E simkey)

/-- Modelled from the spec: `bt_insert(btr, entry)` of `btree.c`; the container
tolerates duplicates. -/
def bt_insert {N : Type} (btr : bt N) (e : Entry N) : bt N :=
  { btr with root := e :: btr.root, numkeys := btr.numkeys + 1 }

/-- Modelled from the spec: `bt_delete(btr, simkey)` of `btree.c`, which
removes the entry that `bt_find` gives and returns it. -/
def bt_delete {N : Type} (E : BtEnv) (btr : bt N) (simkey : List Nat) :
    Option (Entry N) × bt N :=
  match bt_find E btr simkey with
  | none => (none, btr)
  | some e =>
    (some e, { btr with root := btr.root.eraseP (keyMatches E simkey),
                        numkeys := btr.numkeys - 1 })

/-- Modelled from the spec: `bt_malloc(size, btr)` of `btree.c`, a fresh block
of `size` bytes charged to the container. -/
def bt_malloc {N : Type} (size : Nat) (btr : bt N) : List Nat × bt N :=
  (malloc size, { btr with malloc_size := btr.malloc_size + size,
                           data_size := btr.data_size + size })

/-- Modelled from the spec: `bt_free(ptr, btr, size)` of `btree.c`, which
subtracts what `bt_malloc` added. -/
def bt_free {N : Type} (btr : bt N) (size : Nat) : bt N :=
  { btr with malloc_size := btr.malloc_size - size, data_size := btr.data_size - size }

/-- What a function of the API hands back: its return value, the content of
`SimKeyBuffer` and the B-tree afterwards. -/
structure Out (α N : Type) where
  ret : α
  SimKeyBuffer : List Nat
  btr : bt N

/-- The fields of the static `robj` (`BtRobj[nesting]`) that `abt_find_val`
returns a pointer to. -/
structure ValRobj (N : Type) where
  type : RedisType
  encoding : Encoding
  refcount : Nat
  ptr : ValPtr N
  deriving DecidableEq, Repr

/-- A key `robj`: the fields `encoding` and `ptr` that `createSimKey` reads. -/
structure KeyRobj where
  encoding : Encoding
  ptr : KeyPtr
  deriving DecidableEq, Repr

/-- The function `assignValRobj(stream, vtype, val, is_index)` of `bt.c`;
`none` is the assertion of `getSflag` in `skipToVal`. -/
def assignValRobj {N : Type} (stream : Entry N) (vtype : RedisType) (val : ValRobj N)
    (is_index : BtKind) : Option (ValRobj N) :=
  (skipToVal stream.stream).map fun r =>
    let val := { val with type := vtype }
    if vtype = RedisType.REDIS_ROW then { val with ptr := ValPtr.row r.2 }
    else if is_index = BtKind.BTREE_INDEX_NODE then { val with ptr := ValPtr.NULL }
    else { val with ptr := stream.ptr }

/-- The function `getStreamMallocSize(stream, vtype, is_index)` of `bt.c`;
`malloc_size_of` reads `btr->malloc_size` of a nested B-tree.  `none` is the
assertion of `getSflag` in `skipToVal`. -/
def getStreamMallocSize {N : Type} (E : BtEnv) (malloc_size_of : N → Int) (stream : Entry N)
    (vtype : RedisType) (is_index : BtKind) : Option Nat :=
  (skipToVal stream.stream).map fun r =>
    let klen := r.1
    let vlen : Nat :=
      if vtype = RedisType.REDIS_ROW then E.getRowMallocSize r.2 % 2 ^ 32
      else if is_index = BtKind.BTREE_INDEX_NODE then 0
      else
        match stream.ptr with
        | ValPtr.nbtr t => (SIZEOF_PTR + (malloc_size_of t % 2 ^ 32).toNat) % 2 ^ 32
        | _ => SIZEOF_PTR
    (klen + vlen) % 2 ^ 32

/-- The content of `SimKeyBuffer` after `createSimKey` returned `r`: the
stream itself, unless the stream is in a block of its own (`med`). -/
def bufferAfter (SimKeyBuffer : List Nat) (r : SimKey) : List Nat :=
  if r.med then SimKeyBuffer else r.simkey

/-- The function `abt_access_raw_val(btr, key, ktype, del)` of `bt.c`; `none`
is an assertion of `createSimKeyFromRaw`. -/
def abt_access_raw_val {N : Type} (E : BtEnv) (SimKeyBuffer : List Nat) (btr : bt N)
    (key : KeyRobj) (ktype : ColType) (del : Bool) : Option (Out (Option (Entry N)) N) :=
  match createSimKey E.atol SimKeyBuffer key.encoding key.ptr ktype with
  | SimKeyRet.assertFailed => none
  | SimKeyRet.NULL => some ⟨none, SimKeyBuffer, btr⟩
  | SimKeyRet.ok k =>
    if del then
      let r := bt_delete E btr k.simkey
      some ⟨r.1, bufferAfter SimKeyBuffer k, r.2⟩
    else some ⟨bt_find E btr k.simkey, bufferAfter SimKeyBuffer k, btr⟩

/-- The function `abt_create(ktype, num, is_index)` of `bt.c`. -/
def abt_create {N : Type} (E : BtEnv) (ktype : ColType) (num : Int) (is_index : BtKind) :
    bt N :=
  { (bt_create E E.TRANSITION_ONE_BTREE_BYTES : bt N) with
    ktype := ktype, is_index := is_index, num := num }

/-- The function `btCreate(ktype, num, is_index)` of `bt.c`. -/
def btCreate {N : Type} (E : BtEnv) (ktype : ColType) (num : Int) (is_index : BtKind) : bt N :=
  abt_create E ktype num is_index

/-- The function `createIndexNode(pktype)` of `bt.c`. -/
def createIndexNode {N : Type} (E : BtEnv) (pktype : ColType) : bt N :=
  btCreate E pktype (-1) BtKind.BTREE_INDEX_NODE

/-- The function `abt_find_val(btr, key, ktype, vtype, nesting)` of `bt.c`;
the `robj` it fills is handed back by value.  The store `BtRobj[nesting].type
= ktype` is overwritten by `assignValRobj`. -/
def abt_find_val {N : Type} (E : BtEnv) (SimKeyBuffer : List Nat) (btr : bt N)
    (key : KeyRobj) (ktype : ColType) (vtype : RedisType) (_nesting : Nat) :
    Option (Out (Option (ValRobj N)) N) :=
  match abt_access_raw_val E SimKeyBuffer btr key ktype false with
  | none => none
  | some o =>
    match o.ret with
    | none => some ⟨none, o.SimKeyBuffer, o.btr⟩
    | some stream =>
      (assignValRobj stream vtype ⟨vtype, Encoding.RAW, 1, ValPtr.NULL⟩ o.btr.is_index).map
        fun v => ⟨some v, o.SimKeyBuffer, o.btr⟩

/-- The function `abt_del(btr, key, ktype, vtype)` of `bt.c`; `malloc_size_of`
reads `btr->malloc_size` of a nested B-tree. -/
def abt_del {N : Type} (E : BtEnv) (malloc_size_of : N → Int) (SimKeyBuffer : List Nat)
    (btr : bt N) (key : KeyRobj) (ktype : ColType) (vtype : RedisType) :
    Option (Out Int N) :=
  match abt_access_raw_val E SimKeyBuffer btr key ktype true with
  | none => none
  | some o =>
    match o.ret with
    | none => some ⟨0, o.SimKeyBuffer, o.btr⟩
    | some stream =>
      (getStreamMallocSize E malloc_size_of stream vtype o.btr.is_index).map fun ssize =>
        ⟨1, o.SimKeyBuffer, bt_free o.btr ssize⟩

/-- Modelled from the spec: a node `bt_n` of `btree.h`: whether it is a leaf,
its keys `KEYS(btr, n)[0 .. n->n - 1]` and, when it is not a leaf, its children
`NODES(btr, n)[0 .. n->n]`. -/
inductive bt_n (N : Type) where
  | mk (leaf : Bool) (keys : List (Entry N)) (nodes : List (bt_n N))

mutual
/-- The function `bt_to_bt_insert(nbtr, obtr, n)` of `bt.c`: the keys of the
node `n` are inserted into `nbtr`, then those of its children. -/
def bt_to_bt_insert {N : Type} (nbtr : bt N) : bt_n N → bt N
  | bt_n.mk leaf keys nodes =>
    let nbtr := keys.foldl bt_insert nbtr
    if !leaf then bt_to_bt_insert_nodes nbtr nodes else nbtr
/-- The loop `for (int i = 0; i <= n->n; i++) bt_to_bt_insert(nbtr, obtr,
NODES(obtr, n)[i]);` of `bt_to_bt_insert` over the children of a node. -/
def bt_to_bt_insert_nodes {N : Type} (nbtr : bt N) : List (bt_n N) → bt N
  | [] => nbtr
  | n :: ns => bt_to_bt_insert_nodes (bt_to_bt_insert nbtr n) ns
end

/-- Modelled from the spec: the node `btr->root` of the container: `none` for
a `NULL` root (no entries), and else a leaf that holds the entries in the
order of their insertion. -/
def rootNode {N : Type} (btr : bt N) : Option (bt_n N) :=
  if btr.root.isEmpty then none else some (bt_n.mk true btr.root.reverse [])

/-- The function `abt_resize(obtr, new_size)` of `bt.c`: when `obtr->root` is
not `NULL`, the entries are inserted into the new container `nbtr`
(`bt_to_bt_insert`), the nodes of the old one are released (`bt_release`, which
leaves the entries alone), and the header of `nbtr` overwrites the one of
`obtr`; with a `NULL` root `obtr` is returned as it is. -/
def abt_resize {N : Type} (E : BtEnv) (obtr : bt N) (new_size : Nat) : bt N :=
  let nbtr : bt N :=
    { (bt_create E new_size : bt N) with
      ktype := obtr.ktype, is_index := obtr.is_index, num := obtr.num,
      data_size := obtr.data_size }
  match rootNode obtr with
  | some n => bt_to_bt_insert nbtr n
  | none => obtr

/-- The function `abt_insert(btr, key, val, ktype, vtype)` of `bt.c`; `val` is
`none` for a `NULL` pointer and else `val->ptr`.  `none` is an assertion of
`createSimKeyFromRaw`, or `getRowMallocSize` applied to something that is not
a row. -/
def abt_insert {N : Type} (E : BtEnv) (SimKeyBuffer : List Nat) (btr : bt N)
    (key : KeyRobj) (val : Option (ValPtr N)) (ktype : ColType) (vtype : RedisType) :
    Option (Out Nat N) :=
  let btr :=
    if btr.numkeys = E.TRANSITION_ONE_MAX then abt_resize E btr E.TRANSITION_TWO_BTREE_BYTES
    else btr
  match createSimKey E.atol SimKeyBuffer key.encoding key.ptr ktype with
  | SimKeyRet.assertFailed => none
  | SimKeyRet.NULL => some ⟨0, SimKeyBuffer, btr⟩
  | SimKeyRet.ok k =>
    let ssize := k.ksize
    let val_ptr : ValPtr N := val.getD ValPtr.NULL
    let vlen : Option Nat :=
      if vtype = RedisType.REDIS_ROW then
        match val_ptr with
        | ValPtr.row bytes => some (E.getRowMallocSize bytes % 2 ^ 32)
        | _ => none
      else
        match val_ptr with
        | ValPtr.NULL => some 0
        | _ => some SIZEOF_PTR
    vlen.map fun vlen =>
      let ssize := (ssize + vlen) % 2 ^ 32
      let m := bt_malloc ssize btr
      let bt_val := memcpy m.1 0 k.simkey k.ksize
      let e : Entry N :=
        if vtype = RedisType.REDIS_ROW then
          match val_ptr with
          | ValPtr.row bytes => ⟨memcpy bt_val k.ksize bytes vlen, ValPtr.NULL⟩
          | _ => ⟨bt_val, ValPtr.NULL⟩
        else ⟨bt_val, val_ptr⟩
      ⟨ssize, bufferAfter SimKeyBuffer k, bt_insert m.2 e⟩

/-- The function `btAdd(o, key, val, ktype)` of `bt.c`, on the B-tree
`o->ptr`. -/
def btAdd {N : Type} (E : BtEnv) (SimKeyBuffer : List Nat) (btr : bt N) (key : KeyRobj)
    (val : Option (ValPtr N)) (ktype : ColType) : Option (Out Int N) :=
  match abt_find_val E SimKeyBuffer btr key ktype RedisType.REDIS_ROW 0 with
  | none => none
  | some o =>
    if o.ret.isSome then some ⟨DICT_ERR, o.SimKeyBuffer, o.btr⟩
    else
      (abt_insert E o.SimKeyBuffer o.btr key val ktype RedisType.REDIS_ROW).map fun r =>
        ⟨toInt32 r.ret, r.SimKeyBuffer, r.btr⟩

/-- The function `btReplace(o, key, val, ktype)` of `bt.c`. -/
def btReplace {N : Type} (E : BtEnv) (malloc_size_of : N → Int) (SimKeyBuffer : List Nat)
    (btr : bt N) (key : KeyRobj) (val : Option (ValPtr N)) (ktype : ColType) :
    Option (Out Int N) :=
  match abt_del E malloc_size_of SimKeyBuffer btr key ktype RedisType.REDIS_ROW with
  | none => none
  | some o =>
    if o.ret = 0 then some ⟨DICT_ERR, o.SimKeyBuffer, o.btr⟩
    else
      (abt_insert E o.SimKeyBuffer o.btr key val ktype RedisType.REDIS_ROW).map fun r =>
        ⟨DICT_OK, r.SimKeyBuffer, r.btr⟩

/-- The function `btIndAdd(ibtr, key, nbtr, ktype)` of `bt.c`; `nbtr` is
`none` for a `NULL` pointer. -/
def btIndAdd {N : Type} (E : BtEnv) (SimKeyBuffer : List Nat) (ibtr : bt N) (key : KeyRobj)
    (nbtr : Option N) (ktype : ColType) : Option (Out Int N) :=
  let BtIndVal : ValPtr N :=
    match nbtr with
    | none => ValPtr.NULL
    | some t => ValPtr.nbtr t
  match abt_find_val E SimKeyBuffer ibtr key ktype RedisType.REDIS_BTREE 1 with
  | none => none
  | some o =>
    if o.ret.isSome then some ⟨DICT_ERR, o.SimKeyBuffer, o.btr⟩
    else
      (abt_insert E o.SimKeyBuffer o.btr key (some BtIndVal) ktype RedisType.REDIS_BTREE).map
        fun r => ⟨DICT_OK, r.SimKeyBuffer, r.btr⟩

/-- The function `btIndFindVal(ibtr, key, ktype)` of `bt.c`. -/
def btIndFindVal {N : Type} (E : BtEnv) (SimKeyBuffer : List Nat) (ibtr : bt N)
    (key : KeyRobj) (ktype : ColType) : Option (Out (Option (ValRobj N)) N) :=
  abt_find_val E SimKeyBuffer ibtr key ktype RedisType.REDIS_BTREE 1

/-- The function `btIndDelete(ibtr, key, ktype)` of `bt.c`. -/
def btIndDelete {N : Type} (E : BtEnv) (malloc_size_of : N → Int) (SimKeyBuffer : List Nat)
    (ibtr : bt N) (key : KeyRobj) (ktype : ColType) : Option (Out Int N) :=
  (abt_del E malloc_size_of SimKeyBuffer ibtr key ktype RedisType.REDIS_BTREE).map fun o =>
    ⟨(o.btr.numkeys : Int), o.SimKeyBuffer, o.btr⟩

/-- The function `btIndNodeAdd(nbtr, key, ktype)` of `bt.c`. -/
def btIndNodeAdd {N : Type} (E : BtEnv) (SimKeyBuffer : List Nat) (nbtr : bt N)
    (key : KeyRobj) (ktype : ColType) : Option (Out Int N) :=
  match abt_find_val E SimKeyBuffer nbtr key ktype RedisType.REDIS_BTREE 1 with
  | none => none
  | some o =>
    if o.ret.isSome then some ⟨DICT_ERR, o.SimKeyBuffer, o.btr⟩
    else
      (abt_insert E o.SimKeyBuffer o.btr key none ktype RedisType.REDIS_BTREE).map
        fun r => ⟨DICT_OK, r.SimKeyBuffer, r.btr⟩

/-- The function `btIndNodeDelete(nbtr, key, ktype)` of `bt.c`. -/
def btIndNodeDelete {N : Type} (E : BtEnv) (malloc_size_of : N → Int)
    (SimKeyBuffer : List Nat) (nbtr : bt N) (key : KeyRobj) (ktype : ColType) :
    Option (Out Int N) :=
  (abt_del E malloc_size_of SimKeyBuffer nbtr key ktype RedisType.REDIS_BTREE).map fun o =>
    ⟨(o.btr.numkeys : Int), o.SimKeyBuffer, o.btr⟩

/-! ## `DB/alsosql.c`: replies, catalog and state

The embedding of `DB/alsosql.c` passes the state explicitly.  A C array
(`cmatchs[]`, `inds[]`, `cofsts[]`, ...) is a function from the index to the
element; a `bt *` obtained from `getBtr(t)` is represented by the table id `t`
and designates the field `btr t` of the state.  Memory is not part of the
state, so `free`, `sdsfree`, `destroyAobj`, `releaseAobj`, `destroy_wob` and
`destroy_check_sql_where_clause` have no counterpart. -/

/-- The replies `addReply` is called with in the embedded functions (members of
`shared`), `row_size` for the bulk reply of `addRowSizeReply` with the four
numbers it prints, and `other` for a reply assembled by a collaborator. -/
inductive Reply where
  | ok
  | cone
  | czero
  | insertcolumn
  | uint_pkbig
  | insert_ovrwrt
  | insert_lru
  | part_insert_other
  | insertsyntax_no_values
  | insert_replace_update
  | constraint_viol
  | update_lru
  | update_pk_range_query
  | update_pk_overwrite
  | rangequery_index_not_found
  | updatesyntax
  | updatesyntax_nowhere
  | could_not_parse (x : List Nat)
  | row_size (len : Int) (msize dsize : Int) (index_size : Nat)
  | other (text : List Nat)
  deriving DecidableEq, Repr

/-- The type `twoint` (declared outside the sources): the byte range `i`, `j`
of a column inside a tuple. -/
structure twoint where
  i : Int
  j : Int
  deriving DecidableEq, Repr

/-- The type `aobj` (declared outside the sources), with the fields that
`insertCommit` assigns. -/
structure aobj where
  type : ColType
  enc : ColType
  i : Int
  l : Nat
  f : Nat
  s : List Nat
  len : Int
  freeme : Bool
  deriving DecidableEq, Repr

/-- The ordering-constraint descriptor `rt->rn` (declared outside the sources),
with the fields that `check_constraints` reads. -/
structure r_rn_t where
  imatch : Int
  cmatch : Nat
  asc : Bool

/-- The table descriptor `r_tbl_t` (declared outside the sources), with the
fields that `alsosql.c` reads. -/
structure r_tbl_t where
  name : List Nat
  col_count : Nat
  col_name : Nat → List Nat
  col_type : Nat → ColType
  rn : Option r_rn_t
  lrud : Nat
  lruc : Int
  lrui : Int
  sk : Nat
  vimatch : Int

/-- The index descriptor `r_ind_t` (declared outside the sources), with the
field that `check_constraints` reads. -/
structure r_ind_t where
  column : Nat

/-- The state the embedded functions act on: the argument count, the argument
vector and the reply list of the client `c`, the data B-tree of each table (`getBtr`), the B-tree of each index
(`getIBtr`), the counter `server.dirty`, and the catalog arrays `Tbl` and
`Index`. -/
structure State (BT IX : Type) where
  argc : Nat
  argv : Nat → List Nat
  reply : List Reply
  btr : Nat → BT
  ibtr : Int → IX
  dirty : Nat
  Tbl : Nat → r_tbl_t
  Index : Int → r_ind_t

/-- The call `addReply(c, r)`. -/
def addReply {BT IX : Type} (c : State BT IX) (r : Reply) : State BT IX :=
  { c with reply := c.reply ++ [r] }

/-- The kinds of where-clause (`w.wtype`, declared outside the sources; the
names are those of `RangeType`). -/
inductive WType where
  | SQL_ERR_LKP
  | SQL_SINGLE_LKP
  | SQL_RANGE_LKP
  | SQL_IN_LKP
  | SQL_SINGLE_FK_LKP
  deriving DecidableEq, Repr

/-- The filter `w.wf` (declared outside the sources), with the fields that
`updateAction` reads or assigns. -/
structure f_t where
  imatch : Int
  tmatch : Int
  akey : aobj
  deriving DecidableEq, Repr

/-- The where-clause `cswc_t` (declared outside the sources). -/
structure cswc_t where
  wtype : WType
  wf : f_t
  token : Option (List Nat)
  lvr : Option (List Nat)
  deriving DecidableEq, Repr

/-- The order-by clause `wob_t` (declared outside the sources). -/
structure wob_t where
  nob : Int
  lim : Int
  ofst : Int
  ovar : Option (List Nat)
  deriving DecidableEq, Repr

/-- The update expression `ue_t` (declared outside the sources): the flag
`yes` and what `parseExpr` stored. -/
structure ue_t where
  yes : Nat
  parsed : List Int
  deriving DecidableEq, Repr

/-- What `parseRowVals` hands back on success: the returned `mvals`, and the
out-parameters `pk`, `pklen` and `cofsts`. -/
structure RowVals where
  mvals : List Nat
  pk : List Nat
  pklen : Int
  cofsts : Nat → twoint

/-- What `parseUpdateColListReply` hands back: the number of SET entries and
the arrays `cmatchs`, `mvals`, `mvlens`. -/
structure UpdateCols where
  qcols : Int
  cmatchs : Nat → Int
  mvals : Nat → List Nat
  mvlens : Nat → Nat

/-- The per-column arrays `cmiss`, `vals`, `vlens`, `ue` of `updateAction`. -/
structure MissArrays where
  cmiss : Nat → Nat
  vals : Nat → List Nat
  vlens : Nat → Nat
  ue : Nat → ue_t

/-- The collaborators of `alsosql.c` that are not among the sources (parsers,
the B-tree and index primitives, the row codec, the range executor, libc
conversions and the macros of `common.h`), taken as parameters.  `BT` is a data
B-tree, `IX` an index B-tree, `NBT` a nested B-tree of primary keys and `Row`
a stored row. -/
structure Ext (BT IX NBT Row : Type) where
  initAobj : aobj
  initAobjInt : Int → aobj
  initAobjLong : Int → aobj
  createAobjFromString : List Nat → Nat → ColType → aobj
  aobjGT : aobj → aobj → Bool
  aobjLT : aobj → aobj → Bool
  atol : List Nat → Int
  strtoul : List Nat → Nat
  atof : List Nat → Nat
  parseRowVals : List Nat → Int → Nat → Nat → (Nat → Int) → Option RowVals
  btFind : BT → aobj → Option Row
  btIndFind : IX → aobj → Option NBT
  assignMaxKey : NBT → Option aobj
  assignMinKey : NBT → Option aobj
  getCol : BT → Option Row → Nat → aobj → Nat → aobj
  createRow : State BT IX → Nat → Nat → Int → List Nat → (Nat → twoint) →
    State BT IX × Option Row
  addToIndex : State BT IX → Nat → aobj → Row → Int → State BT IX × Bool
  delFromIndex : State BT IX → Nat → aobj → Row → Int → State BT IX
  btReplace : BT → aobj → Row → BT × Int
  btAdd : BT → aobj → Row → BT × Int
  UPDATE_AUTO_INC : State BT IX → Nat → ColType → aobj → State BT IX
  TABLE_CHECK_OR_REPLY : State BT IX → List Nat → State BT IX × Option Nat
  MATCH_INDICES : State BT IX → Nat → Nat × (Nat → Int)
  parseUpdateColListReply : State BT IX → Nat → List Nat → State BT IX × UpdateCols
  isExpression : List Nat → Nat → Nat
  parseExpr : State BT IX → Nat → Nat → Int → ColType → List Nat → Nat →
    State BT IX × Option ue_t
  initFilter : f_t
  parseWCReply : State BT IX → cswc_t → wob_t → State BT IX × cswc_t × wob_t
  ISBLANK : Nat → Bool
  iupdateAction : State BT IX → cswc_t → wob_t → Nat → Nat → (Nat → Int) → MissArrays →
    State BT IX
  updateRow : State BT IX → Nat → aobj → Row → Int → Nat → Nat → (Nat → Int) →
    MissArrays → State BT IX × Int
  incrOffsetVar : State BT IX → wob_t → Int → State BT IX
  parseCommaSpaceList : State BT IX → List Nat → Nat → State BT IX × (Nat → Int) × Nat
  OTHER_BT : BT → Bool
  msize : BT → Int
  dsize : BT → Int
  get_sum_all_index_size_for_table : State BT IX → Nat → Nat

/-- Modelled from the spec: the macro `C_IS_I` of `common.h` (not among the
sources), the test for the column type INT. -/
def C_IS_I (t : ColType) : Bool := t == ColType.INT

/-- Modelled from the spec: the macro `C_IS_L` of `common.h`, the test for the
column type LONG. -/
def C_IS_L (t : ColType) : Bool := t == ColType.LONG

/-- Modelled from the spec: the macro `C_IS_F` of `common.h`, the test for the
column type FLOAT. -/
def C_IS_F (t : ColType) : Bool := t == ColType.FLOAT

/-- The result code `#define INS_ERR 0`. -/
def INS_ERR : Nat := 0

/-- The result code `#define INS_INS 1`. -/
def INS_INS : Nat := 1

/-- The result code `#define INS_UP 2`. -/
def INS_UP : Nat := 2

/-- The bytes of a C string: those before the first zero byte. -/
def cstr (s : List Nat) : List Nat := s.takeWhile (fun b => b != 0)

/-- The libc call `tolower` on an ASCII byte. -/
def tolower (b : Nat) : Nat := if 65 ≤ b ∧ b ≤ 90 then b + 32 else b

/-- Whether the libc call `strcasecmp(a, b)` returns a non-zero value. -/
def strcasecmp (a b : List Nat) : Bool :=
  (cstr a).map tolower != (cstr b).map tolower

/-- The bytes `vals + i .. vals + i + clen` copied into `numbuf` and
terminated by a zero byte, as a C string. -/
def numbuf (vals : List Nat) (i clen : Int) : List Nat :=
  cstr ((vals.drop i.toNat).take clen.toNat)

/-- Conversion of a `long` to `int` (two's complement, 32 bit). -/
def longToInt (l : Int) : Int := (l + 2 ^ 31) % 2 ^ 32 - 2 ^ 31

/-- Assignment to one element of an array. -/
def setAt {α : Type} (a : Nat → α) (i : Nat) (v : α) : Nat → α :=
  fun n => if n = i then v else a n

/-- Conversion of the `unsigned long` result of `strtoul` to `lolo`
(`long long`, two's complement, 64 bit). -/
def ulongToLolo (u : Nat) : Int :=
  if u % 2 ^ 64 < 2 ^ 63 then ((u % 2 ^ 64 : Nat) : Int)
  else ((u % 2 ^ 64 : Nat) : Int) - 2 ^ 64

/-! ## `check_constraints` -/

/-- The function `check_constraints(c, btr, tmatch, ncols, vals, cofsts, apk)`
of `alsosql.c`: returns the state (with `constraint_viol` added on a
violation) and the boolean result. -/
def check_constraints {BT IX NBT Row : Type} (E : Ext BT IX NBT Row) (c : State BT IX)
    (btr : Nat) (tmatch : Nat) (_ncols : Int) (vals : List Nat) (cofsts : Nat → twoint)
    (apk : aobj) : State BT IX × Bool :=
  let rt := c.Tbl tmatch
  match rt.rn with
  | none => (c, false)
  | some rn =>
    let ri := c.Index rn.imatch
    let cmatch := rn.cmatch
    let clen := (cofsts cmatch).j - (cofsts cmatch).i
    let cval := ulongToLolo (E.strtoul (numbuf vals (cofsts cmatch).i clen))
    let acol := if C_IS_I (rt.col_type cmatch) then E.initAobjInt cval
      else E.initAobjLong cval
    let icmatch := ri.column
    let clen := (cofsts icmatch).j - (cofsts icmatch).i
    let icval := ulongToLolo (E.strtoul (numbuf vals (cofsts icmatch).i clen))
    let icol := if C_IS_I (rt.col_type cmatch) then E.initAobjInt icval
      else E.initAobjLong icval
    let ibtr := c.ibtr rn.imatch
    match E.btIndFind ibtr icol with
    | none => (c, false)
    | some nbtr =>
      match (if rn.asc then E.assignMaxKey nbtr else E.assignMinKey nbtr) with
      | none => (c, false)
      | some nabr =>
        let rrow := E.btFind (c.btr btr) nabr
        let nabrc := E.getCol (c.btr btr) rrow cmatch apk tmatch
        let cmp := if rn.asc then E.aobjGT else E.aobjLT
        if cmp nabrc acol then (addReply c Reply.constraint_viol, true)
        else (c, false)

/-! ## `UPDATE`: `initLRUCS`, `ovwrPKUp`, `assignMisses`, `getPkUpdateCol`,
`updateAction` -/

/-- The function `initLRUCS(tmatch, cmatchs, qcols)`, on the descriptor
`rt = &Tbl[tmatch]`. -/
def initLRUCS (rt : r_tbl_t) (cmatchs : Nat → Int) (qcols : Int) : Bool :=
  if rt.lrud ≠ 0 then (List.range qcols.toNat).any fun i => cmatchs i == rt.lruc
  else false

/-- The function `ovwrPKUp(c, pkupc, mvals, mvlens, pktyp, btr)`. -/
def ovwrPKUp {BT IX NBT Row : Type} (E : Ext BT IX NBT Row) (c : State BT IX)
    (pkupc : Int) (mvals : Nat → List Nat) (mvlens : Nat → Nat) (pktyp : ColType)
    (btr : Nat) : State BT IX × Bool :=
  let ax := E.createAobjFromString (mvals pkupc.toNat) (mvlens pkupc.toNat) pktyp
  let xrow := E.btFind (c.btr btr) ax
  if xrow.isSome then (addReply c Reply.update_pk_overwrite, true) else (c, false)

/-- The body of the outer loop of `assignMisses`, for the columns `cols` still
to visit; `none` is the early `return 0`. -/
def assignMissesLoop {BT IX NBT Row : Type} (E : Ext BT IX NBT Row) (tmatch : Nat)
    (qcols : Int) (cmatchs : Nat → Int) (mvals : Nat → List Nat) (mvlens : Nat → Nat)
    (rt : r_tbl_t) : List Nat → State BT IX → MissArrays → State BT IX × Option MissArrays
  | [], c, A => (c, some A)
  | i :: cols, c, A =>
    let A := { A with ue := setAt A.ue i { A.ue i with yes := 0 } }
    match (List.range qcols.toNat).find? fun j => (i : Int) == cmatchs j with
    | none =>
      assignMissesLoop E tmatch qcols cmatchs mvals mvlens rt cols c
        { A with cmiss := setAt A.cmiss i 1 }
    | some j =>
      let A := { A with vals := setAt A.vals i (mvals j), vlens := setAt A.vlens i (mvlens j) }
      let e := E.isExpression (A.vals i) (A.vlens i)
      if e ≠ 0 then
        match E.parseExpr c e tmatch (cmatchs j) (rt.col_type i) (A.vals i) (A.vlens i) with
        | (c, none) => (c, none)
        | (c, some u) =>
          assignMissesLoop E tmatch qcols cmatchs mvals mvlens rt cols c
            { A with ue := setAt A.ue i { u with yes := 1 }, cmiss := setAt A.cmiss i 0 }
      else
        assignMissesLoop E tmatch qcols cmatchs mvals mvlens rt cols c
          { A with cmiss := setAt A.cmiss i 0 }

/-- The function `assignMisses(c, tmatch, ncols, qcols, cmatchs, cmiss, vals,
vlens, ue, mvals, mvlens)`; `A` holds the four per-column arrays on entry. -/
def assignMisses {BT IX NBT Row : Type} (E : Ext BT IX NBT Row) (c : State BT IX)
    (tmatch : Nat) (ncols : Nat) (qcols : Int) (cmatchs : Nat → Int) (A : MissArrays)
    (mvals : Nat → List Nat) (mvlens : Nat → Nat) : State BT IX × Option MissArrays :=
  assignMissesLoop E tmatch qcols cmatchs mvals mvlens (c.Tbl tmatch) (List.range ncols) c A

/-- The function `getPkUpdateCol(qcols, cmatchs)`. -/
def getPkUpdateCol (qcols : Int) (cmatchs : Nat → Int) : Int :=
  match (List.range qcols.toNat).find? fun i => cmatchs i == 0 with
  | some i => (i : Int)
  | none => -1

/-- The function `init_wob(wb)`. -/
def init_wob : wob_t := ⟨0, -1, -1, none⟩

/-- The function `init_check_sql_where_clause(w, tmatch, token)`. -/
def init_check_sql_where_clause {BT IX NBT Row : Type} (E : Ext BT IX NBT Row)
    (tmatch : Int) (token : Option (List Nat)) : cswc_t :=
  { wtype := WType.SQL_ERR_LKP, wf := { E.initFilter with tmatch := tmatch },
    token := token, lvr := none }

/-- The function `leftoverParsingReply(c, x)`. -/
def leftoverParsingReply {BT IX NBT Row : Type} (E : Ext BT IX NBT Row) (c : State BT IX)
    (x : Option (List Nat)) : State BT IX × Bool :=
  match x with
  | none => (c, true)
  | some x =>
    let x := (cstr x).dropWhile E.ISBLANK
    if x ≠ [] then (addReply c (Reply.could_not_parse x), false) else (c, true)

/-- The four per-column arrays of `updateAction` before `assignMisses` runs
(uninitialised in C). -/
def noArrays : MissArrays := ⟨fun _ => 0, fun _ => [], fun _ => 0, fun _ => ⟨0, []⟩⟩

/-- The function `updateAction(c, u_vallist, u_apk, u_tmatch)`; `u_vallist` is
`none` for a `NULL` pointer, and `u_apk` is only read when `u_vallist` is
given.  Returns the state and `nsize`. -/
def updateAction {BT IX NBT Row : Type} (E : Ext BT IX NBT Row) (c : State BT IX)
    (u_vallist : Option (List Nat)) (u_apk : aobj) (u_tmatch : Int) : State BT IX × Int :=
  let pre : State BT IX × Option Int :=
    match u_vallist with
    | some _ => (c, some u_tmatch)
    | none =>
      match E.TABLE_CHECK_OR_REPLY c (c.argv 1) with
      | (c, none) => (c, none)
      | (c, some tmatch) =>
        if strcasecmp (c.argv 2) [83, 69, 84] then (addReply c Reply.updatesyntax, none)
        else if strcasecmp (c.argv 4) [87, 72, 69, 82, 69] then
          (addReply c Reply.updatesyntax_nowhere, none)
        else (c, some (tmatch : Int))
  match pre with
  | (c, none) => (c, -1)
  | (c, some u_tmatch) =>
    let tmatch := u_tmatch.toNat
    let vallist := match u_vallist with
      | some v => v
      | none => c.argv 3
    match E.parseUpdateColListReply c tmatch vallist with
    | (c, uc) =>
      if uc.qcols = 0 then (c, -1)
      else if initLRUCS (c.Tbl tmatch) uc.cmatchs uc.qcols then
        (addReply c Reply.update_lru, -1)
      else
        let pkupc := getPkUpdateCol uc.qcols uc.cmatchs
        let mi := E.MATCH_INDICES c tmatch
        let rt := c.Tbl tmatch
        let ncols := rt.col_count
        match assignMisses E c tmatch ncols uc.qcols uc.cmatchs noArrays uc.mvals uc.mvlens with
        | (c, none) => (c, -1)
        | (c, some A) =>
          let wb := init_wob
          let wres : State BT IX × cswc_t × wob_t × Bool :=
            match u_vallist with
            | some _ =>
              let w := init_check_sql_where_clause E tmatch none
              (c, { w with wtype := WType.SQL_SINGLE_LKP,
                           wf := { w.wf with imatch := rt.vimatch, tmatch := u_tmatch,
                                             akey := u_apk } }, wb, true)
            | none =>
              let w := init_check_sql_where_clause E tmatch (some (c.argv 5))
              match E.parseWCReply c w wb with
              | (c, w, wb) =>
                if w.wtype = WType.SQL_ERR_LKP then (c, w, wb, false)
                else
                  match leftoverParsingReply E c w.lvr with
                  | (c, false) => (c, w, wb, false)
                  | (c, true) => (c, w, wb, true)
          match wres with
          | (c, _, _, false) => (c, -1)
          | (c, w, wb, true) =>
            if w.wtype ≠ WType.SQL_SINGLE_LKP then
              if pkupc ≠ -1 then (addReply c Reply.update_pk_range_query, -1)
              else if w.wf.imatch = -1 then
                (addReply c Reply.rangequery_index_not_found, -1)
              else (E.iupdateAction c w wb ncols mi.1 mi.2 A, -1)
            else
              let pktyp := rt.col_type 0
              let btr := w.wf.tmatch.toNat
              match (if pkupc ≠ -1 then ovwrPKUp E c pkupc uc.mvals uc.mvlens pktyp btr
                     else (c, false)) with
              | (c, true) => (c, -1)
              | (c, false) =>
                let apk := w.wf.akey
                match E.btFind (c.btr btr) apk with
                | none => (addReply c Reply.czero, -1)
                | some row =>
                  match E.updateRow c btr apk row w.wf.tmatch ncols mi.1 mi.2 A with
                  | (c, nsize) =>
                    if nsize = -1 then (c, -1)
                    else
                      let c := if u_vallist.isNone then addReply c Reply.cone else c
                      let c := if wb.ovar.isSome then E.incrOffsetVar c wb 1 else c
                      (c, nsize)

/-! ## `INSERT`: `insertCommit` -/

/-- What `insertCommit` hands back: the returned code, the value of `*tsize`
afterwards (`none` when `tsize` is `NULL`) and the string stored in `*key` in
parse mode. -/
structure InsertResult where
  ret : Nat
  tsize : Option Nat
  key : Option (List Nat)
  deriving DecidableEq, Repr

/-- The loop `for (i = 0; i < matches; i++) if (!addToIndex(c, btr, &apk, nrow,
inds[i])) goto insc_end;` over the positions `is`; the boolean is `false`
when the loop left through the `goto`. -/
def addToIndexes {BT IX NBT Row : Type} (E : Ext BT IX NBT Row) (btr : Nat) (apk : aobj)
    (nrow : Row) (inds : Nat → Int) : List Nat → State BT IX → State BT IX × Bool
  | [], c => (c, true)
  | i :: is, c =>
    match E.addToIndex c btr apk nrow (inds i) with
    | (c, false) => (c, false)
    | (c, true) => addToIndexes E btr apk nrow inds is c

/-- The loop `for (i = 0; i < matches; i++) delFromIndex(btr, &apk, rrow,
inds[i]);` over the positions `is`. -/
def delFromIndexes {BT IX NBT Row : Type} (E : Ext BT IX NBT Row) (btr : Nat) (apk : aobj)
    (rrow : Row) (inds : Nat → Int) : List Nat → State BT IX → State BT IX
  | [], c => c
  | i :: is, c => delFromIndexes E btr apk rrow inds is (E.delFromIndex c btr apk rrow (inds i))

/-- The statements `if (tsize) *tsize = *tsize + len; server.dirty++;` followed
by `insc_end` and the return of `ret`. -/
def insertCommitted {BT IX : Type} (c : State BT IX) (tsize : Option Nat) (len : Int)
    (ret : Nat) : State BT IX × InsertResult :=
  ({ c with dirty := c.dirty + 1 },
    ⟨ret, tsize.map fun t => (((t : Int) + len) % 2 ^ 32).toNat, none⟩)

/-- The primary key `apk` that `insertCommit` builds from the text `pk` once
the test against `TWO_POW_32` has passed: `initAobj(&apk); apk.type = apk.enc =
pktyp;` and the assignment of `apk.i`, `apk.l`, `apk.f` or `apk.s`, `apk.len`,
`apk.freeme` that `pktyp` selects. -/
def assignApk {BT IX NBT Row : Type} (E : Ext BT IX NBT Row) (pktyp : ColType)
    (pr : RowVals) : aobj :=
  let apk : aobj := { E.initAobj with type := pktyp, enc := pktyp }
  if C_IS_I pktyp then { apk with i := longToInt (E.atol pr.pk) }
  else if C_IS_L pktyp then { apk with l := E.strtoul pr.pk }
  else if C_IS_F pktyp then { apk with f := E.atof pr.pk }
  else { apk with s := pr.pk, len := pr.pklen, freeme := false }

/-- The function `insertCommit(c, argv, vals, ncols, tmatch, matches, inds,
pcols, cmatchs, repl, upd, tsize, parse, key)` of `alsosql.c`.  The
parameter `upd` is the position of the SET list in `argv` (`0` without ON
DUPLICATE KEY UPDATE), held in the integer type that `common.h` calls `bool`;
`ret` is of that type too and holds `INS_ERR`, `INS_INS` or `INS_UP`.  The
content of `cofsts` before `parseRowVals` (all `-1` when `pcols` is set,
uninitialised otherwise) is determined by `pcols`, which `parseRowVals`
receives.  The parameter `matches` is called `nmatches` here. -/
def insertCommit {BT IX NBT Row : Type} (E : Ext BT IX NBT Row) (c : State BT IX)
    (argv : Nat → List Nat) (vals : List Nat) (ncols : Nat) (tmatch : Nat)
    (nmatches : Nat) (inds : Nat → Int) (pcols : Nat) (cmatchs : Nat → Int)
    (repl : Bool) (upd : Nat) (tsize : Option Nat) (parse : Bool) :
    State BT IX × InsertResult :=
  let rt := c.Tbl tmatch
  let lncols : Int := if rt.lrud ≠ 0 then (ncols : Int) - 1 else (ncols : Int)
  match E.parseRowVals vals lncols tmatch pcols cmatchs with
  | none => (addReply c Reply.insertcolumn, ⟨INS_ERR, tsize, none⟩)
  | some pr =>
    if parse then
      let skl := (pr.cofsts rt.sk).j - (pr.cofsts rt.sk).i
      let sk := if rt.sk ≠ 0 then
          sdsnewlen (pr.mvals.drop (pr.cofsts rt.sk).i.toNat) skl.toNat
        else pr.pk
      (c, ⟨INS_ERR, tsize,
        some (cstr sk ++ [61] ++ cstr rt.name ++ [46] ++ cstr (rt.col_name rt.sk))⟩)
    else
      let pktyp := rt.col_type 0
      if C_IS_I pktyp ∧ E.atol pr.pk ≥ (TWO_POW_32 : Int) then
        (addReply c Reply.uint_pkbig, ⟨INS_ERR, tsize, none⟩)
      else
        let apk : aobj := assignApk E pktyp pr
        let btr := tmatch
        let rrow := E.btFind (c.btr btr) apk
        if rrow.isSome ∧ upd = 0 ∧ repl = false then
          (addReply c Reply.insert_ovrwrt, ⟨INS_ERR, tsize, none⟩)
        else if rrow.isSome ∧ upd ≠ 0 then
          match updateAction E c (some (argv upd)) apk tmatch with
          | (c, len) =>
            if len = -1 then (c, ⟨INS_ERR, tsize, none⟩)
            else insertCommitted c tsize len INS_UP
        else
          match check_constraints E c btr tmatch lncols pr.mvals pr.cofsts apk with
          | (c, true) => (c, ⟨INS_ERR, tsize, none⟩)
          | (c, false) =>
            match E.createRow c btr tmatch lncols pr.mvals pr.cofsts with
            | (c, none) => (c, ⟨INS_ERR, tsize, none⟩)
            | (c, some nrow) =>
              let indexed : State BT IX × Bool :=
                if nmatches ≠ 0 then
                  match addToIndexes E btr apk nrow inds (List.range nmatches) c with
                  | (c, false) => (c, false)
                  | (c, true) =>
                    match rrow with
                    | some old =>
                      if repl then
                        (delFromIndexes E btr apk old inds (List.range nmatches) c, true)
                      else (c, true)
                    | none => (c, true)
                else (c, true)
              match indexed with
              | (c, false) => (c, ⟨INS_ERR, tsize, none⟩)
              | (c, true) =>
                let written : BT × Int :=
                  if repl ∧ rrow.isSome then E.btReplace (c.btr btr) apk nrow
                  else E.btAdd (c.btr btr) apk nrow
                let c := { c with btr := setAt c.btr btr written.1 }
                let c := E.UPDATE_AUTO_INC c tmatch pktyp apk
                insertCommitted c tsize written.2 INS_INS

/-! ## The two halves of `updateAction`

`updateFront` is `updateAction` up to the test of `w.wtype` (parsing of the SET
list and of the where-clause), `updateExec` is the rest (the range path and the
single-row path).  `updateAction_stages` shows that `updateAction` is the one
followed by the other. -/

/-- The local variables of `updateAction` when it reaches the test
`if (w.wtype != SQL_SINGLE_LKP)`. -/
structure UpdateFront where
  uc : UpdateCols
  pkupc : Int
  nmatches : Nat
  inds : Nat → Int
  rt : r_tbl_t
  ncols : Nat
  A : MissArrays
  w : cswc_t
  wb : wob_t

/-- The statements of `updateAction` before the test of `w.wtype`; `none` is a
`return -1` or a `goto upc_end` taken there. -/
def updateFront {BT IX NBT Row : Type} (E : Ext BT IX NBT Row) (c : State BT IX)
    (u_vallist : Option (List Nat)) (u_apk : aobj) (u_tmatch : Int) :
    State BT IX × Option UpdateFront :=
  let pre : State BT IX × Option Int :=
    match u_vallist with
    | some _ => (c, some u_tmatch)
    | none =>
      match E.TABLE_CHECK_OR_REPLY c (c.argv 1) with
      | (c, none) => (c, none)
      | (c, some tmatch) =>
        if strcasecmp (c.argv 2) [83, 69, 84] then (addReply c Reply.updatesyntax, none)
        else if strcasecmp (c.argv 4) [87, 72, 69, 82, 69] then
          (addReply c Reply.updatesyntax_nowhere, none)
        else (c, some (tmatch : Int))
  match pre with
  | (c, none) => (c, none)
  | (c, some u_tmatch) =>
    let tmatch := u_tmatch.toNat
    let vallist := match u_vallist with
      | some v => v
      | none => c.argv 3
    match E.parseUpdateColListReply c tmatch vallist with
    | (c, uc) =>
      if uc.qcols = 0 then (c, none)
      else if initLRUCS (c.Tbl tmatch) uc.cmatchs uc.qcols then
        (addReply c Reply.update_lru, none)
      else
        let pkupc := getPkUpdateCol uc.qcols uc.cmatchs
        let mi := E.MATCH_INDICES c tmatch
        let rt := c.Tbl tmatch
        let ncols := rt.col_count
        match assignMisses E c tmatch ncols uc.qcols uc.cmatchs noArrays uc.mvals uc.mvlens with
        | (c, none) => (c, none)
        | (c, some A) =>
          let wb := init_wob
          match u_vallist with
          | some _ =>
            let w := init_check_sql_where_clause E tmatch none
            (c, some ⟨uc, pkupc, mi.1, mi.2, rt, ncols, A,
              { w with wtype := WType.SQL_SINGLE_LKP,
                       wf := { w.wf with imatch := rt.vimatch, tmatch := u_tmatch,
                                         akey := u_apk } }, wb⟩)
          | none =>
            let w := init_check_sql_where_clause E tmatch (some (c.argv 5))
            match E.parseWCReply c w wb with
            | (c, w, wb) =>
              if w.wtype = WType.SQL_ERR_LKP then (c, none)
              else
                match leftoverParsingReply E c w.lvr with
                | (c, false) => (c, none)
                | (c, true) => (c, some ⟨uc, pkupc, mi.1, mi.2, rt, ncols, A, w, wb⟩)

/-- The statements of `updateAction` from the test of `w.wtype` on: the range
path and the single-row path, down to `return nsize`. -/
def updateExec {BT IX NBT Row : Type} (E : Ext BT IX NBT Row) (c : State BT IX)
    (u_vallist : Option (List Nat)) (f : UpdateFront) : State BT IX × Int :=
  if f.w.wtype ≠ WType.SQL_SINGLE_LKP then
    if f.pkupc ≠ -1 then (addReply c Reply.update_pk_range_query, -1)
    else if f.w.wf.imatch = -1 then (addReply c Reply.rangequery_index_not_found, -1)
    else (E.iupdateAction c f.w f.wb f.ncols f.nmatches f.inds f.A, -1)
  else
    let pktyp := f.rt.col_type 0
    let btr := f.w.wf.tmatch.toNat
    match (if f.pkupc ≠ -1 then ovwrPKUp E c f.pkupc f.uc.mvals f.uc.mvlens pktyp btr
           else (c, false)) with
    | (c, true) => (c, -1)
    | (c, false) =>
      let apk := f.w.wf.akey
      match E.btFind (c.btr btr) apk with
      | none => (addReply c Reply.czero, -1)
      | some row =>
        match E.updateRow c btr apk row f.w.wf.tmatch f.ncols f.nmatches f.inds f.A with
        | (c, nsize) =>
          if nsize = -1 then (c, -1)
          else
            let c := if u_vallist.isNone then addReply c Reply.cone else c
            let c := if f.wb.ovar.isSome then E.incrOffsetVar c f.wb 1 else c
            (c, nsize)

/-! ## The part of `insertCommit` after the primary key is built -/

/-- The last branch of `insertCommit` (the row is built and written): from
`check_constraints` down to `ret = INS_INS` and the return, for the tuple `pr`
and the row `rrow` that `btFind` gave for its primary key. -/
def insertCommitRow {BT IX NBT Row : Type} (E : Ext BT IX NBT Row) (c : State BT IX)
    (ncols : Nat) (tmatch : Nat) (nmatches : Nat) (inds : Nat → Int) (repl : Bool)
    (tsize : Option Nat) (pr : RowVals) (rrow : Option Row) : State BT IX × InsertResult :=
  let rt := c.Tbl tmatch
  let lncols : Int := if rt.lrud ≠ 0 then (ncols : Int) - 1 else (ncols : Int)
  let pktyp := rt.col_type 0
  let apk : aobj := assignApk E pktyp pr
  let btr := tmatch
  match check_constraints E c btr tmatch lncols pr.mvals pr.cofsts apk with
  | (c, true) => (c, ⟨INS_ERR, tsize, none⟩)
  | (c, false) =>
    match E.createRow c btr tmatch lncols pr.mvals pr.cofsts with
    | (c, none) => (c, ⟨INS_ERR, tsize, none⟩)
    | (c, some nrow) =>
      let indexed : State BT IX × Bool :=
        if nmatches ≠ 0 then
          match addToIndexes E btr apk nrow inds (List.range nmatches) c with
          | (c, false) => (c, false)
          | (c, true) =>
            match rrow with
            | some old =>
              if repl then
                (delFromIndexes E btr apk old inds (List.range nmatches) c, true)
              else (c, true)
            | none => (c, true)
        else (c, true)
      match indexed with
      | (c, false) => (c, ⟨INS_ERR, tsize, none⟩)
      | (c, true) =>
        let written : BT × Int :=
          if repl ∧ rrow.isSome then E.btReplace (c.btr btr) apk nrow
          else E.btAdd (c.btr btr) apk nrow
        let c := { c with btr := setAt c.btr btr written.1 }
        let c := E.UPDATE_AUTO_INC c tmatch pktyp apk
        insertCommitted c tsize written.2 INS_INS

/-- The statements of `insertCommit` from `bt *btr = getBtr(tmatch)` on, for the
tuple `pr` that `parseRowVals` has split and whose primary key has passed the
test against `TWO_POW_32`. -/
def insertCommitBody {BT IX NBT Row : Type} (E : Ext BT IX NBT Row) (c : State BT IX)
    (argv : Nat → List Nat) (ncols : Nat) (tmatch : Nat) (nmatches : Nat)
    (inds : Nat → Int) (repl : Bool) (upd : Nat) (tsize : Option Nat) (pr : RowVals) :
    State BT IX × InsertResult :=
  let rt := c.Tbl tmatch
  let pktyp := rt.col_type 0
  let apk : aobj := assignApk E pktyp pr
  let btr := tmatch
  let rrow := E.btFind (c.btr btr) apk
  if rrow.isSome ∧ upd = 0 ∧ repl = false then
    (addReply c Reply.insert_ovrwrt, ⟨INS_ERR, tsize, none⟩)
  else if rrow.isSome ∧ upd ≠ 0 then
    match updateAction E c (some (argv upd)) apk tmatch with
    | (c, len) =>
      if len = -1 then (c, ⟨INS_ERR, tsize, none⟩)
      else insertCommitted c tsize len INS_UP
  else insertCommitRow E c ncols tmatch nmatches inds repl tsize pr rrow

/-! ## `INSERT`: `addRowSizeReply`, `insertParse` -/

/-- The function `addRowSizeReply(c, tmatch, btr, len)`: the bulk reply with
the row bytes `len`, `btr->msize`, `btr->dsize` and the sum of the index
sizes. -/
def addRowSizeReply {BT IX NBT Row : Type} (E : Ext BT IX NBT Row) (c : State BT IX)
    (tmatch : Nat) (btr : Nat) (len : Int) : State BT IX :=
  let index_size := E.get_sum_all_index_size_for_table c tmatch
  addReply c (Reply.row_size len (E.msize (c.btr btr)) (E.dsize (c.btr btr)) index_size)

/-- The local variables `valc`, `pcols` and `cmatchs` of `insertParse` after the
column-list block. -/
structure InsertCols where
  valc : Nat
  pcols : Nat
  cmatchs : Nat → Int

/-- The block `if (strcasecmp(argv[valc]->ptr, "VALUES")) { ... }` of
`insertParse`, which reads an optional column list; `none` is a `return`
taken there.  Without a column list `cmatchs` is uninitialised (and, with
`pcols == 0`, not read). -/
def insertParseCols {BT IX NBT Row : Type} (E : Ext BT IX NBT Row) (c : State BT IX)
    (argv : Nat → List Nat) (tmatch : Nat) : State BT IX × Option InsertCols :=
  let valc := 3
  if strcasecmp (argv valc) [86, 65, 76, 85, 69, 83] then
    let cols := argv valc
    if cols.head? = some 40 ∧ cols.getLast? = some 41 then
      let clist := (cols.drop 1).take (cols.length - 2)
      match E.parseCommaSpaceList c clist tmatch with
      | (c, cmatchs, pcols) =>
        if pcols ≠ 0 then
          if initLRUCS (c.Tbl tmatch) cmatchs pcols then (addReply c Reply.insert_lru, none)
          else if E.OTHER_BT (c.btr tmatch) ∧ pcols ≠ 2 ∧ cmatchs 0 = 0 then
            (addReply c Reply.part_insert_other, none)
          else if strcasecmp (argv (valc + 1)) [86, 65, 76, 85, 69, 83] = false then
            (c, some ⟨valc + 1, pcols, cmatchs⟩)
          else (addReply c Reply.insertsyntax_no_values, none)
        else (addReply c Reply.insertsyntax_no_values, none)
    else (addReply c Reply.insertsyntax_no_values, none)
  else (c, some ⟨valc, 0, fun _ => 0⟩)

/-- The local variables `print`, `upd` and `largc` of `insertParse` after the
trailing options are read. -/
structure InsertOpts where
  print : Bool
  upd : Nat
  largc : Nat

/-- The text `RETURN SIZE`. -/
def RETURN_SIZE : List Nat := [82, 69, 84, 85, 82, 78, 32, 83, 73, 90, 69]

/-- The text `ON DUPLICATE KEY UPDATE`. -/
def ON_DUPLICATE_KEY_UPDATE : List Nat :=
  [79, 78, 32, 68, 85, 80, 76, 73, 67, 65, 84, 69, 32, 75, 69, 89, 32, 85, 80, 68, 65, 84, 69]

/-- The block `bool print = 0; uint32 upd = 0; int largc = c->argc; if (largc >
5) { ... }` of `insertParse`; `AEQ(a, b)` is `!strcasecmp(c->argv[a]->ptr,
b)`. -/
def insertParseOpts {BT IX : Type} (c : State BT IX) : InsertOpts :=
  let largc := c.argc
  if largc > 5 then
    let p : Bool × Nat :=
      if strcasecmp (c.argv (largc - 1)) RETURN_SIZE = false then (true, largc - 1)
      else (false, largc)
    if p.2 > 6 then
      if strcasecmp (c.argv (p.2 - 2)) ON_DUPLICATE_KEY_UPDATE = false then
        ⟨p.1, (p.2 - 1) % 2 ^ 32, p.2 - 2⟩
      else ⟨p.1, 0, p.2⟩
    else ⟨p.1, 0, p.2⟩
  else ⟨false, 0, largc⟩

/-- The loop `for (int i = valc + 1; i < largc; i++) { ret = insertCommit(...);
if (ret == INS_ERR) return; }` of `insertParse` over the positions `is`;
returns the state, `tsize`, the string stored in `*key`, and whether the loop
ran to its end.  `upd` is converted to the parameter type of `insertCommit`
(an `unsigned char`). -/
def insertParseLoop {BT IX NBT Row : Type} (E : Ext BT IX NBT Row) (argv : Nat → List Nat)
    (ncols tmatch nmatches : Nat) (inds : Nat → Int) (pcols : Nat) (cmatchs : Nat → Int)
    (repl : Bool) (upd : Nat) (print parse : Bool) :
    List Nat → State BT IX → Nat → State BT IX × Nat × Option (List Nat) × Bool
  | [], c, tsize => (c, tsize, none, true)
  | i :: is, c, tsize =>
    match insertCommit E c argv (argv i) ncols tmatch nmatches inds pcols cmatchs repl
        (upd % 256) (if print then some tsize else none) parse with
    | (c, r) =>
      if r.ret = INS_ERR then (c, (r.tsize.getD tsize), r.key, false)
      else insertParseLoop E argv ncols tmatch nmatches inds pcols cmatchs repl upd print
        parse is c (r.tsize.getD tsize)

/-- The function `insertParse(c, argv, repl, tmatch, parse, key)` of
`alsosql.c`; returns the state and the string stored in `*key`. -/
def insertParse {BT IX NBT Row : Type} (E : Ext BT IX NBT Row) (c : State BT IX)
    (argv : Nat → List Nat) (repl : Bool) (tmatch : Nat) (parse : Bool) :
    State BT IX × Option (List Nat) :=
  let mi := E.MATCH_INDICES c tmatch
  let rt := c.Tbl tmatch
  let ncols := rt.col_count
  match insertParseCols E c argv tmatch with
  | (c, none) => (c, none)
  | (c, some cols) =>
    let o := insertParseOpts c
    if o.upd ≠ 0 ∧ repl then (addReply c Reply.insert_replace_update, none)
    else
      match insertParseLoop E argv ncols tmatch mi.1 mi.2 cols.pcols cols.cmatchs repl o.upd
          o.print parse (List.range' (cols.valc + 1) (o.largc - (cols.valc + 1))) c 0 with
      | (c, _, key, false) => (c, key)
      | (c, tsize, key, true) =>
        if o.print then (addRowSizeReply E c tmatch tmatch (toInt32 tsize), key)
        else (addReply c Reply.ok, key)
/-! ## Auxiliary definitions used in the statements -/

/-- The bytes that follow a long string key in its block: nothing in a block
from `malloc`, the old content of the static buffer otherwise. -/
def longTail (buf : List Nat) (len : Nat) : List Nat :=
  if len + 5 ≥ SIMKEY_BUFFER_SIZE then [] else buf.drop (len + 5)


/-- The round trip of the integer key `v`, through a static buffer that still
holds an older key and into a `robj` that held something else. -/
def IntRoundTripAt (v : Nat) : Prop :=
  (⟨v, [], 0⟩ : KeyPtr).addr < 2 ^ 32 ∧
  ∃ r, createSimKeyFromRaw [16, 255, 255, 255, 255, 7] ⟨v, [], 0⟩ ColType.INT
      = SimKeyRet.ok r ∧
    assignKeyRobj (fun _ => []) r.simkey ⟨RedisType.REDIS_ROW, Encoding.RAW, RobjPtr.int 9, 0⟩
      = some ⟨RedisType.REDIS_STRING, Encoding.INT, RobjPtr.int (⟨v, [], 0⟩ : KeyPtr).addr, 1⟩

/-- The round trip of the string key `s` (held at the non-null address `1`),
through a static buffer that still holds an older key. -/
def StringRoundTripAt (s : List Nat) : Prop :=
  (⟨1, s, 0⟩ : KeyPtr).addr ≠ 0 ∧ (⟨1, s, 0⟩ : KeyPtr).sds.length < 2 ^ 32 ∧
  ∃ r, createSimKeyFromRaw [16, 255, 255, 255, 255, 7] ⟨1, s, 0⟩ ColType.STRING
      = SimKeyRet.ok r ∧
    assignKeyRobj (fun _ => []) r.simkey ⟨RedisType.REDIS_ROW, Encoding.INT, RobjPtr.int 9, 0⟩
      = some ⟨RedisType.REDIS_STRING, Encoding.RAW, RobjPtr.sds (⟨1, s, 0⟩ : KeyPtr).sds, 1⟩ ∧
    ((getSflag (r.simkey.headD 0) = some 1 ∧
        (getTinyString r.simkey).2 = (⟨1, s, 0⟩ : KeyPtr).sds.length ∧
        sdsnewlen (getTinyString r.simkey).1 (getTinyString r.simkey).2
          = (⟨1, s, 0⟩ : KeyPtr).sds) ∨
     (getSflag (r.simkey.headD 0) = some 4 ∧
        (getString r.simkey).2 = (⟨1, s, 0⟩ : KeyPtr).sds.length ∧
        sdsnewlen (getString r.simkey).1 (getString r.simkey).2
          = (⟨1, s, 0⟩ : KeyPtr).sds))

/-- The comparison of the integer keys `x` and `y`, both encoded through a
static buffer that still holds an older key. -/
def IntCompareAt (x y : Nat) : Prop :=
  (⟨x, [], 0⟩ : KeyPtr).addr < 2 ^ 32 ∧ (⟨y, [], 0⟩ : KeyPtr).addr < 2 ^ 32 ∧
  ∃ r1 r2 c,
    createSimKeyFromRaw [16, 255, 255, 255, 255, 7] ⟨x, [], 0⟩ ColType.INT = SimKeyRet.ok r1 ∧
    createSimKeyFromRaw [4, 1, 0, 0, 0, 65] ⟨y, [], 0⟩ ColType.INT = SimKeyRet.ok r2 ∧
    btStreamCmp (fun _ _ => 0) (some r1.simkey) (some r2.simkey) = some c ∧
    (c < 0 ↔ (⟨x, [], 0⟩ : KeyPtr).addr < (⟨y, [], 0⟩ : KeyPtr).addr) ∧
    (c = 0 ↔ (⟨x, [], 0⟩ : KeyPtr).addr = (⟨y, [], 0⟩ : KeyPtr).addr) ∧
    (0 < c ↔ (⟨y, [], 0⟩ : KeyPtr).addr < (⟨x, [], 0⟩ : KeyPtr).addr)

/-- The variant and size chosen for the integer key `v`. -/
def IntVariantAt (v : Nat) : Prop :=
  (⟨v, [], 0⟩ : KeyPtr).addr < 2 ^ 32 ∧
  ∃ r, createSimKeyFromRaw [16, 255, 255, 255, 255, 7] ⟨v, [], 0⟩ ColType.INT
      = SimKeyRet.ok r ∧
    getSflag (r.simkey.headD 0) = some r.sflag ∧
    r.simkey.drop r.ksize = List.drop r.ksize [16, 255, 255, 255, 255, 7] ∧
    ((⟨v, [], 0⟩ : KeyPtr).addr < 2 ^ 14 → r.sflag = 2 ∧ r.ksize = 2) ∧
    (2 ^ 14 ≤ (⟨v, [], 0⟩ : KeyPtr).addr ∧ (⟨v, [], 0⟩ : KeyPtr).addr < 2 ^ 28 →
      r.sflag = 8 ∧ r.ksize = 4) ∧
    (2 ^ 28 ≤ (⟨v, [], 0⟩ : KeyPtr).addr → r.sflag = 16 ∧ r.ksize = 5)

/-- The variant and size chosen for the string key `s` (held at a non-null
address). -/
def StringVariantAt (s : List Nat) : Prop :=
  (⟨1, s, 0⟩ : KeyPtr).addr ≠ 0 ∧ (⟨1, s, 0⟩ : KeyPtr).sds.length + 5 < 2 ^ 32 ∧
  ∃ r, createSimKeyFromRaw [16, 255, 255, 255, 255, 7] ⟨1, s, 0⟩ ColType.STRING
      = SimKeyRet.ok r ∧
    getSflag (r.simkey.headD 0) = some r.sflag ∧
    (r.sflag = 1 ↔ (⟨1, s, 0⟩ : KeyPtr).sds.length < 128) ∧
    (r.sflag = 4 ↔ 128 ≤ (⟨1, s, 0⟩ : KeyPtr).sds.length) ∧
    (r.sflag = 1 →
      r.simkey.headD 0 = 2 * (⟨1, s, 0⟩ : KeyPtr).sds.length + 1 ∧
      r.ksize = (⟨1, s, 0⟩ : KeyPtr).sds.length + 1) ∧
    (r.sflag = 4 →
      r.simkey.headD 0 = 4 ∧ read32 (r.simkey.drop 1) = (⟨1, s, 0⟩ : KeyPtr).sds.length ∧
      r.ksize = (⟨1, s, 0⟩ : KeyPtr).sds.length + 5)

/-! ### A small instance of the collaborators, for the examples

A table `t(pk int, v int)` without secondary index: the data B-tree is the list
of its `(pk, v)` pairs, a row is the value `v`, a tuple is the text
`pk,v`. -/

/-- A decimal number from its digits. -/
def toyAtol (s : List Nat) : Int :=
  ((s.takeWhile fun b => 48 ≤ b ∧ b ≤ 57).foldl (fun acc b => acc * 10 + (b - 48)) 0 : Nat)

/-- The tuple `pk,v` split at the comma. -/
def toyParseRowVals (vals : List Nat) : Option RowVals :=
  let pk := vals.takeWhile fun b => b != 44
  if pk.length < vals.length then
    some ⟨vals, pk, pk.length, fun n =>
      if n = 0 then ⟨0, pk.length⟩ else ⟨pk.length + 1, vals.length⟩⟩
  else none

/-- The zero `aobj`. -/
def toyAobj : aobj := ⟨ColType.INT, ColType.INT, 0, 0, 0, [], 0, false⟩

/-- The descriptor of the table `t(pk int, v int)`. -/
def toyTbl : r_tbl_t :=
  { name := [116], col_count := 2, col_name := fun n => if n = 0 then [112, 107] else [118],
    col_type := fun _ => ColType.INT, rn := none, lrud := 0, lruc := -1, lrui := -1, sk := 0,
    vimatch := 0 }

/-- The collaborators on the list model of the table `t`. -/
def toyExt : Ext (List (Int × Nat)) Unit Unit Nat :=
  { initAobj := toyAobj
    initAobjInt := fun v => { toyAobj with i := v }
    initAobjLong := fun v => { toyAobj with l := v.toNat }
    createAobjFromString := fun s _ _ => { toyAobj with i := toyAtol s }
    aobjGT := fun a b => decide (a.i > b.i)
    aobjLT := fun a b => decide (a.i < b.i)
    atol := toyAtol
    strtoul := fun s => (toyAtol s).toNat
    atof := fun _ => 0
    parseRowVals := fun vals _ _ _ _ => toyParseRowVals vals
    btFind := fun bt apk => (bt.find? fun e => e.1 == apk.i).map fun e => e.2
    btIndFind := fun _ _ => none
    assignMaxKey := fun _ => none
    assignMinKey := fun _ => none
    getCol := fun _ row _ _ _ => { toyAobj with i := (row.getD 0 : Nat) }
    createRow := fun c _ _ _ mvals cofsts =>
      (c, some (toyAtol (mvals.drop (cofsts 1).i.toNat)).toNat)
    addToIndex := fun c _ _ _ _ => (c, true)
    delFromIndex := fun c _ _ _ _ => c
    btReplace := fun bt apk row => ((apk.i, row) :: bt.filter fun e => e.1 != apk.i, 1)
    btAdd := fun bt apk row => ((apk.i, row) :: bt, 1)
    UPDATE_AUTO_INC := fun c _ _ _ => c
    TABLE_CHECK_OR_REPLY := fun c _ => (c, some 0)
    MATCH_INDICES := fun _ _ => (0, fun _ => -1)
    parseUpdateColListReply := fun c _ _ => (c, ⟨0, fun _ => -1, fun _ => [], fun _ => 0⟩)
    isExpression := fun _ _ => 0
    parseExpr := fun c _ _ _ _ _ _ => (c, none)
    initFilter := ⟨-1, -1, toyAobj⟩
    parseWCReply := fun c w wb => (c, w, wb)
    ISBLANK := fun b => b == 32
    iupdateAction := fun c _ _ _ _ _ _ => c
    updateRow := fun c _ _ _ _ _ _ _ _ => (c, -1)
    incrOffsetVar := fun c _ _ => c
    parseCommaSpaceList := fun c _ _ => (c, fun _ => -1, 0)
    OTHER_BT := fun _ => false
    msize := fun bt => 16 * bt.length
    dsize := fun bt => 8 * bt.length
    get_sum_all_index_size_for_table := fun _ _ => 0 }

/-- The state after `INSERT INTO t VALUES (1,10)`: the row `(1,10)` is stored
and `ok` was replied. -/
def toyState : State (List (Int × Nat)) Unit :=
  { argc := 0, argv := fun _ => [], reply := [Reply.ok], btr := fun _ => [(1, 10)], ibtr := fun _ => (),
    dirty := 1, Tbl := fun _ => toyTbl, Index := fun _ => ⟨1⟩ }

/-! ### The instance with parsers for `UPDATE`

The same table `t(pk int, v int)`, with a SET list of the form `col=value`, a
where-clause `pk=value` (single-row lookup) or any other text (range), and an
`updateRow` that stores the new `v`. -/

/-- The SET list `col=value`: one entry, for column 0 when `col` is `pk` and
for column 1 otherwise; no entry without `=`. -/
def toyParseSet (s : List Nat) : UpdateCols :=
  let col := s.takeWhile fun b => b != 61
  let val := s.drop (col.length + 1)
  if col.length < s.length then
    ⟨1, fun _ => if col = [112, 107] then 0 else 1, fun _ => val, fun _ => val.length⟩
  else ⟨0, fun _ => -1, fun _ => [], fun _ => 0⟩

/-- The where-clause `pk=value` is a single-row lookup of `value`, any other
text a range over the primary key. -/
def toyParseWC (w : cswc_t) : cswc_t :=
  let tok := w.token.getD []
  let col := tok.takeWhile fun b => b != 61
  if col.length < tok.length then
    { w with wtype := WType.SQL_SINGLE_LKP,
             wf := { w.wf with imatch := 0,
                               akey := { toyAobj with i := toyAtol (tok.drop (col.length + 1)) } } }
  else { w with wtype := WType.SQL_RANGE_LKP, wf := { w.wf with imatch := 0 } }

/-- The value `v` stored in the row with primary key `pk` of the data B-tree
`btr`. -/
def toyStore (c : State (List (Int × Nat)) Unit) (btr : Nat) (pk : Int) (v : Nat) :
    State (List (Int × Nat)) Unit :=
  { c with btr := setAt c.btr btr ((c.btr btr).map fun e => if e.1 = pk then (e.1, v) else e) }

/-- The collaborators of `toyExt` with the parsers `toyParseSet` and
`toyParseWC`, and an `updateRow` that stores the new value of `v`. -/
def toyUpd : Ext (List (Int × Nat)) Unit Unit Nat :=
  { toyExt with
    parseUpdateColListReply := fun c _ s => (c, toyParseSet s)
    parseWCReply := fun c w wb => (c, toyParseWC w, wb)
    updateRow := fun c btr apk _ _ _ _ _ A =>
      (toyStore c btr apk.i (toyAtol (A.vals 1)).toNat, 8) }

/-- The bytes of `UPDATE`, `t`, `SET`, `WHERE`. -/
def toyUpdateArgv (set wc : List Nat) : Nat → List Nat
  | 0 => [85, 80, 68, 65, 84, 69]
  | 1 => [116]
  | 2 => [83, 69, 84]
  | 3 => set
  | 4 => [87, 72, 69, 82, 69]
  | 5 => wc
  | _ => []

/-- The table `t` with the rows `(1,10)` and `(2,20)`, and the command
`UPDATE t SET pk=1 WHERE pk=2`. -/
def toyUpdState : State (List (Int × Nat)) Unit :=
  { argc := 6, argv := toyUpdateArgv [112, 107, 61, 49] [112, 107, 61, 50], reply := [],
    btr := fun _ => [(1, 10), (2, 20)], ibtr := fun _ => (), dirty := 2,
    Tbl := fun _ => toyTbl, Index := fun _ => ⟨1⟩ }

/-- The same table with the command `UPDATE t SET pk=1 WHERE pk>0`. -/
def toyRangeState : State (List (Int × Nat)) Unit :=
  { toyUpdState with argv := toyUpdateArgv [112, 107, 61, 49] [112, 107, 62, 48] }

/-- The arguments of `verb INTO t VALUES tuple opt set`. -/
def toyInsertArgv (verb tuple opt set : List Nat) : Nat → List Nat
  | 0 => verb
  | 1 => [73, 78, 84, 79]
  | 2 => [116]
  | 3 => [86, 65, 76, 85, 69, 83]
  | 4 => tuple
  | 5 => opt
  | 6 => set
  | _ => []

/-- The table `t` with the row `(1,10)` and the command `REPLACE INTO t VALUES
(1,30) ON DUPLICATE KEY UPDATE v=3`. -/
def toyReplaceState : State (List (Int × Nat)) Unit :=
  { toyState with
    argc := 7
    argv := toyInsertArgv [82, 69, 80, 76, 65, 67, 69] [49, 44, 51, 48]
      ON_DUPLICATE_KEY_UPDATE [118, 61, 51] }

/-! ### Counting the replies `uint_pkbig` -/

/-- The number of replies `uint_pkbig` in the reply list of the client. -/
def pkbigCount {BT IX : Type} (c : State BT IX) : Nat := c.reply.count Reply.uint_pkbig

/-- The collaborators that `insertCommit` hands the client to (directly or
through `updateAction`) add no reply `uint_pkbig`. -/
structure KeepsPkbig {BT IX NBT Row : Type} (E : Ext BT IX NBT Row) : Prop where
  createRow : ∀ c a b d e f, pkbigCount (E.createRow c a b d e f).1 = pkbigCount c
  addToIndex : ∀ c a b d e, pkbigCount (E.addToIndex c a b d e).1 = pkbigCount c
  delFromIndex : ∀ c a b d e, pkbigCount (E.delFromIndex c a b d e) = pkbigCount c
  UPDATE_AUTO_INC : ∀ c a b d, pkbigCount (E.UPDATE_AUTO_INC c a b d) = pkbigCount c
  parseUpdateColListReply : ∀ c a b,
    pkbigCount (E.parseUpdateColListReply c a b).1 = pkbigCount c
  parseExpr : ∀ c a b d e f g, pkbigCount (E.parseExpr c a b d e f g).1 = pkbigCount c
  iupdateAction : ∀ c a b d e f g, pkbigCount (E.iupdateAction c a b d e f g) = pkbigCount c
  updateRow : ∀ c a b d e f g h i,
    pkbigCount (E.updateRow c a b d e f g h i).1 = pkbigCount c
  incrOffsetVar : ∀ c a b, pkbigCount (E.incrOffsetVar c a b) = pkbigCount c

/-! ### A small instance of what `bt.c` takes from outside -/

/-- An instance of `BtEnv`: decimal `atol`, a float comparison on the bit
patterns, a row whose malloc size is its length, and a first transition after
one key. -/
def toyBt : BtEnv :=
  { atol := toyAtol
    floatCmp := fun a b => if a = b then 0 else if a > b then 1 else -1
    getRowMallocSize := fun row => row.length
    TRANSITION_ONE_MAX := 1
    TRANSITION_ONE_BTREE_BYTES := 128
    TRANSITION_TWO_BTREE_BYTES := 4096
    bt_overhead := fun n => n }

/-- A data B-tree with integer keys that holds the row `[9, 9]` under the
key 5. -/
def toyTree : bt Unit :=
  { (abt_create toyBt ColType.INT 0 BtKind.BTREE_TABLE : bt Unit) with
    numkeys := 1, malloc_size := 132, data_size := 4, root := [⟨[22, 0, 9, 9], ValPtr.NULL⟩] }

/-- The integer key `v`, held in the pointer of the `robj`. -/
def toyKey (v : Nat) : KeyRobj := ⟨Encoding.INT, ⟨v, [], 0⟩⟩

/-! ### Index maintenance (`addToIndex`, `delFromIndex`) over the API of `bt.c`

The two functions are called by `insertCommit` and are not among the sources;
they are modelled from section 4.4 of the specification, on an index B-tree
whose entries hold their nested B-trees (of primary keys) by value. -/

/-- Modelled from the spec: the key `robj` for the value of an `aobj`: the
integer in the pointer for INT and LONG, the string otherwise. -/
def aobjKey (a : aobj) : KeyRobj :=
  if C_IS_I a.type then ⟨Encoding.INT, ⟨a.i.toNat, [], 0⟩⟩
  else if C_IS_L a.type then ⟨Encoding.INT, ⟨a.l, [], 0⟩⟩
  else ⟨Encoding.RAW, ⟨1, a.s, a.f⟩⟩

/-- The nested B-tree that the `robj` returned by `btIndFindVal` points at. -/
def nestedOf {N : Type} (v : Option (ValRobj N)) : Option N :=
  match v with
  | some ⟨_, _, _, ValPtr.nbtr t⟩ => some t
  | _ => none

/-- The index B-tree after the nested B-tree of the entry for `simkey` has
changed to `t` (the entry points at it). -/
def withNested {N : Type} (B : BtEnv) (ibtr : bt N) (simkey : List Nat) (t : N) : bt N :=
  { ibtr with root := ibtr.root.map fun e =>
      if keyMatches B simkey e then { e with ptr := ValPtr.nbtr t } else e }

/-- The stream of the key `a`, as `createSimKey` writes it. -/
def simkeyOf (B : BtEnv) (SimKeyBuffer : List Nat) (a : aobj) : List Nat :=
  match createSimKey B.atol SimKeyBuffer (aobjKey a).encoding (aobjKey a).ptr a.type with
  | SimKeyRet.ok k => k.simkey
  | _ => []

/-- Modelled from the spec: `add(table_bt, pk_value, row, index_id)`: "compute
v = row[c]; find I's entry for v; if absent create a new nested B-tree of kind
INDEX_NODE and install it; insert pk_value into the nested tree.  Returns
success unless the nested tree or I's entry cannot be created."  The steps
are the calls `btIndFindVal`, `createIndexNode`, `btIndAdd` and `btIndNodeAdd`
of `bt.c`; `col` reads a column of the row. -/
def addToIndex {BT Row : Type} (B : BtEnv) (SimKeyBuffer : List Nat)
    (col : Row → Nat → aobj) (c : State BT (bt (bt Unit))) (_btr : Nat) (apk : aobj)
    (row : Row) (imatch : Int) : State BT (bt (bt Unit)) × Bool :=
  let acol := col row (c.Index imatch).column
  let ibtr := c.ibtr imatch
  match btIndFindVal B SimKeyBuffer ibtr (aobjKey acol) acol.type with
  | none => (c, false)
  | some o =>
    let installed : Option (bt (bt Unit) × bt Unit) :=
      match nestedOf o.ret with
      | some t => some (o.btr, t)
      | none =>
        let n : bt Unit := createIndexNode B apk.type
        (btIndAdd B SimKeyBuffer o.btr (aobjKey acol) (some n) acol.type).map fun o2 =>
          (o2.btr, n)
    match installed with
    | none => (c, false)
    | some (ibtr, nbtr) =>
      match btIndNodeAdd B SimKeyBuffer nbtr (aobjKey apk) apk.type with
      | none => (c, false)
      | some o3 =>
        let ibtr := withNested B ibtr (simkeyOf B SimKeyBuffer acol) o3.btr
        ({ c with ibtr := fun i => if i = imatch then ibtr else c.ibtr i }, true)

/-- Modelled from the spec: `delete(table_bt, pk_value, row, index_id)`:
"compute v = row[c]; look up I's entry for v; remove pk_value from its nested
tree; if the nested tree becomes empty, remove the entry from I and destroy
the nested tree."  The steps are the calls `btIndFindVal`, `btIndNodeDelete`
and `btIndDelete` of `bt.c`. -/
def delFromIndex {BT Row : Type} (B : BtEnv) (SimKeyBuffer : List Nat)
    (col : Row → Nat → aobj) (c : State BT (bt (bt Unit))) (_btr : Nat) (apk : aobj)
    (row : Row) (imatch : Int) : State BT (bt (bt Unit)) :=
  let acol := col row (c.Index imatch).column
  let ibtr := c.ibtr imatch
  match btIndFindVal B SimKeyBuffer ibtr (aobjKey acol) acol.type with
  | none => c
  | some o =>
    match nestedOf o.ret with
    | none => c
    | some nbtr =>
      match btIndNodeDelete B (fun _ => 0) SimKeyBuffer nbtr (aobjKey apk) apk.type with
      | none => c
      | some o2 =>
        let ibtr := withNested B o.btr (simkeyOf B SimKeyBuffer acol) o2.btr
        let ibtr :=
          if o2.ret = 0 then
            match btIndDelete B (fun t => t.malloc_size) SimKeyBuffer ibtr (aobjKey acol)
                acol.type with
            | some o3 => o3.btr
            | none => ibtr
          else ibtr
        { c with ibtr := fun i => if i = imatch then ibtr else c.ibtr i }

/-- The integer primary keys that a nested B-tree holds, each read from its
entry with `assignKeyRobj`. -/
def nestedKeys (nbtr : bt Unit) : List Nat :=
  nbtr.root.filterMap fun e =>
    match assignKeyRobj (fun _ => []) e.stream ⟨RedisType.REDIS_STRING, Encoding.RAW,
        RobjPtr.int 0, 0⟩ with
    | some ⟨_, _, RobjPtr.int k, _⟩ => some k
    | _ => none

/-! ### The instance with a secondary index

The table `u(pk int, x int)` with one secondary index (number 0) on `x`: the
data B-tree is the list of the `(pk, x)` pairs, a row is the value `x`, the
index is a B-tree of `bt.c` whose entries hold the nested B-trees of primary
keys. -/

/-- The static buffer used by the instance. -/
def ixBuf : List Nat := [0, 0, 0, 0, 0, 0, 0, 0]

/-- The column of a row of `u` as an `aobj`. -/
def ixCol (row : Nat) (_col : Nat) : aobj := { toyAobj with i := row }

/-- The collaborators on the table `u`: those of `toyExt`, with the index
primitives on the B-tree model of `bt.c`; `assignMaxKey` and `assignMinKey`
(of `bt_iterator.c`) give the largest and the smallest key of a nested
B-tree. -/
def ixExt : Ext (List (Int × Nat)) (bt (bt Unit)) (bt Unit) Nat :=
  { initAobj := toyAobj
    initAobjInt := fun v => { toyAobj with i := v }
    initAobjLong := fun v => { toyAobj with l := v.toNat }
    createAobjFromString := fun s _ _ => { toyAobj with i := toyAtol s }
    aobjGT := fun a b => decide (a.i > b.i)
    aobjLT := fun a b => decide (a.i < b.i)
    atol := toyAtol
    strtoul := fun s => (toyAtol s).toNat
    atof := fun _ => 0
    parseRowVals := fun vals _ _ _ _ => toyParseRowVals vals
    btFind := fun bt apk => (bt.find? fun e => e.1 == apk.i).map fun e => e.2
    btIndFind := fun ix a =>
      (btIndFindVal toyBt ixBuf ix (aobjKey a) a.type).bind fun o => nestedOf o.ret
    assignMaxKey := fun n => (nestedKeys n).max?.map fun k => { toyAobj with i := k }
    assignMinKey := fun n => (nestedKeys n).min?.map fun k => { toyAobj with i := k }
    getCol := fun _ row _ _ _ => { toyAobj with i := (row.getD 0 : Nat) }
    createRow := fun c _ _ _ mvals cofsts =>
      (c, some (toyAtol (mvals.drop (cofsts 1).i.toNat)).toNat)
    addToIndex := addToIndex toyBt ixBuf ixCol
    delFromIndex := delFromIndex toyBt ixBuf ixCol
    btReplace := fun bt apk row => ((apk.i, row) :: bt.filter fun e => e.1 != apk.i, 1)
    btAdd := fun bt apk row => ((apk.i, row) :: bt, 1)
    UPDATE_AUTO_INC := fun c _ _ _ => c
    TABLE_CHECK_OR_REPLY := fun c _ => (c, some 0)
    MATCH_INDICES := fun _ _ => (1, fun _ => 0)
    parseUpdateColListReply := fun c _ _ => (c, ⟨0, fun _ => -1, fun _ => [], fun _ => 0⟩)
    isExpression := fun _ _ => 0
    parseExpr := fun c _ _ _ _ _ _ => (c, none)
    initFilter := ⟨-1, -1, toyAobj⟩
    parseWCReply := fun c w wb => (c, w, wb)
    ISBLANK := fun b => b == 32
    iupdateAction := fun c _ _ _ _ _ _ => c
    updateRow := fun c _ _ _ _ _ _ _ _ => (c, -1)
    incrOffsetVar := fun c _ _ => c
    parseCommaSpaceList := fun c _ _ => (c, fun _ => -1, 0)
    OTHER_BT := fun _ => false
    msize := fun bt => 16 * bt.length
    dsize := fun bt => 8 * bt.length
    get_sum_all_index_size_for_table := fun _ _ => 0 }

/-- The descriptor of the table `u(pk int, x int)`. -/
def ixTbl : r_tbl_t :=
  { name := [117], col_count := 2, col_name := fun n => if n = 0 then [112, 107] else [120],
    col_type := fun _ => ColType.INT, rn := none, lrud := 0, lruc := -1, lrui := -1, sk := 0,
    vimatch := -1 }

/-- The empty table `u` with its empty index on `x`. -/
def ixEmpty : State (List (Int × Nat)) (bt (bt Unit)) :=
  { argc := 0, argv := fun _ => [], reply := [], btr := fun _ => [],
    ibtr := fun _ => btCreate toyBt ColType.INT 0 BtKind.BTREE_INDEX, dirty := 0,
    Tbl := fun _ => ixTbl, Index := fun _ => ⟨1⟩ }

/-- The statement `INSERT INTO u VALUES vals` (`repl` false) or `REPLACE INTO u
VALUES vals` (`repl` true), as `insertParse` hands it to `insertCommit`: the
state afterwards. -/
def ixInsert (repl : Bool) (vals : List Nat) (c : State (List (Int × Nat)) (bt (bt Unit))) :
    State (List (Int × Nat)) (bt (bt Unit)) × InsertResult :=
  insertCommit ixExt c (fun _ => []) vals 2 0 1 (fun _ => 0) 0 (fun _ => 0) repl 0 none false

/-- The primary keys that the index on `x` holds under the value `v`. -/
def ixHolds (c : State (List (Int × Nat)) (bt (bt Unit))) (v : Int) : List Nat :=
  match ixExt.btIndFind (c.ibtr 0) { toyAobj with i := v } with
  | some n => nestedKeys n
  | none => []

/-- The table `u` (without ordering constraint) after `INSERT INTO u VALUES
(1,100)`. -/
def ixOne : State (List (Int × Nat)) (bt (bt Unit)) :=
  (ixInsert false [49, 44, 49, 48, 48] ixEmpty).1

/-! ### The instance with a column list for `INSERT` -/

/-- The column list `name,name,...` of the table `t(pk, v)`: the number of
names, and column 0 for the name `pk`, column 1 for any other name. -/
def toyParseCols (clist : List Nat) : (Nat → Int) × Nat :=
  let names := clist.splitOn 44
  (fun i => if names.getD i [] = [112, 107] then 0 else 1, names.length)

/-- The collaborators of `toyExt` with the column-list parser
`toyParseCols`. -/
def colsExt : Ext (List (Int × Nat)) Unit Unit Nat :=
  { toyExt with parseCommaSpaceList := fun c clist _ => (c, (toyParseCols clist).1, (toyParseCols clist).2) }

/-- The collaborators of `colsExt` for a table in the narrow encoding
(`OTHER_BT` holds of its B-tree). -/
def otherExt : Ext (List (Int × Nat)) Unit Unit Nat :=
  { colsExt with OTHER_BT := fun _ => true }

/-- The arguments of `INSERT INTO t cols VALUES tuple`. -/
def colsInsertArgv (cols tuple : List Nat) : Nat → List Nat
  | 0 => [73, 78, 83, 69, 82, 84]
  | 1 => [73, 78, 84, 79]
  | 2 => [116]
  | 3 => cols
  | 4 => [86, 65, 76, 85, 69, 83]
  | 5 => tuple
  | _ => []

/-- The table `t` with the row `(1,10)` and the command `INSERT INTO t cols
VALUES tuple`. -/
def colsState (cols tuple : List Nat) : State (List (Int × Nat)) Unit :=
  { toyState with argc := 6, argv := colsInsertArgv cols tuple }

/-- The table `t` whose column 1 is the LRU column, with the row `(1,10)` and
the command `INSERT INTO t cols VALUES tuple`. -/
def lruState (cols tuple : List Nat) : State (List (Int × Nat)) Unit :=
  { colsState cols tuple with Tbl := fun _ => { toyTbl with lrud := 1, lruc := 1 } }

/-- The table `t` whose column 1 is the LRU column, with the rows `(1,10)` and
`(2,20)` and the command `UPDATE t SET v=7 WHERE pk=2`. -/
def lruUpdState : State (List (Int × Nat)) Unit :=
  { toyUpdState with
    argv := toyUpdateArgv [118, 61, 55] [112, 107, 61, 50]
    Tbl := fun _ => { toyTbl with lrud := 1, lruc := 1 } }

/-! ### Parts of the state that the collaborators leave alone -/

/-- The collaborators that are handed the client, and `addReply`, leave the
part `π` of the state unchanged. -/
structure Frame {BT IX NBT Row α : Type} (π : State BT IX → α) (E : Ext BT IX NBT Row) :
    Prop where
  addReply : ∀ c r, π (addReply c r) = π c
  createRow : ∀ c a b d e f, π (E.createRow c a b d e f).1 = π c
  addToIndex : ∀ c a b d e, π (E.addToIndex c a b d e).1 = π c
  delFromIndex : ∀ c a b d e, π (E.delFromIndex c a b d e) = π c
  UPDATE_AUTO_INC : ∀ c a b d, π (E.UPDATE_AUTO_INC c a b d) = π c
  TABLE_CHECK_OR_REPLY : ∀ c a, π (E.TABLE_CHECK_OR_REPLY c a).1 = π c
  parseUpdateColListReply : ∀ c a b, π (E.parseUpdateColListReply c a b).1 = π c
  parseExpr : ∀ c a b d e f g, π (E.parseExpr c a b d e f g).1 = π c
  parseWCReply : ∀ c a b, π (E.parseWCReply c a b).1 = π c
  iupdateAction : ∀ c a b d e f g, π (E.iupdateAction c a b d e f g) = π c
  updateRow : ∀ c a b d e f g h i, π (E.updateRow c a b d e f g h i).1 = π c
  incrOffsetVar : ∀ c a b, π (E.incrOffsetVar c a b) = π c
  parseCommaSpaceList : ∀ c a b, π (E.parseCommaSpaceList c a b).1 = π c

/-- The table `t` with the row `(1,10)` and the command `INSERT INTO t VALUES
(2,5) (3,6)`. -/
def toyTwoState : State (List (Int × Nat)) Unit :=
  { toyState with
    argc := 6
    argv := toyInsertArgv [73, 78, 83, 69, 82, 84] [50, 44, 53] [51, 44, 54] [] }

/-! ### The instance with two secondary indexes, the second of which fails -/

/-- The collaborators of `ixExt` for the table `u` with two secondary indexes
(numbers 0 and 1): `addToIndex` works on index 0 and fails on index 1 (its
entry cannot be created). -/
def ix2Ext : Ext (List (Int × Nat)) (bt (bt Unit)) (bt Unit) Nat :=
  { ixExt with
    addToIndex := fun c btr apk row imatch =>
      if imatch = 1 then (c, false) else addToIndex toyBt ixBuf ixCol c btr apk row imatch
    MATCH_INDICES := fun _ _ => (2, fun i => (i : Int)) }

/-! ### Nodes of a B-tree -/

mutual
/-- The entries below the node `n`, in the order in which `bt_to_bt_insert`
visits them: the keys of the node, then the entries of its children. -/
def nodeEntries {N : Type} : bt_n N → List (Entry N)
  | bt_n.mk leaf keys nodes => if !leaf then keys ++ nodesEntries nodes else keys
/-- The entries below the nodes `ns`, one node after the other. -/
def nodesEntries {N : Type} : List (bt_n N) → List (Entry N)
  | [] => []
  | n :: ns => nodeEntries n ++ nodesEntries ns
end

/-- The table `t` with the row `(1,10)` and the command `INSERT INTO t VALUES
2,5 1,7 3,6`, whose second tuple has the primary key of the stored row. -/
def toyThreeState : State (List (Int × Nat)) Unit :=
  { toyState with argc := 7, argv := toyInsertArgv [73, 78, 83, 69, 82, 84] [50, 44, 53] [49, 44, 55] [51, 44, 54] }

/-- The table `t` with the rows `(1,10)` and `(2,20)`, and the command
`UPDATE t SET pk=2 WHERE pk=2`. -/
def toySameState : State (List (Int × Nat)) Unit :=
  { toyUpdState with argv := toyUpdateArgv [112, 107, 61, 50] [112, 107, 61, 50] }

/-- The same table with the command `UPDATE t SET pk=1 WHERE pk=7`: no row
has the primary key 7. -/
def toyAbsentState : State (List (Int × Nat)) Unit :=
  { toyUpdState with argv := toyUpdateArgv [112, 107, 61, 49] [112, 107, 61, 55] }

/-- The same table with the command `UPDATE t SET pk=8 WHERE pk=7`: no row
has the primary key 7 or 8. -/
def toyNoneState : State (List (Int × Nat)) Unit :=
  { toyUpdState with argv := toyUpdateArgv [112, 107, 61, 56] [112, 107, 61, 55] }

/-- The loop of `insertParse` as `insertParse` runs it on the client `c` (with
the state `c1` and the locals `cols` that the column-list block left), over the
positions `is`, from the state `c0` and the value `t0` of `tsize`. -/
def insertParseRun {BT IX NBT Row : Type} (E : Ext BT IX NBT Row) (c : State BT IX)
    (argv : Nat → List Nat) (repl : Bool) (tmatch : Nat) (parse : Bool) (c1 : State BT IX)
    (cols : InsertCols) (is : List Nat) (c0 : State BT IX) (t0 : Nat) :
    State BT IX × Nat × Option (List Nat) × Bool :=
  insertParseLoop E argv (c.Tbl tmatch).col_count tmatch (E.MATCH_INDICES c tmatch).1
    (E.MATCH_INDICES c tmatch).2 cols.pcols cols.cmatchs repl (insertParseOpts c1).upd
    (insertParseOpts c1).print parse is c0 t0

/-- The call of `insertCommit` that the loop of `insertParse` makes for the
tuple at position `i`, from the state `c0` and the value `t0` of `tsize`. -/
def insertParseCall {BT IX NBT Row : Type} (E : Ext BT IX NBT Row) (c : State BT IX)
    (argv : Nat → List Nat) (repl : Bool) (tmatch : Nat) (parse : Bool) (c1 : State BT IX)
    (cols : InsertCols) (i : Nat) (c0 : State BT IX) (t0 : Nat) : State BT IX × InsertResult :=
  insertCommit E c0 argv (argv i) (c.Tbl tmatch).col_count tmatch (E.MATCH_INDICES c tmatch).1
    (E.MATCH_INDICES c tmatch).2 cols.pcols cols.cmatchs repl ((insertParseOpts c1).upd % 256)
    (if (insertParseOpts c1).print then some t0 else none) parse
/-! ## Lemmas on the memory primitives -/

theorem land_two_pow_ne_zero (b k : Nat) : b &&& 2 ^ k ≠ 0 ↔ b / 2 ^ k % 2 = 1 := by
  rw [Nat.and_two_pow, Nat.testBit_to_div_mod]
  by_cases h : b / 2 ^ k % 2 = 1
  · simp [h]
  · simp [h]

/-- The tag test of `getSflag`, bit by bit, in terms of division and
remainder. -/
theorem getSflag_mod (b : Nat) : getSflag b =
    if b % 2 = 1 then some 1 else if b / 2 % 2 = 1 then some 2
    else if b / 4 % 2 = 1 then some 4 else if b / 8 % 2 = 1 then some 8
    else if b / 16 % 2 = 1 then some 16 else if b / 32 % 2 = 1 then some 32 else none := by
  have h0 : ¬ b &&& 1 = 0 ↔ b % 2 = 1 := by rw [Nat.and_one_is_mod]; omega
  have h1 := land_two_pow_ne_zero b 1
  have h2 := land_two_pow_ne_zero b 2
  have h3 := land_two_pow_ne_zero b 3
  have h4 := land_two_pow_ne_zero b 4
  have h5 := land_two_pow_ne_zero b 5
  norm_num at h1 h2 h3 h4 h5
  unfold getSflag
  simp only [ne_eq, h0, h1, h2, h3, h4, h5]

theorem memcpy_zero (dst src : List Nat) (n : Nat) :
    memcpy dst 0 src n = src.take n ++ dst.drop n := by
  simp [memcpy]

theorem memcpy_append (p r src : List Nat) (n : Nat) :
    memcpy (p ++ r) p.length src n = p ++ src.take n ++ r.drop n := by
  simp [memcpy]

theorem memcpy_cons_one (a : Nat) (r src : List Nat) (n : Nat) :
    memcpy (List.take 1 [a] ++ r) 1 src n = a :: (src.take n ++ r.drop n) := by
  have h : 1 + n = n + 1 := by omega
  simp [memcpy, h]

theorem read16_le16 (m : Nat) (t : List Nat) (h : m < 65536) :
    read16 (le16 m ++ t) = m := by
  simp [read16, le16]
  omega

theorem read32_le32 (d : Nat) (t : List Nat) (h : d < 4294967296) :
    read32 (le32 d ++ t) = d := by
  simp [read32, le32]
  omega

/-- The stream written for an integer key below `2^14`. -/
theorem simkey_int14 (buf : List Nat) (k : KeyPtr) (h : k.addr < 16384) :
    createSimKeyFromRaw buf k ColType.INT
      = SimKeyRet.ok ⟨le16 (k.addr * 4 + 2) ++ buf.drop 2, false, 2, 2⟩ := by
  have h1 : ¬ k.addr ≥ 4294967296 := by omega
  have h2 : (k.addr * 4 + 2) % 65536 = k.addr * 4 + 2 := by omega
  simp [createSimKeyFromRaw, TWO_POW_32, TWO_POW_14, h, h1, h2, memcpy_zero, le16]

/-- The stream written for an integer key in `[2^14, 2^28)`. -/
theorem simkey_int28 (buf : List Nat) (k : KeyPtr) (h0 : 16384 ≤ k.addr)
    (h : k.addr < 268435456) :
    createSimKeyFromRaw buf k ColType.INT
      = SimKeyRet.ok ⟨le32 (k.addr * 16 + 8) ++ buf.drop 4, false, 8, 4⟩ := by
  have h1 : ¬ k.addr ≥ 4294967296 := by omega
  have h3 : ¬ k.addr < 16384 := by omega
  have h2 : (k.addr * 16 + 8) % 4294967296 = k.addr * 16 + 8 := by omega
  simp [createSimKeyFromRaw, TWO_POW_32, TWO_POW_14, TWO_POW_28, h, h1, h2, h3,
    memcpy_zero, le32]

/-- The stream written for an integer key in `[2^28, 2^32)`. -/
theorem simkey_int32 (buf : List Nat) (k : KeyPtr) (h0 : 268435456 ≤ k.addr)
    (h : k.addr < 4294967296) :
    createSimKeyFromRaw buf k ColType.INT
      = SimKeyRet.ok ⟨16 :: (le32 k.addr ++ buf.drop 5), false, 16, 5⟩ := by
  have h1 : ¬ k.addr ≥ 4294967296 := by omega
  have h3 : ¬ k.addr < 16384 := by omega
  have h4 : ¬ k.addr < 268435456 := by omega
  have h2 : k.addr % 4294967296 = k.addr := by omega
  have hm : memcpy (memcpy buf 0 [16] 1) 1 (le32 k.addr) 4
      = 16 :: (le32 k.addr ++ buf.drop 5) := by
    rw [memcpy_zero, memcpy_cons_one]
    simp [le32]
  simp [createSimKeyFromRaw, TWO_POW_32, TWO_POW_14, TWO_POW_28, h1, h2, h3, h4, hm]

/-- The stream written for a float key. -/
theorem simkey_float (buf : List Nat) (k : KeyPtr) :
    createSimKeyFromRaw buf k ColType.FLOAT
      = SimKeyRet.ok ⟨32 :: (le32 k.atof ++ buf.drop 5), false, 32, 5⟩ := by
  have hm : memcpy (memcpy buf 0 [32] 1) 1 (le32 k.atof) 4
      = 32 :: (le32 k.atof ++ buf.drop 5) := by
    rw [memcpy_zero, memcpy_cons_one]
    simp [le32]
  simp [createSimKeyFromRaw, hm]

/-- The stream written for a string key shorter than 128 bytes. -/
theorem simkey_tiny (buf : List Nat) (k : KeyPtr) (hn : k.addr ≠ 0)
    (h : k.sds.length < 128) :
    createSimKeyFromRaw buf k ColType.STRING
      = SimKeyRet.ok ⟨(k.sds.length * 2 + 1) :: (k.sds ++ buf.drop (k.sds.length + 1)),
          false, 1, k.sds.length + 1⟩ := by
  have h1 : k.sds.length < 4294967296 := by omega
  have h2 : ¬ k.sds.length + 1 ≥ 2048 := by omega
  have h3 : (k.sds.length * 2 + 1) % 4294967296 % 256 = k.sds.length * 2 + 1 := by omega
  have h4 : (k.sds.length + 1) % 4294967296 = k.sds.length + 1 := by omega
  have hm : memcpy (memcpy buf 0 [k.sds.length * 2 + 1] 1) 1 k.sds k.sds.length
      = (k.sds.length * 2 + 1) :: (k.sds ++ buf.drop (k.sds.length + 1)) := by
    rw [memcpy_zero, memcpy_cons_one]
    simp [Nat.add_comm]
  simp [createSimKeyFromRaw, TWO_POW_32, TWO_POW_7, SIMKEY_BUFFER_SIZE, hn, h, h1, h2, h3, h4, hm]

/-- The stream written for a string key of 128 bytes or more. -/
theorem simkey_long (buf : List Nat) (k : KeyPtr) (hn : k.addr ≠ 0)
    (h0 : 128 ≤ k.sds.length) (h : k.sds.length < 4294967296) :
    createSimKeyFromRaw buf k ColType.STRING
      = SimKeyRet.ok ⟨4 :: (le32 k.sds.length ++ (k.sds ++ longTail buf k.sds.length)),
          decide (k.sds.length + 5 ≥ 2048), 4, (k.sds.length + 5) % 4294967296⟩ := by
  have h1 : ¬ k.sds.length < 128 := by omega
  have h2 : k.sds.length % 4294967296 = k.sds.length := by omega
  have hm : ∀ m : List Nat, memcpy (memcpy (memcpy m 0 [4] 1) 1 (le32 k.sds.length) 4) 5
      k.sds k.sds.length = 4 :: (le32 k.sds.length ++ (k.sds ++ m.drop (k.sds.length + 5))) := by
    intro m
    rw [memcpy_zero, memcpy_cons_one]
    have := memcpy_append (4 :: le32 k.sds.length) ((m.drop 1).drop 4) k.sds k.sds.length
    simp [le32] at this
    simp [le32, this, Nat.add_comm]
  by_cases hb : k.sds.length + 5 ≥ 2048
  · simp [createSimKeyFromRaw, TWO_POW_32, TWO_POW_7, SIMKEY_BUFFER_SIZE, hn, h, h1, h2, hm,
      hb, longTail, malloc]
  · simp [createSimKeyFromRaw, TWO_POW_32, TWO_POW_7, SIMKEY_BUFFER_SIZE, hn, h, h1, h2, hm,
      hb, longTail]

/-! ## Tags and readers on the written streams -/

theorem getSflag_int14 (v : Nat) : getSflag ((v * 4 + 2) % 256) = some 2 := by
  rw [getSflag_mod]
  have h1 : ¬ (v * 4 + 2) % 256 % 2 = 1 := by omega
  have h2 : (v * 4 + 2) % 256 / 2 % 2 = 1 := by omega
  simp [h1, h2]

theorem getSflag_int28 (v : Nat) : getSflag ((v * 16 + 8) % 256) = some 8 := by
  rw [getSflag_mod]
  have h1 : ¬ (v * 16 + 8) % 256 % 2 = 1 := by omega
  have h2 : ¬ (v * 16 + 8) % 256 / 2 % 2 = 1 := by omega
  have h3 : ¬ (v * 16 + 8) % 256 / 4 % 2 = 1 := by omega
  have h4 : (v * 16 + 8) % 256 / 8 % 2 = 1 := by omega
  simp [h1, h2, h3, h4]

theorem getSflag_tiny (len : Nat) : getSflag (len * 2 + 1) = some 1 := by
  rw [getSflag_mod]
  have h1 : (len * 2 + 1) % 2 = 1 := by omega
  simp [h1]

theorem getSflag_four : getSflag 4 = some 4 := by decide

theorem getSflag_sixteen : getSflag 16 = some 16 := by decide

theorem getSflag_thirtytwo : getSflag 32 = some 32 := by decide

theorem get14BitInt_le16 (v : Nat) (t : List Nat) (h : v < 16384) :
    get14BitInt (le16 (v * 4 + 2) ++ t) = v := by
  unfold get14BitInt
  rw [read16_le16 _ _ (by omega)]
  omega

theorem get28BitInt_le32 (v : Nat) (t : List Nat) (h : v < 268435456) :
    get28BitInt (le32 (v * 16 + 8) ++ t) = v := by
  unfold get28BitInt
  rw [read32_le32 _ _ (by omega)]
  omega

theorem getInt_le32 (v : Nat) (t : List Nat) (h : v < 4294967296) :
    (getInt (16 :: (le32 v ++ t))).1 = v := by
  simp only [getInt, List.drop_succ_cons, List.drop_zero]
  exact read32_le32 _ _ h

theorem headD_le16 (m : Nat) (t : List Nat) : (le16 m ++ t).headD 0 = m % 256 := by
  simp [le16]

theorem headD_le32 (m : Nat) (t : List Nat) : (le32 m ++ t).headD 0 = m % 256 := by
  simp [le32]

/-- C1. Round trip of integer keys: for every integer `v` below `2^32`
(offered as `(ulong)key_ptr`), `createSimKeyFromRaw` with `COL_TYPE_INT`
returns a stream, and `assignKeyRobj` on that stream (whatever the static
buffer held before, whatever the target `robj` held) yields an
integer-encoded `robj` whose value is exactly `v`. -/
theorem C1_int_key_round_trip (fmt : Nat → List Nat) (buf : List Nat) (k : KeyPtr)
    (key : robj) (h : k.addr < 2 ^ 32) :
    ∃ r, createSimKeyFromRaw buf k ColType.INT = SimKeyRet.ok r ∧
      assignKeyRobj fmt r.simkey key
        = some ⟨RedisType.REDIS_STRING, Encoding.INT, RobjPtr.int k.addr, 1⟩ := by
  have h32 : k.addr < 4294967296 := by simpa using h
  by_cases h14 : k.addr < 16384
  · refine ⟨_, simkey_int14 buf k h14, ?_⟩
    simp only [assignKeyRobj, headD_le16, getSflag_int14, Option.some_bind]
    simp [get14BitInt_le16 _ _ h14]
  · by_cases h28 : k.addr < 268435456
    · refine ⟨_, simkey_int28 buf k (by omega) h28, ?_⟩
      simp only [assignKeyRobj, headD_le32, getSflag_int28, Option.some_bind]
      simp [get28BitInt_le32 _ _ h28]
    · refine ⟨_, simkey_int32 buf k (by omega) h32, ?_⟩
      simp only [assignKeyRobj, List.headD_cons, getSflag_sixteen, Option.some_bind]
      simp [getInt_le32 _ _ h32]

/-- C1, at the boundary values `0`, `2^14-1`, `2^14`, `2^28-1`, `2^28` and
`2^32-1`, on a buffer that still holds an older key. -/
theorem C1_int_key_round_trip_witness :
    IntRoundTripAt 0 ∧ IntRoundTripAt 16383 ∧ IntRoundTripAt 16384 ∧
      IntRoundTripAt 268435455 ∧ IntRoundTripAt 268435456 ∧ IntRoundTripAt 4294967295 :=
  ⟨⟨by decide, C1_int_key_round_trip _ _ _ _ (by decide)⟩,
   ⟨by decide, C1_int_key_round_trip _ _ _ _ (by decide)⟩,
   ⟨by decide, C1_int_key_round_trip _ _ _ _ (by decide)⟩,
   ⟨by decide, C1_int_key_round_trip _ _ _ _ (by decide)⟩,
   ⟨by decide, C1_int_key_round_trip _ _ _ _ (by decide)⟩,
   ⟨by decide, C1_int_key_round_trip _ _ _ _ (by decide)⟩⟩

theorem take_sds_append (s t : List Nat) : sdsnewlen (s ++ t) s.length = s := by
  simp [sdsnewlen]

/-- C2. Round trip of string keys: for every non-null byte string `s` of
length below `2^32` (empty, 127 or 128 bytes long, with or without zero
bytes), `createSimKeyFromRaw` with `COL_TYPE_STRING` returns a stream;
`getSflag` selects `getTinyString` or `getString` on it, which reads back the
length of `s`, and `assignKeyRobj` yields a raw `robj` holding exactly the
bytes of `s`. -/
theorem C2_string_key_round_trip (fmt : Nat → List Nat) (buf : List Nat) (k : KeyPtr)
    (key : robj) (hn : k.addr ≠ 0) (h : k.sds.length < 2 ^ 32) :
    ∃ r, createSimKeyFromRaw buf k ColType.STRING = SimKeyRet.ok r ∧
      assignKeyRobj fmt r.simkey key
        = some ⟨RedisType.REDIS_STRING, Encoding.RAW, RobjPtr.sds k.sds, 1⟩ ∧
      ((getSflag (r.simkey.headD 0) = some 1 ∧
          (getTinyString r.simkey).2 = k.sds.length ∧
          sdsnewlen (getTinyString r.simkey).1 (getTinyString r.simkey).2 = k.sds) ∨
       (getSflag (r.simkey.headD 0) = some 4 ∧
          (getString r.simkey).2 = k.sds.length ∧
          sdsnewlen (getString r.simkey).1 (getString r.simkey).2 = k.sds)) := by
  have h32 : k.sds.length < 4294967296 := by simpa using h
  by_cases ht : k.sds.length < 128
  · refine ⟨_, simkey_tiny buf k hn ht, ?_, Or.inl ⟨?_, ?_, ?_⟩⟩
    · have hl : (k.sds.length * 2 + 1) / 2 = k.sds.length := by omega
      simp only [assignKeyRobj, List.headD_cons, getSflag_tiny, Option.some_bind]
      simp [getTinyString, hl, take_sds_append]
    · simp only [List.headD_cons, getSflag_tiny]
    · simp only [getTinyString, List.headD_cons]
      omega
    · have hl : (k.sds.length * 2 + 1) / 2 = k.sds.length := by omega
      simp [getTinyString, hl, take_sds_append]
  · have hr : read32 (le32 k.sds.length ++ (k.sds ++ longTail buf k.sds.length))
        = k.sds.length := read32_le32 _ _ h32
    have hd : List.drop 4 (le32 k.sds.length ++ (k.sds ++ longTail buf k.sds.length))
        = k.sds ++ longTail buf k.sds.length := by
      simp [le32]
    refine ⟨_, simkey_long buf k hn (by omega) h32, ?_, Or.inr ⟨?_, ?_, ?_⟩⟩
    · simp only [assignKeyRobj, List.headD_cons, getSflag_four, Option.some_bind]
      simp [getString, hr, hd, take_sds_append]
    · simp only [List.headD_cons, getSflag_four]
    · simp [getString, hr]
    · simp [getString, hr, hd, take_sds_append]

/-- C2, at the empty string, a string with zero bytes, a 127-byte string (tiny
form) and a 128-byte string (long form). -/
theorem C2_string_key_round_trip_witness :
    StringRoundTripAt [] ∧ StringRoundTripAt [97, 0, 98, 0] ∧
      StringRoundTripAt (List.replicate 127 65) ∧ StringRoundTripAt (List.replicate 128 65) :=
  ⟨⟨by decide, by decide, C2_string_key_round_trip _ _ _ _ (by decide) (by decide)⟩,
   ⟨by decide, by decide, C2_string_key_round_trip _ _ _ _ (by decide) (by decide)⟩,
   ⟨by decide, by simp, C2_string_key_round_trip _ _ _ _ (by decide) (by simp)⟩,
   ⟨by decide, by simp, C2_string_key_round_trip _ _ _ _ (by decide) (by simp)⟩⟩

/-! ## Comparison of integer keys -/

/-- What `btStreamCmp` reads from the stream of an integer key: an integer
tag, and through the reader of that tag the key itself. -/
theorem int_stream_decodes (buf : List Nat) (k : KeyPtr) (h : k.addr < 4294967296) :
    ∃ r f, createSimKeyFromRaw buf k ColType.INT = SimKeyRet.ok r ∧
      getSflag (r.simkey.headD 0) = some f ∧ (f = 2 ∨ f = 8 ∨ f = 16) ∧
      (if f = 2 then get14BitInt r.simkey
        else if f = 8 then get28BitInt r.simkey else (getInt r.simkey).1) = k.addr := by
  by_cases h14 : k.addr < 16384
  · refine ⟨_, 2, simkey_int14 buf k h14, ?_, Or.inl rfl, ?_⟩
    · simp only [headD_le16, getSflag_int14]
    · simp [get14BitInt_le16 _ _ h14]
  · by_cases h28 : k.addr < 268435456
    · refine ⟨_, 8, simkey_int28 buf k (by omega) h28, ?_, Or.inr (Or.inl rfl), ?_⟩
      · simp only [headD_le32, getSflag_int28]
      · simp [get28BitInt_le32 _ _ h28]
    · refine ⟨_, 16, simkey_int32 buf k (by omega) h, ?_, Or.inr (Or.inr rfl), ?_⟩
      · simp only [List.headD_cons, getSflag_sixteen]
      · simp [getInt_le32 _ _ h]

/-- The integer branch of `btStreamCmp` on two streams with integer tags. -/
theorem btStreamCmp_int (floatCmp : Nat → Nat → Int) (s1 s2 : List Nat) (f1 f2 : Nat)
    (h1 : getSflag (s1.headD 0) = some f1) (h2 : getSflag (s2.headD 0) = some f2)
    (hf1 : f1 = 2 ∨ f1 = 8 ∨ f1 = 16) :
    btStreamCmp floatCmp (some s1) (some s2) =
      some (if (if f1 = 2 then get14BitInt s1
                else if f1 = 8 then get28BitInt s1 else (getInt s1).1)
              = (if f2 = 2 then get14BitInt s2
                else if f2 = 8 then get28BitInt s2 else (getInt s2).1) then 0
            else if (if f1 = 2 then get14BitInt s1
                else if f1 = 8 then get28BitInt s1 else (getInt s1).1)
              > (if f2 = 2 then get14BitInt s2
                else if f2 = 8 then get28BitInt s2 else (getInt s2).1) then 1
            else -1) := by
  have hs : ¬ (f1 = 1 ∨ f1 = 4) := by omega
  have hle : f1 ≤ 16 := by omega
  simp only [btStreamCmp, h1, h2, Option.some_bind, hs, hle, if_true, if_false]

/-- C3. Order of integer keys: for every two integers `x`, `y` below `2^32`,
each encoded in the variant its size selects (14-bit, 28-bit or full),
`btStreamCmp` on the two streams returns a negative number, zero or a positive
number exactly as `x < y`, `x = y` or `x > y`. -/
theorem C3_int_compare_agrees (floatCmp : Nat → Nat → Int) (buf1 buf2 : List Nat)
    (k1 k2 : KeyPtr) (h1 : k1.addr < 2 ^ 32) (h2 : k2.addr < 2 ^ 32) :
    ∃ r1 r2 c, createSimKeyFromRaw buf1 k1 ColType.INT = SimKeyRet.ok r1 ∧
      createSimKeyFromRaw buf2 k2 ColType.INT = SimKeyRet.ok r2 ∧
      btStreamCmp floatCmp (some r1.simkey) (some r2.simkey) = some c ∧
      (c < 0 ↔ k1.addr < k2.addr) ∧ (c = 0 ↔ k1.addr = k2.addr) ∧
      (0 < c ↔ k2.addr < k1.addr) := by
  obtain ⟨r1, f1, hc1, hg1, hf1, hd1⟩ := int_stream_decodes buf1 k1 (by simpa using h1)
  obtain ⟨r2, f2, hc2, hg2, _, hd2⟩ := int_stream_decodes buf2 k2 (by simpa using h2)
  refine ⟨r1, r2, _, hc1, hc2, btStreamCmp_int floatCmp _ _ f1 f2 hg1 hg2 hf1, ?_⟩
  rw [hd1, hd2]
  by_cases he : k1.addr = k2.addr
  · simp [he]
  · by_cases hg : k1.addr > k2.addr
    · rw [if_neg he, if_pos hg]
      omega
    · rw [if_neg he, if_neg hg]
      omega

/-- C3, at keys stored in different variants: `16383` (14-bit) against
`16384` (28-bit), `2^28` (full) against `2^28 - 1` (28-bit), and the full-width
key `2^32 - 1` against itself. -/
theorem C3_int_compare_agrees_witness :
    IntCompareAt 16383 16384 ∧ IntCompareAt 268435456 268435455 ∧
      IntCompareAt 4294967295 4294967295 :=
  ⟨⟨by decide, by decide, C3_int_compare_agrees _ _ _ _ _ (by decide) (by decide)⟩,
   ⟨by decide, by decide, C3_int_compare_agrees _ _ _ _ _ (by decide) (by decide)⟩,
   ⟨by decide, by decide, C3_int_compare_agrees _ _ _ _ _ (by decide) (by decide)⟩⟩

/-! ## Comparison of string keys -/

theorem simkey_int_null (buf : List Nat) (k : KeyPtr) (h : 4294967296 ≤ k.addr) :
    createSimKeyFromRaw buf k ColType.INT = SimKeyRet.NULL := by
  simp [createSimKeyFromRaw, TWO_POW_32, h]

theorem simkey_long_null (buf : List Nat) (k : KeyPtr) :
    createSimKeyFromRaw buf k ColType.LONG = SimKeyRet.NULL := by
  simp [createSimKeyFromRaw]

theorem simkey_string_null_ptr (buf : List Nat) (k : KeyPtr) (h : k.addr = 0) :
    createSimKeyFromRaw buf k ColType.STRING = SimKeyRet.assertFailed := by
  simp [createSimKeyFromRaw, h]

theorem simkey_string_too_long (buf : List Nat) (k : KeyPtr)
    (h : 4294967296 ≤ k.sds.length) :
    createSimKeyFromRaw buf k ColType.STRING = SimKeyRet.assertFailed := by
  have h1 : ¬ k.sds.length < 4294967296 := by omega
  by_cases hn : k.addr = 0
  · exact simkey_string_null_ptr buf k hn
  · simp [createSimKeyFromRaw, TWO_POW_32, hn, h1]

/-- Every stream that `createSimKeyFromRaw` returns has one of six shapes. -/
theorem simkey_shapes (buf : List Nat) (k : KeyPtr) (t : ColType) (r : SimKey)
    (h : createSimKeyFromRaw buf k t = SimKeyRet.ok r) :
    (t = ColType.INT ∧ k.addr < 16384 ∧
      r = ⟨le16 (k.addr * 4 + 2) ++ buf.drop 2, false, 2, 2⟩) ∨
    (t = ColType.INT ∧ 16384 ≤ k.addr ∧ k.addr < 268435456 ∧
      r = ⟨le32 (k.addr * 16 + 8) ++ buf.drop 4, false, 8, 4⟩) ∨
    (t = ColType.INT ∧ 268435456 ≤ k.addr ∧ k.addr < 4294967296 ∧
      r = ⟨16 :: (le32 k.addr ++ buf.drop 5), false, 16, 5⟩) ∨
    (t = ColType.FLOAT ∧ r = ⟨32 :: (le32 k.atof ++ buf.drop 5), false, 32, 5⟩) ∨
    (t = ColType.STRING ∧ k.addr ≠ 0 ∧ k.sds.length < 128 ∧
      r = ⟨(k.sds.length * 2 + 1) :: (k.sds ++ buf.drop (k.sds.length + 1)),
        false, 1, k.sds.length + 1⟩) ∨
    (t = ColType.STRING ∧ k.addr ≠ 0 ∧ 128 ≤ k.sds.length ∧ k.sds.length < 4294967296 ∧
      r = ⟨4 :: (le32 k.sds.length ++ (k.sds ++ longTail buf k.sds.length)),
        decide (k.sds.length + 5 ≥ 2048), 4, (k.sds.length + 5) % 4294967296⟩) := by
  cases t with
  | INT =>
    by_cases h32 : k.addr < 4294967296
    · by_cases h14 : k.addr < 16384
      · rw [simkey_int14 buf k h14] at h
        exact Or.inl ⟨rfl, h14, (SimKeyRet.ok.inj h).symm⟩
      · by_cases h28 : k.addr < 268435456
        · rw [simkey_int28 buf k (by omega) h28] at h
          exact Or.inr (Or.inl ⟨rfl, by omega, h28, (SimKeyRet.ok.inj h).symm⟩)
        · rw [simkey_int32 buf k (by omega) h32] at h
          exact Or.inr (Or.inr (Or.inl ⟨rfl, by omega, h32, (SimKeyRet.ok.inj h).symm⟩))
    · rw [simkey_int_null buf k (by omega)] at h
      cases h
  | LONG =>
    rw [simkey_long_null] at h
    cases h
  | FLOAT =>
    rw [simkey_float] at h
    exact Or.inr (Or.inr (Or.inr (Or.inl ⟨rfl, (SimKeyRet.ok.inj h).symm⟩)))
  | STRING =>
    by_cases hn : k.addr = 0
    · rw [simkey_string_null_ptr buf k hn] at h
      cases h
    · by_cases h32 : k.sds.length < 4294967296
      · by_cases ht : k.sds.length < 128
        · rw [simkey_tiny buf k hn ht] at h
          exact Or.inr (Or.inr (Or.inr (Or.inr (Or.inl
            ⟨rfl, hn, ht, (SimKeyRet.ok.inj h).symm⟩))))
        · rw [simkey_long buf k hn (by omega) h32] at h
          exact Or.inr (Or.inr (Or.inr (Or.inr (Or.inr
            ⟨rfl, hn, by omega, h32, (SimKeyRet.ok.inj h).symm⟩))))
      · rw [simkey_string_too_long buf k (by omega)] at h
        cases h

/-- C5. Size-adaptive integer variants: for every integer `v` below `2^32`,
`createSimKeyFromRaw` with `COL_TYPE_INT` returns a stream with tag `2` and
`ksize` `2` when `v < 2^14`, tag `8` and `ksize` `4` when `2^14 <= v < 2^28`,
and tag `16` and `ksize` `5` otherwise; the tag is both reported in `sflag` and
readable from the first byte of the stream, and the static buffer is left as
it was from offset `ksize` on. -/
theorem C5_int_variant_and_size (buf : List Nat) (k : KeyPtr) (h : k.addr < 2 ^ 32) :
    ∃ r, createSimKeyFromRaw buf k ColType.INT = SimKeyRet.ok r ∧
      getSflag (r.simkey.headD 0) = some r.sflag ∧
      r.simkey.drop r.ksize = buf.drop r.ksize ∧
      (k.addr < 2 ^ 14 → r.sflag = 2 ∧ r.ksize = 2) ∧
      (2 ^ 14 ≤ k.addr ∧ k.addr < 2 ^ 28 → r.sflag = 8 ∧ r.ksize = 4) ∧
      (2 ^ 28 ≤ k.addr → r.sflag = 16 ∧ r.ksize = 5) := by
  have h32 : k.addr < 4294967296 := by simpa using h
  by_cases h14 : k.addr < 16384
  · refine ⟨_, simkey_int14 buf k h14, ?_, ?_, ?_, ?_, ?_⟩
    · simp only [headD_le16, getSflag_int14]
    · simp [le16]
    · intro _
      exact ⟨rfl, rfl⟩
    · intro hh
      norm_num at hh
      omega
    · intro hh
      norm_num at hh
      omega
  · by_cases h28 : k.addr < 268435456
    · refine ⟨_, simkey_int28 buf k (by omega) h28, ?_, ?_, ?_, ?_, ?_⟩
      · simp only [headD_le32, getSflag_int28]
      · simp [le32]
      · intro hh
        norm_num at hh
        omega
      · intro _
        exact ⟨rfl, rfl⟩
      · intro hh
        norm_num at hh
        omega
    · refine ⟨_, simkey_int32 buf k (by omega) h32, ?_, ?_, ?_, ?_, ?_⟩
      · simp only [List.headD_cons, getSflag_sixteen]
      · simp [le32]
      · intro hh
        norm_num at hh
        omega
      · intro hh
        norm_num at hh
        omega
      · intro _
        exact ⟨rfl, rfl⟩

/-- C5, at the last value of the 14-bit variant, the first and the last value
of the 28-bit variant and the first value of the full variant. -/
theorem C5_int_variant_and_size_witness :
    IntVariantAt 16383 ∧ IntVariantAt 16384 ∧ IntVariantAt 268435455 ∧
      IntVariantAt 268435456 :=
  ⟨⟨by decide, C5_int_variant_and_size _ _ (by decide)⟩,
   ⟨by decide, C5_int_variant_and_size _ _ (by decide)⟩,
   ⟨by decide, C5_int_variant_and_size _ _ (by decide)⟩,
   ⟨by decide, C5_int_variant_and_size _ _ (by decide)⟩⟩

/-- C6 (amended). Tiny and long string variants: for every non-null string
`s` with `len(s) + 5 < 2^32`, `createSimKeyFromRaw` uses the tiny form (tag
`1`, first byte `2*len+1`, `ksize = len+1`) exactly when `len(s) < 128` and the
long form (tag `4`, first byte `4`, then the 32-bit length, `ksize = len+5`)
exactly when `len(s) >= 128`. -/
theorem C6_string_variant_and_size (buf : List Nat) (k : KeyPtr) (hn : k.addr ≠ 0)
    (h : k.sds.length + 5 < 2 ^ 32) :
    ∃ r, createSimKeyFromRaw buf k ColType.STRING = SimKeyRet.ok r ∧
      getSflag (r.simkey.headD 0) = some r.sflag ∧
      (r.sflag = 1 ↔ k.sds.length < 128) ∧ (r.sflag = 4 ↔ 128 ≤ k.sds.length) ∧
      (r.sflag = 1 →
        r.simkey.headD 0 = 2 * k.sds.length + 1 ∧ r.ksize = k.sds.length + 1) ∧
      (r.sflag = 4 →
        r.simkey.headD 0 = 4 ∧ read32 (r.simkey.drop 1) = k.sds.length ∧
        r.ksize = k.sds.length + 5) := by
  have h32 : k.sds.length + 5 < 4294967296 := by simpa using h
  by_cases ht : k.sds.length < 128
  · refine ⟨_, simkey_tiny buf k hn ht, ?_, ?_, ?_, ?_, ?_⟩
    · simp only [List.headD_cons, getSflag_tiny]
    · simp [ht]
    · simp
      omega
    · intro _
      exact ⟨by simp only [List.headD_cons]; omega, rfl⟩
    · intro hh
      simp at hh
  · refine ⟨_, simkey_long buf k hn (by omega) (by omega), ?_, ?_, ?_, ?_, ?_⟩
    · simp only [List.headD_cons, getSflag_four]
    · simp [ht]
    · simp
      omega
    · intro hh
      simp at hh
    · intro _
      refine ⟨rfl, ?_, ?_⟩
      · simp only [List.drop_succ_cons, List.drop_zero]
        exact read32_le32 _ _ (by omega)
      · show (k.sds.length + 5) % 4294967296 = k.sds.length + 5
        omega

/-- C6 (amended), at a 127-byte key (tiny) and a 128-byte key (long). -/
theorem C6_string_variant_and_size_witness :
    StringVariantAt (List.replicate 127 65) ∧ StringVariantAt (List.replicate 128 65) :=
  ⟨⟨by decide, by simp, C6_string_variant_and_size _ _ (by decide) (by simp)⟩,
   ⟨by decide, by simp, C6_string_variant_and_size _ _ (by decide) (by simp)⟩⟩

/-- With a length of `2^32 - 5` the long form is chosen and the `uint32`
`ksize` wraps to `0`. -/
theorem simkey_ksize_wraps (buf : List Nat) (k : KeyPtr) (hn : k.addr ≠ 0)
    (h : k.sds.length = 4294967291) :
    ∃ r, createSimKeyFromRaw buf k ColType.STRING = SimKeyRet.ok r ∧ r.sflag = 4 ∧
      r.ksize = 0 ∧ r.ksize ≠ k.sds.length + 5 := by
  refine ⟨_, simkey_long buf k hn (by omega) (by omega), rfl, ?_, ?_⟩
  · simp [h]
  · simp [h]

/-- C6 as stated fails for the longest strings.  A string of `2^32` bytes
stops at `assert(sdslen(key_ptr) < TWO_POW_32)` and gets no form at all; a
string of `2^32 - 5` bytes passes the assertion and gets the long form, but
its `ksize` is `0`, not `len + 5`, because `ksize` is a `uint32`. -/
theorem C6_string_variant_counterexample :
    createSimKeyFromRaw [] ⟨1, List.replicate 4294967296 65, 0⟩ ColType.STRING
      = SimKeyRet.assertFailed ∧
    (∃ r, createSimKeyFromRaw [] ⟨1, List.replicate 4294967291 65, 0⟩ ColType.STRING
        = SimKeyRet.ok r ∧ r.sflag = 4 ∧ r.ksize = 0 ∧
      r.ksize ≠ (⟨1, List.replicate 4294967291 65, 0⟩ : KeyPtr).sds.length + 5) :=
  ⟨simkey_string_too_long [] ⟨1, List.replicate 4294967296 65, 0⟩
      (Nat.le_of_eq (List.length_replicate 4294967296 65).symm),
    simkey_ksize_wraps [] ⟨1, List.replicate 4294967291 65, 0⟩ (by decide)
      (List.length_replicate 4294967291 65)⟩

/-- C7 (amended). `createSimKeyFromRaw` returns `NULL` exactly when an integer
key of `2^32` or more is offered or the column type is LONG, for which it has
no branch; it stops at an assertion exactly when a STRING key is null or
`2^32` bytes or longer; and it returns a stream exactly for an INT key below
`2^32`, a FLOAT key, and a non-null STRING key shorter than `2^32` bytes. -/
theorem C7_simkey_outcomes (buf : List Nat) (k : KeyPtr) (t : ColType) :
    (createSimKeyFromRaw buf k t = SimKeyRet.NULL ↔
      (t = ColType.INT ∧ 2 ^ 32 ≤ k.addr) ∨ t = ColType.LONG) ∧
    (createSimKeyFromRaw buf k t = SimKeyRet.assertFailed ↔
      t = ColType.STRING ∧ (k.addr = 0 ∨ 2 ^ 32 ≤ k.sds.length)) ∧
    ((∃ r, createSimKeyFromRaw buf k t = SimKeyRet.ok r) ↔
      (t = ColType.INT ∧ k.addr < 2 ^ 32) ∨ t = ColType.FLOAT ∨
      (t = ColType.STRING ∧ k.addr ≠ 0 ∧ k.sds.length < 2 ^ 32)) := by
  have e32 : (2 : Nat) ^ 32 = 4294967296 := by norm_num
  rw [e32]
  cases t with
  | INT =>
    by_cases h32 : k.addr < 4294967296
    · by_cases h14 : k.addr < 16384
      · simp [simkey_int14 buf k h14, h32]
      · by_cases h28 : k.addr < 268435456
        · simp [simkey_int28 buf k (by omega) h28, h32]
        · simp [simkey_int32 buf k (by omega) h32, h32]
    · simp [simkey_int_null buf k (by omega), h32]
      omega
  | LONG => simp [simkey_long_null]
  | FLOAT => simp [simkey_float]
  | STRING =>
    by_cases hn : k.addr = 0
    · simp [simkey_string_null_ptr buf k hn, hn]
    · by_cases h32 : k.sds.length < 4294967296
      · by_cases ht : k.sds.length < 128
        · simp [simkey_tiny buf k hn ht, hn, h32]
        · simp [simkey_long buf k hn (by omega) h32, hn, h32]
      · simp [simkey_string_too_long buf k (by omega), hn, h32]
        omega

/-- C7 as stated fails: a key of column type LONG is not an integer key of
`2^32` or more, yet `createSimKeyFromRaw` returns `NULL` for it, also when it
is reached through `createSimKey` (which passes a null `key_ptr` for LONG). -/
theorem C7_simkey_long_counterexample :
    createSimKeyFromRaw [] ⟨5, [53], 0⟩ ColType.LONG = SimKeyRet.NULL ∧
      createSimKey (fun _ => 5) [] Encoding.RAW ⟨5, [53], 0⟩ ColType.LONG = SimKeyRet.NULL ∧
      ¬ (2 ^ 32 ≤ (⟨5, [53], 0⟩ : KeyPtr).addr) := by
  decide

/-- C8. `skipToVal` consumes exactly the reported size: for every stream that
`createSimKeyFromRaw` returns (integer, string or float key), `skipToVal`
returns the encoder's `ksize` and leaves the stream pointer `ksize` bytes
further. -/
theorem C8_skipToVal_consumes_ksize (buf : List Nat) (k : KeyPtr) (t : ColType)
    (r : SimKey) (h : createSimKeyFromRaw buf k t = SimKeyRet.ok r) :
    skipToVal r.simkey = some (r.ksize, r.simkey.drop r.ksize) := by
  rcases simkey_shapes buf k t r h with
    ⟨_, _, rfl⟩ | ⟨_, _, _, rfl⟩ | ⟨_, _, _, rfl⟩ | ⟨_, rfl⟩ | ⟨_, _, hlen, rfl⟩ |
    ⟨_, _, _, hlen, rfl⟩
  · simp only [skipToVal, headD_le16, getSflag_int14, Option.some_bind]
    simp
  · simp only [skipToVal, headD_le32, getSflag_int28, Option.some_bind]
    simp
  · simp only [skipToVal, List.headD_cons, getSflag_sixteen, Option.some_bind]
    simp
  · simp only [skipToVal, List.headD_cons, getSflag_thirtytwo, Option.some_bind]
    simp
  · have hl : (k.sds.length * 2 + 1) / 2 = k.sds.length := by omega
    have hm : (k.sds.length + 1) % 4294967296 = k.sds.length + 1 := by omega
    simp only [skipToVal, List.headD_cons, getSflag_tiny, Option.some_bind, getTinyString, hl]
    simp [hm]
  · have hr : read32 (le32 k.sds.length ++ (k.sds ++ longTail buf k.sds.length))
        = k.sds.length := read32_le32 _ _ hlen
    simp only [skipToVal, List.headD_cons, getSflag_four, Option.some_bind, getString,
      List.drop_succ_cons, List.drop_zero, hr]
    simp

/-- C8, at a three-byte string key with a zero byte, written over a buffer
that held a full-width integer key. -/
theorem C8_skipToVal_consumes_ksize_witness :
    createSimKeyFromRaw [16, 255, 255, 255, 255, 7] ⟨1, [97, 0, 98], 0⟩ ColType.STRING
        = SimKeyRet.ok ⟨[7, 97, 0, 98, 255, 7], false, 1, 4⟩ ∧
      skipToVal [7, 97, 0, 98, 255, 7] = some (4, List.drop 4 [7, 97, 0, 98, 255, 7]) :=
  ⟨by decide, C8_skipToVal_consumes_ksize [16, 255, 255, 255, 255, 7] ⟨1, [97, 0, 98], 0⟩
    ColType.STRING ⟨[7, 97, 0, 98, 255, 7], false, 1, 4⟩ (by decide)⟩

/-- C9. `getSflag` recovers the reported tag: for every stream that
`createSimKeyFromRaw` returns, `getSflag` on the first byte returns the tag
reported in `sflag`, which is one of `1`, `2`, `4`, `8`, `16`, `32`; the
assertion of `getSflag` (the outcome `none`) is not reached. -/
theorem C9_getSflag_recovers_tag (buf : List Nat) (k : KeyPtr) (t : ColType)
    (r : SimKey) (h : createSimKeyFromRaw buf k t = SimKeyRet.ok r) :
    getSflag (r.simkey.headD 0) = some r.sflag ∧
      (r.sflag = 1 ∨ r.sflag = 2 ∨ r.sflag = 4 ∨ r.sflag = 8 ∨ r.sflag = 16 ∨
        r.sflag = 32) := by
  rcases simkey_shapes buf k t r h with
    ⟨_, _, rfl⟩ | ⟨_, _, _, rfl⟩ | ⟨_, _, _, rfl⟩ | ⟨_, rfl⟩ | ⟨_, _, _, rfl⟩ |
    ⟨_, _, _, _, rfl⟩
  · exact ⟨by simp only [headD_le16, getSflag_int14], by simp⟩
  · exact ⟨by simp only [headD_le32, getSflag_int28], by simp⟩
  · exact ⟨by simp only [List.headD_cons, getSflag_sixteen], by simp⟩
  · exact ⟨by simp only [List.headD_cons, getSflag_thirtytwo], by simp⟩
  · exact ⟨by simp only [List.headD_cons, getSflag_tiny], by simp⟩
  · exact ⟨by simp only [List.headD_cons, getSflag_four], by simp⟩

/-- C9, at a float key written over a buffer that held a full-width integer
key. -/
theorem C9_getSflag_recovers_tag_witness :
    createSimKeyFromRaw [16, 255, 255, 255, 255, 7] ⟨1, [49], 1065353216⟩ ColType.FLOAT
        = SimKeyRet.ok ⟨[32, 0, 0, 128, 63, 7], false, 32, 5⟩ ∧
      getSflag ([32, 0, 0, 128, 63, 7].headD 0) = some 32 ∧
      ((32 : Nat) = 1 ∨ (32 : Nat) = 2 ∨ (32 : Nat) = 4 ∨ (32 : Nat) = 8 ∨ (32 : Nat) = 16 ∨
        (32 : Nat) = 32) :=
  ⟨by decide, C9_getSflag_recovers_tag [16, 255, 255, 255, 255, 7] ⟨1, [49], 1065353216⟩
    ColType.FLOAT ⟨[32, 0, 0, 128, 63, 7], false, 32, 5⟩ (by decide)⟩


/-! ## `insertCommit`: a duplicate primary key without REPLACE or UPDATE -/

/-- C10. Overwrite is refused: when `insertCommit` (not in parse mode) has
split the tuple and accepted its primary key, the lookup `btFind(btr, &apk)`
finds a row, and neither `repl` nor `upd` is set, then the reply
`insert_ovrwrt` is added, the result is `INS_ERR`, and the data B-trees, the
index B-trees, the dirty counter and `*tsize` are as they were, so the lookup
of the key still finds the old row. -/
theorem C10_insert_overwrite_refused {BT IX NBT Row : Type} (E : Ext BT IX NBT Row)
    (c : State BT IX) (argv : Nat → List Nat) (vals : List Nat) (ncols tmatch nmatches : Nat)
    (inds : Nat → Int) (pcols : Nat) (cmatchs : Nat → Int) (tsize : Option Nat)
    (pr : RowVals) (rrow : Row)
    (hvals : E.parseRowVals vals
      (if (c.Tbl tmatch).lrud ≠ 0 then (ncols : Int) - 1 else (ncols : Int))
      tmatch pcols cmatchs = some pr)
    (hpk : ¬ (C_IS_I ((c.Tbl tmatch).col_type 0) ∧ E.atol pr.pk ≥ (TWO_POW_32 : Int)))
    (hrow : E.btFind (c.btr tmatch) (assignApk E ((c.Tbl tmatch).col_type 0) pr) = some rrow) :
    ∃ c', insertCommit E c argv vals ncols tmatch nmatches inds pcols cmatchs false 0 tsize
          false = (c', ⟨INS_ERR, tsize, none⟩) ∧
      c'.reply = c.reply ++ [Reply.insert_ovrwrt] ∧
      c'.btr = c.btr ∧ c'.ibtr = c.ibtr ∧ c'.dirty = c.dirty ∧
      E.btFind (c'.btr tmatch) (assignApk E ((c.Tbl tmatch).col_type 0) pr) = some rrow := by
  refine ⟨addReply c Reply.insert_ovrwrt, ?_, rfl, rfl, rfl, rfl, hrow⟩
  unfold insertCommit
  simp only [hvals, hrow, hpk, if_false, Option.isSome_some, and_self, if_true,
    Bool.false_eq_true]

/-- C10, on the table `t(pk int, v int)` holding the row `(1,10)`: the tuple
`1,20` is answered with `insert_ovrwrt` and the row `(1,10)` stays. -/
theorem C10_insert_overwrite_refused_witness :
    toyExt.parseRowVals [49, 44, 50, 48]
        (if (toyState.Tbl 0).lrud ≠ 0 then ((2 : Nat) : Int) - 1 else ((2 : Nat) : Int))
        0 0 (fun _ => 0)
      = some ⟨[49, 44, 50, 48], [49], 1, fun n => if n = 0 then ⟨0, 1⟩ else ⟨2, 4⟩⟩ ∧
    (insertCommit toyExt toyState (fun _ => []) [49, 44, 50, 48] 2 0 0 (fun _ => -1) 0
        (fun _ => 0) false 0 none false).2 = ⟨INS_ERR, none, none⟩ ∧
    (insertCommit toyExt toyState (fun _ => []) [49, 44, 50, 48] 2 0 0 (fun _ => -1) 0
        (fun _ => 0) false 0 none false).1.reply = [Reply.ok, Reply.insert_ovrwrt] ∧
    (insertCommit toyExt toyState (fun _ => []) [49, 44, 50, 48] 2 0 0 (fun _ => -1) 0
        (fun _ => 0) false 0 none false).1.btr 0 = [(1, 10)] := by
  obtain ⟨c', h, hr, hb, _, _, _⟩ := C10_insert_overwrite_refused toyExt toyState (fun _ => [])
    [49, 44, 50, 48] 2 0 0 (fun _ => -1) 0 (fun _ => 0) none
    ⟨[49, 44, 50, 48], [49], 1, fun n => if n = 0 then ⟨0, 1⟩ else ⟨2, 4⟩⟩ 10 rfl (by decide) rfl
  refine ⟨rfl, ?_, ?_, ?_⟩
  · rw [h]
  · rw [h]
    exact hr
  · rw [h]
    exact congrFun hb 0

/-! ## `updateAction` and `insertCommit` by stages -/

/-- The function `updateAction` is `updateFront` followed by `updateExec`. -/
theorem updateAction_stages {BT IX NBT Row : Type} (E : Ext BT IX NBT Row) (c : State BT IX)
    (u_vallist : Option (List Nat)) (u_apk : aobj) (u_tmatch : Int) :
    updateAction E c u_vallist u_apk u_tmatch =
      match updateFront E c u_vallist u_apk u_tmatch with
      | (c, none) => (c, -1)
      | (c, some f) => updateExec E c u_vallist f := by
  cases u_vallist with
  | some v =>
    simp only [updateAction, updateFront]
    split
    · rfl
    · split
      · rfl
      · split
        · rename_i h
          simp only [h]
        · rename_i h
          simp only [h, updateExec]
  | none =>
    rcases h1 : E.TABLE_CHECK_OR_REPLY c (c.argv 1) with ⟨c1, _ | tm⟩
    · simp only [updateAction, updateFront, h1]
    · by_cases hs : strcasecmp (c1.argv 2) [83, 69, 84] = true
      · simp only [updateAction, updateFront, h1, hs, if_true]
      · by_cases hw : strcasecmp (c1.argv 4) [87, 72, 69, 82, 69] = true
        · simp only [updateAction, updateFront, h1, hs, hw, if_true, if_false, Bool.false_eq_true]
        · rcases h2 : E.parseUpdateColListReply c1 (tm : Int).toNat (c1.argv 3) with ⟨c2, uc⟩
          by_cases hq : uc.qcols = 0
          · simp only [updateAction, updateFront, h1, hs, hw, h2, hq, if_true, if_false,
              Bool.false_eq_true]
          · by_cases hl : initLRUCS (c2.Tbl (tm : Int).toNat) uc.cmatchs uc.qcols = true
            · simp only [updateAction, updateFront, h1, hs, hw, h2, hq, hl, if_true, if_false,
                Bool.false_eq_true]
            · rcases h3 : assignMisses E c2 (tm : Int).toNat (c2.Tbl (tm : Int).toNat).col_count
                uc.qcols uc.cmatchs noArrays uc.mvals uc.mvlens with ⟨c3, _ | A⟩
              · simp only [updateAction, updateFront, h1, hs, hw, h2, hq, hl, h3, if_true,
                  if_false, Bool.false_eq_true]
              · rcases h4 : E.parseWCReply c3
                  (init_check_sql_where_clause E ((tm : Int).toNat : Int) (some (c3.argv 5)))
                  init_wob with ⟨c4, w, wb⟩
                by_cases he : w.wtype = WType.SQL_ERR_LKP
                · simp only [updateAction, updateFront, h1, hs, hw, h2, hq, hl, h3, h4, he,
                    if_true, if_false, Bool.false_eq_true]
                · rcases h5 : leftoverParsingReply E c4 w.lvr with ⟨c5, _ | _⟩
                  · simp only [updateAction, updateFront, h1, hs, hw, h2, hq, hl, h3, h4, he, h5,
                      if_true, if_false, Bool.false_eq_true]
                  · simp only [updateAction, updateFront, updateExec, h1, hs, hw, h2, hq, hl, h3,
                      h4, he, h5, if_true, if_false, Bool.false_eq_true]

/-- The function `insertCommit`, once the tuple is split and its primary key
has passed the test against `TWO_POW_32`, is `insertCommitBody`. -/
theorem insertCommit_body {BT IX NBT Row : Type} (E : Ext BT IX NBT Row) (c : State BT IX)
    (argv : Nat → List Nat) (vals : List Nat) (ncols tmatch nmatches : Nat)
    (inds : Nat → Int) (pcols : Nat) (cmatchs : Nat → Int) (repl : Bool) (upd : Nat)
    (tsize : Option Nat) (pr : RowVals)
    (hvals : E.parseRowVals vals
      (if (c.Tbl tmatch).lrud ≠ 0 then (ncols : Int) - 1 else (ncols : Int))
      tmatch pcols cmatchs = some pr)
    (hpk : ¬ (C_IS_I ((c.Tbl tmatch).col_type 0) ∧ E.atol pr.pk ≥ (TWO_POW_32 : Int))) :
    insertCommit E c argv vals ncols tmatch nmatches inds pcols cmatchs repl upd tsize false
      = insertCommitBody E c argv ncols tmatch nmatches inds repl upd tsize pr := by
  unfold insertCommit insertCommitBody insertCommitRow
  simp only [hvals, hpk, if_false, Bool.false_eq_true]

/-- The loop of `assignMisses` calls only the collaborators `isExpression` and
`parseExpr`. -/
theorem assignMissesLoop_congr {BT IX NBT Row : Type} (E E2 : Ext BT IX NBT Row)
    (h1 : E2.isExpression = E.isExpression) (h2 : E2.parseExpr = E.parseExpr)
    (tmatch : Nat) (qcols : Int) (cmatchs : Nat → Int) (mvals : Nat → List Nat)
    (mvlens : Nat → Nat) (rt : r_tbl_t) (cols : List Nat) (c : State BT IX) (A : MissArrays) :
    assignMissesLoop E2 tmatch qcols cmatchs mvals mvlens rt cols c A
      = assignMissesLoop E tmatch qcols cmatchs mvals mvlens rt cols c A := by
  induction cols generalizing c A with
  | nil => rfl
  | cons i cols ih =>
    simp only [assignMissesLoop, h1, h2, ih]

/-- The statements of `updateAction` before the test of `w.wtype` call neither
`updateRow` nor `iupdateAction`: they depend on the collaborators listed
here only. -/
theorem updateFront_congr {BT IX NBT Row : Type} (E E2 : Ext BT IX NBT Row)
    (h1 : E2.TABLE_CHECK_OR_REPLY = E.TABLE_CHECK_OR_REPLY)
    (h2 : E2.parseUpdateColListReply = E.parseUpdateColListReply)
    (h3 : E2.MATCH_INDICES = E.MATCH_INDICES)
    (h4 : E2.isExpression = E.isExpression) (h5 : E2.parseExpr = E.parseExpr)
    (h6 : E2.initFilter = E.initFilter) (h7 : E2.parseWCReply = E.parseWCReply)
    (h8 : E2.ISBLANK = E.ISBLANK)
    (c : State BT IX) (u_vallist : Option (List Nat)) (u_apk : aobj) (u_tmatch : Int) :
    updateFront E2 c u_vallist u_apk u_tmatch = updateFront E c u_vallist u_apk u_tmatch := by
  simp only [updateFront, assignMisses, init_check_sql_where_clause, leftoverParsingReply,
    h1, h2, h3, h6, h7, h8, assignMissesLoop_congr E E2 h4 h5]

/-- The single-row path of `updateAction` when the proposed primary key is
found. -/
theorem updateExec_overwrite {BT IX NBT Row : Type} (E : Ext BT IX NBT Row) (c : State BT IX)
    (u_vallist : Option (List Nat)) (f : UpdateFront) (xrow : Row)
    (hsingle : f.w.wtype = WType.SQL_SINGLE_LKP) (hpk : f.pkupc ≠ -1)
    (hnew : E.btFind (c.btr f.w.wf.tmatch.toNat)
      (E.createAobjFromString (f.uc.mvals f.pkupc.toNat) (f.uc.mvlens f.pkupc.toNat)
        (f.rt.col_type 0)) = some xrow) :
    updateExec E c u_vallist f = (addReply c Reply.update_pk_overwrite, -1) := by
  simp only [updateExec, ovwrPKUp, hsingle, hpk, hnew, ne_eq, not_true_eq_false, not_false_eq_true,
    if_true, if_false, Option.isSome_some]

/-- The range path of `updateAction` when the SET list assigns the primary
key. -/
theorem updateExec_range {BT IX NBT Row : Type} (E : Ext BT IX NBT Row) (c : State BT IX)
    (u_vallist : Option (List Nat)) (f : UpdateFront)
    (hrange : f.w.wtype ≠ WType.SQL_SINGLE_LKP) (hpk : f.pkupc ≠ -1) :
    updateExec E c u_vallist f = (addReply c Reply.update_pk_range_query, -1) := by
  simp only [updateExec, hrange, hpk, ne_eq, not_false_eq_true, if_true]


/-! ## `updateAction`: updates of the primary key -/

/-- Claim C16: when `updateAction` reaches the single-row path (`updateFront`
hands back the state `c1` and the locals `f` with `f.w.wtype =
SQL_SINGLE_LKP`), the SET list assigns the primary key (`f.pkupc ≠ -1`) and
`btFind` finds the proposed primary key in the data B-tree, then the result is
`-1`, the state is `c1` with the reply `update_pk_overwrite` added (so the
B-trees, and the row that `btFind` gives for the key of the where-clause, are
those of `c1`), and the result is the same whatever `updateRow` is: it is not
called. -/
theorem C16_update_pk_overwrite {BT IX NBT Row : Type} (E : Ext BT IX NBT Row)
    (c : State BT IX) (u_vallist : Option (List Nat)) (u_apk : aobj) (u_tmatch : Int)
    (c1 : State BT IX) (f : UpdateFront) (xrow : Row)
    (hfront : updateFront E c u_vallist u_apk u_tmatch = (c1, some f))
    (hsingle : f.w.wtype = WType.SQL_SINGLE_LKP)
    (hpk : f.pkupc ≠ -1)
    (hnew : E.btFind (c1.btr f.w.wf.tmatch.toNat)
      (E.createAobjFromString (f.uc.mvals f.pkupc.toNat) (f.uc.mvlens f.pkupc.toNat)
        (f.rt.col_type 0)) = some xrow) :
    updateAction E c u_vallist u_apk u_tmatch = (addReply c1 Reply.update_pk_overwrite, -1) ∧
    (updateAction E c u_vallist u_apk u_tmatch).1.btr = c1.btr ∧
    (updateAction E c u_vallist u_apk u_tmatch).1.ibtr = c1.ibtr ∧
    (updateAction E c u_vallist u_apk u_tmatch).1.dirty = c1.dirty ∧
    E.btFind ((updateAction E c u_vallist u_apk u_tmatch).1.btr f.w.wf.tmatch.toNat) f.w.wf.akey
      = E.btFind (c1.btr f.w.wf.tmatch.toNat) f.w.wf.akey ∧
    ∀ g, updateAction { E with updateRow := g } c u_vallist u_apk u_tmatch
      = updateAction E c u_vallist u_apk u_tmatch := by
  have key : ∀ E2 : Ext BT IX NBT Row, updateFront E2 c u_vallist u_apk u_tmatch
        = updateFront E c u_vallist u_apk u_tmatch →
      E2.btFind = E.btFind → E2.createAobjFromString = E.createAobjFromString →
      updateAction E2 c u_vallist u_apk u_tmatch
        = (addReply c1 Reply.update_pk_overwrite, -1) := by
    intro E2 h1 h2 h3
    rw [updateAction_stages, h1, hfront]
    exact updateExec_overwrite E2 c1 u_vallist f xrow hsingle hpk (by rw [h2, h3]; exact hnew)
  have h0 := key E rfl rfl rfl
  refine ⟨h0, ?_, ?_, ?_, ?_, ?_⟩
  · rw [h0]; rfl
  · rw [h0]; rfl
  · rw [h0]; rfl
  · rw [h0]; rfl
  · intro g
    rw [h0]
    exact key { E with updateRow := g }
      (updateFront_congr E { E with updateRow := g } rfl rfl rfl rfl rfl rfl rfl rfl
        c u_vallist u_apk u_tmatch) rfl rfl

/-- The command `UPDATE t SET pk=1 WHERE pk=2` on the rows `(1,10)` and
`(2,20)`: the proposed primary key 1 is found, and row 2 is still `(2,20)`. -/
theorem C16_update_pk_overwrite_witness :
    (updateFront toyUpd toyUpdState none toyAobj (-1)).2.isSome = true ∧
    updateAction toyUpd toyUpdState none toyAobj (-1)
      = (addReply toyUpdState Reply.update_pk_overwrite, -1) ∧
    toyUpd.btFind ((updateAction toyUpd toyUpdState none toyAobj (-1)).1.btr 0)
      { toyAobj with i := 2 } = some 20 := by
  have h := C16_update_pk_overwrite toyUpd toyUpdState none toyAobj (-1) toyUpdState
    ((updateFront toyUpd toyUpdState none toyAobj (-1)).2.getD
      ⟨toyParseSet [], 0, 0, fun _ => 0, toyTbl, 0, noArrays, toyParseWC
        (init_check_sql_where_clause toyUpd 0 none), init_wob⟩) 10
    (by rfl) (by rfl) (by decide) (by rfl)
  exact ⟨by rfl, h.1, by rw [h.1]; rfl⟩


/-- Claim C17: when `updateAction` reaches the test of `w.wtype` (`updateFront`
hands back the state `c1` and the locals `f`) with a where-clause that is not
a single-row lookup and the SET list assigns the primary key (`f.pkupc ≠ -1`),
then the result is `-1`, the state is `c1` with the reply
`update_pk_range_query` added, and the result is the same whatever
`iupdateAction` is: it is not called. -/
theorem C17_update_pk_range_query {BT IX NBT Row : Type} (E : Ext BT IX NBT Row)
    (c : State BT IX) (u_vallist : Option (List Nat)) (u_apk : aobj) (u_tmatch : Int)
    (c1 : State BT IX) (f : UpdateFront)
    (hfront : updateFront E c u_vallist u_apk u_tmatch = (c1, some f))
    (hrange : f.w.wtype ≠ WType.SQL_SINGLE_LKP)
    (hpk : f.pkupc ≠ -1) :
    updateAction E c u_vallist u_apk u_tmatch = (addReply c1 Reply.update_pk_range_query, -1) ∧
    (updateAction E c u_vallist u_apk u_tmatch).1.btr = c1.btr ∧
    (updateAction E c u_vallist u_apk u_tmatch).1.ibtr = c1.ibtr ∧
    (updateAction E c u_vallist u_apk u_tmatch).1.dirty = c1.dirty ∧
    ∀ g, updateAction { E with iupdateAction := g } c u_vallist u_apk u_tmatch
      = updateAction E c u_vallist u_apk u_tmatch := by
  have key : ∀ E2 : Ext BT IX NBT Row, updateFront E2 c u_vallist u_apk u_tmatch
        = updateFront E c u_vallist u_apk u_tmatch →
      updateAction E2 c u_vallist u_apk u_tmatch
        = (addReply c1 Reply.update_pk_range_query, -1) := by
    intro E2 h1
    rw [updateAction_stages, h1, hfront]
    exact updateExec_range E2 c1 u_vallist f hrange hpk
  have h0 := key E rfl
  refine ⟨h0, ?_, ?_, ?_, ?_⟩
  · rw [h0]; rfl
  · rw [h0]; rfl
  · rw [h0]; rfl
  · intro g
    rw [h0]
    exact key { E with iupdateAction := g }
      (updateFront_congr E { E with iupdateAction := g } rfl rfl rfl rfl rfl rfl rfl rfl
        c u_vallist u_apk u_tmatch)

/-- The command `UPDATE t SET pk=1 WHERE pk>0` on the rows `(1,10)` and
`(2,20)`: the where-clause is a range and the SET list assigns the primary
key. -/
theorem C17_update_pk_range_query_witness :
    (updateFront toyUpd toyRangeState none toyAobj (-1)).2.isSome = true ∧
    updateAction toyUpd toyRangeState none toyAobj (-1)
      = (addReply toyRangeState Reply.update_pk_range_query, -1) := by
  have h := C17_update_pk_range_query toyUpd toyRangeState none toyAobj (-1) toyRangeState
    ((updateFront toyUpd toyRangeState none toyAobj (-1)).2.getD
      ⟨toyParseSet [], 0, 0, fun _ => 0, toyTbl, 0, noArrays, toyParseWC
        (init_check_sql_where_clause toyUpd 0 none), init_wob⟩)
    (by rfl) (by decide) (by decide)
  exact ⟨by rfl, h.1⟩

/-! ## `insertParse`: REPLACE with ON DUPLICATE KEY UPDATE -/

/-- The options block of `insertParse` when the argument before the last one
(the last but two with `RETURN SIZE`) is `ON DUPLICATE KEY UPDATE`: `upd` is
the position of the SET list. -/
theorem insertParseOpts_on_duplicate {BT IX : Type} (c : State BT IX) (n : Nat)
    (hn : n = if strcasecmp (c.argv (c.argc - 1)) RETURN_SIZE = false then c.argc - 1
      else c.argc)
    (h6 : 6 < n) (hint : c.argc < 2 ^ 31)
    (hon : strcasecmp (c.argv (n - 2)) ON_DUPLICATE_KEY_UPDATE = false) :
    (insertParseOpts c).upd = n - 1 ∧ (insertParseOpts c).largc = n - 2 := by
  have h5 : c.argc > 5 := by
    subst hn; split at h6 <;> omega
  have hlt : n - 1 < 2 ^ 32 := by
    subst hn; split <;> omega
  unfold insertParseOpts
  by_cases hr : strcasecmp (c.argv (c.argc - 1)) RETURN_SIZE = false
  · rw [if_pos hr] at hn
    subst hn
    simp only [h5, hr, if_true, h6, hon, Nat.mod_eq_of_lt hlt, and_self]
  · rw [if_neg hr] at hn
    subst hn
    rw [Bool.not_eq_false] at hr
    simp [h5, hr, h6, hon]
    omega


/-- The column-list block of `insertParse` calls only the collaborators
`parseCommaSpaceList` and `OTHER_BT`. -/
theorem insertParseCols_congr {BT IX NBT Row : Type} (E E2 : Ext BT IX NBT Row)
    (h1 : E2.parseCommaSpaceList = E.parseCommaSpaceList) (h2 : E2.OTHER_BT = E.OTHER_BT)
    (c : State BT IX) (argv : Nat → List Nat) (tmatch : Nat) :
    insertParseCols E2 c argv tmatch = insertParseCols E c argv tmatch := by
  simp only [insertParseCols, h1, h2]

/-- The function `insertParse` for REPLACE when the options block finds ON
DUPLICATE KEY UPDATE. -/
theorem insertParse_replace_update {BT IX NBT Row : Type} (E : Ext BT IX NBT Row)
    (c : State BT IX) (argv : Nat → List Nat) (tmatch : Nat) (parse : Bool)
    (c1 : State BT IX) (cols : InsertCols)
    (hcols : insertParseCols E c argv tmatch = (c1, some cols))
    (hupd : (insertParseOpts c1).upd ≠ 0) :
    insertParse E c argv true tmatch parse = (addReply c1 Reply.insert_replace_update, none) := by
  simp only [insertParse, hcols, hupd, ne_eq, not_false_eq_true, and_self, if_true]

/-- Claim C18: `insertParse` called for REPLACE (`repl` set), when the column
list is accepted (`insertParseCols` hands back the state `c1`) and the argument
of `c1` before the SET list (at position `n - 2`, where `n` is `argc` less one
for a trailing RETURN SIZE) is ON DUPLICATE KEY UPDATE, replies
`insert_replace_update` and nothing else: the state is `c1` with that reply
added, the B-trees and `server.dirty` are those of `c1`, and the result does
not depend on the collaborators that `insertCommit` calls (only on
`parseCommaSpaceList` and `OTHER_BT`, used for the column list). -/
theorem C18_replace_on_duplicate_refused {BT IX NBT Row : Type} (E : Ext BT IX NBT Row)
    (c : State BT IX) (argv : Nat → List Nat) (tmatch : Nat) (parse : Bool)
    (c1 : State BT IX) (cols : InsertCols) (n : Nat)
    (hcols : insertParseCols E c argv tmatch = (c1, some cols))
    (hn : n = if strcasecmp (c1.argv (c1.argc - 1)) RETURN_SIZE = false then c1.argc - 1
      else c1.argc)
    (h6 : 6 < n) (hint : c1.argc < 2 ^ 31)
    (hon : strcasecmp (c1.argv (n - 2)) ON_DUPLICATE_KEY_UPDATE = false) :
    insertParse E c argv true tmatch parse = (addReply c1 Reply.insert_replace_update, none) ∧
    (insertParse E c argv true tmatch parse).1.btr = c1.btr ∧
    (insertParse E c argv true tmatch parse).1.ibtr = c1.ibtr ∧
    (insertParse E c argv true tmatch parse).1.dirty = c1.dirty ∧
    ∀ E2 : Ext BT IX NBT Row, E2.parseCommaSpaceList = E.parseCommaSpaceList →
      E2.OTHER_BT = E.OTHER_BT →
      insertParse E2 c argv true tmatch parse = insertParse E c argv true tmatch parse := by
  have hupd : (insertParseOpts c1).upd ≠ 0 := by
    rw [(insertParseOpts_on_duplicate c1 n hn h6 hint hon).1]
    omega
  have h0 := insertParse_replace_update E c argv tmatch parse c1 cols hcols hupd
  refine ⟨h0, ?_, ?_, ?_, ?_⟩
  · rw [h0]; rfl
  · rw [h0]; rfl
  · rw [h0]; rfl
  · intro E2 h1 h2
    rw [h0]
    exact insertParse_replace_update E2 c argv tmatch parse c1 cols
      ((insertParseCols_congr E E2 h1 h2 c argv tmatch).trans hcols) hupd

/-- The command `REPLACE INTO t VALUES (1,30) ON DUPLICATE KEY UPDATE v=3` on
the row `(1,10)`: the argument before the SET list is ON DUPLICATE KEY UPDATE,
and the row is still `(1,10)`. -/
theorem C18_replace_on_duplicate_refused_witness :
    strcasecmp (toyReplaceState.argv (7 - 2)) ON_DUPLICATE_KEY_UPDATE = false ∧
    insertParse toyExt toyReplaceState toyReplaceState.argv true 0 false
      = (addReply toyReplaceState Reply.insert_replace_update, none) ∧
    (insertParse toyExt toyReplaceState toyReplaceState.argv true 0 false).1.btr 0 = [(1, 10)] := by
  have h := C18_replace_on_duplicate_refused toyExt toyReplaceState toyReplaceState.argv 0 false
    toyReplaceState ⟨3, 0, fun _ => 0⟩ 7 (by rfl) (by decide) (by decide) (by decide) (by decide)
  exact ⟨by decide, h.1, by rw [h.2.1]; rfl⟩


/-! ## `insertCommit`: ON DUPLICATE KEY UPDATE -/

/-- The range path and the single-row path of `updateAction` call only the
collaborators listed here. -/
theorem updateExec_congr {BT IX NBT Row : Type} (E E2 : Ext BT IX NBT Row)
    (h1 : E2.createAobjFromString = E.createAobjFromString) (h2 : E2.btFind = E.btFind)
    (h3 : E2.iupdateAction = E.iupdateAction) (h4 : E2.updateRow = E.updateRow)
    (h5 : E2.incrOffsetVar = E.incrOffsetVar)
    (c : State BT IX) (u_vallist : Option (List Nat)) (f : UpdateFront) :
    updateExec E2 c u_vallist f = updateExec E c u_vallist f := by
  simp only [updateExec, ovwrPKUp, h1, h2, h3, h4, h5]

/-- The function `updateAction` calls none of `createRow`, `addToIndex`,
`delFromIndex`, `btReplace`, `btAdd`. -/
theorem updateAction_no_insert {BT IX NBT Row : Type} (E : Ext BT IX NBT Row)
    (g1 : State BT IX → Nat → Nat → Int → List Nat → (Nat → twoint) → State BT IX × Option Row)
    (g2 : State BT IX → Nat → aobj → Row → Int → State BT IX × Bool)
    (g3 : State BT IX → Nat → aobj → Row → Int → State BT IX)
    (g4 g5 : BT → aobj → Row → BT × Int)
    (c : State BT IX) (u_vallist : Option (List Nat)) (u_apk : aobj) (u_tmatch : Int) :
    updateAction { E with createRow := g1, addToIndex := g2, delFromIndex := g3, btReplace := g4, btAdd := g5 } c u_vallist u_apk u_tmatch
      = updateAction E c u_vallist u_apk u_tmatch := by
  rw [updateAction_stages, updateAction_stages,
    updateFront_congr E { E with createRow := g1, addToIndex := g2, delFromIndex := g3, btReplace := g4, btAdd := g5 } rfl rfl rfl rfl rfl rfl rfl rfl]
  rcases updateFront E c u_vallist u_apk u_tmatch with ⟨c1, _ | f⟩
  · rfl
  · exact updateExec_congr E _ rfl rfl rfl rfl rfl c1 u_vallist f

/-- The function `insertCommitBody` when the primary key is found and `upd` is
set: the call of `updateAction` and the test of its result. -/
theorem insertCommitBody_hit {BT IX NBT Row : Type} (E : Ext BT IX NBT Row) (c : State BT IX)
    (argv : Nat → List Nat) (ncols tmatch nmatches : Nat) (inds : Nat → Int) (repl : Bool)
    (upd : Nat) (tsize : Option Nat) (pr : RowVals) (rrow : Row) (hupd : upd ≠ 0)
    (hfind : E.btFind (c.btr tmatch) (assignApk E ((c.Tbl tmatch).col_type 0) pr) = some rrow) :
    insertCommitBody E c argv ncols tmatch nmatches inds repl upd tsize pr
      = if (updateAction E c (some (argv upd)) (assignApk E ((c.Tbl tmatch).col_type 0) pr)
              tmatch).2 = -1
        then ((updateAction E c (some (argv upd)) (assignApk E ((c.Tbl tmatch).col_type 0) pr)
              tmatch).1, ⟨INS_ERR, tsize, none⟩)
        else insertCommitted
          (updateAction E c (some (argv upd)) (assignApk E ((c.Tbl tmatch).col_type 0) pr)
              tmatch).1 tsize
          (updateAction E c (some (argv upd)) (assignApk E ((c.Tbl tmatch).col_type 0) pr)
              tmatch).2 INS_UP := by
  simp only [insertCommitBody, hfind, hupd, Option.isSome_some, false_and, and_false, if_false,
    ne_eq, not_false_eq_true, and_self, if_true, true_and]

/-- The function `insertCommitBody` when the primary key is not found: `upd`
is not read. -/
theorem insertCommitBody_miss {BT IX NBT Row : Type} (E : Ext BT IX NBT Row) (c : State BT IX)
    (argv : Nat → List Nat) (ncols tmatch nmatches : Nat) (inds : Nat → Int) (repl : Bool)
    (upd : Nat) (tsize : Option Nat) (pr : RowVals)
    (hfind : E.btFind (c.btr tmatch) (assignApk E ((c.Tbl tmatch).col_type 0) pr) = none) :
    insertCommitBody E c argv ncols tmatch nmatches inds repl upd tsize pr
      = insertCommitBody E c argv ncols tmatch nmatches inds repl 0 tsize pr := by
  simp only [insertCommitBody, hfind, Option.isSome_none, Bool.false_eq_true, false_and, if_false]

/-- The synthetic where-clause that `updateFront` builds when `u_vallist` is
given. -/
theorem updateFront_synthetic {BT IX NBT Row : Type} (E : Ext BT IX NBT Row) (c : State BT IX)
    (v : List Nat) (u_apk : aobj) (u_tmatch : Int) (c1 : State BT IX) (f : UpdateFront)
    (h : updateFront E c (some v) u_apk u_tmatch = (c1, some f)) :
    f.w.wtype = WType.SQL_SINGLE_LKP ∧ f.w.wf.akey = u_apk ∧ f.w.wf.tmatch = u_tmatch ∧
    f.w.token = none := by
  simp only [updateFront] at h
  split at h
  · simp at h
  · split at h
    · simp at h
    · split at h
      · simp at h
      · simp only [Prod.mk.injEq, Option.some.injEq] at h
        obtain ⟨_, rfl⟩ := h
        exact ⟨rfl, rfl, rfl, rfl⟩


/-- Claim C12, amended: for a tuple that `parseRowVals` splits and whose
primary key passes the test against `TWO_POW_32`, `insertCommit` with `upd`
set (not in parse mode) is, when `btFind` does not find the primary key,
`insertCommit` with `upd = 0` on the same arguments (the plain INSERT, whose
result is `INS_INS` or `INS_ERR`); and, when `btFind` finds it, the call
`updateAction(c, argv[upd], &apk, tmatch)` followed by the test of its result
`len`: `INS_ERR` with `tsize` untouched when `len = -1`, else `INS_UP` with
`len` added to `tsize` and `server.dirty` incremented.  In that call the
where-clause is the synthetic single-row lookup of `apk` in `tmatch`, and
the result of `insertCommit` is the same whatever `createRow`, `addToIndex`,
`delFromIndex`, `btReplace` and `btAdd` are: no row is built or inserted. -/
theorem C12_on_duplicate_update {BT IX NBT Row : Type} (E : Ext BT IX NBT Row)
    (c : State BT IX) (argv : Nat → List Nat) (vals : List Nat) (ncols tmatch nmatches : Nat)
    (inds : Nat → Int) (pcols : Nat) (cmatchs : Nat → Int) (repl : Bool) (upd : Nat)
    (tsize : Option Nat) (pr : RowVals)
    (hupd : upd ≠ 0)
    (hvals : E.parseRowVals vals
      (if (c.Tbl tmatch).lrud ≠ 0 then (ncols : Int) - 1 else (ncols : Int))
      tmatch pcols cmatchs = some pr)
    (hpk : ¬ (C_IS_I ((c.Tbl tmatch).col_type 0) ∧ E.atol pr.pk ≥ (TWO_POW_32 : Int))) :
    (E.btFind (c.btr tmatch) (assignApk E ((c.Tbl tmatch).col_type 0) pr) = none →
      insertCommit E c argv vals ncols tmatch nmatches inds pcols cmatchs repl upd tsize false
        = insertCommit E c argv vals ncols tmatch nmatches inds pcols cmatchs repl 0 tsize
            false) ∧
    (∀ rrow, E.btFind (c.btr tmatch) (assignApk E ((c.Tbl tmatch).col_type 0) pr) = some rrow →
      insertCommit E c argv vals ncols tmatch nmatches inds pcols cmatchs repl upd tsize false
        = (if (updateAction E c (some (argv upd))
                (assignApk E ((c.Tbl tmatch).col_type 0) pr) tmatch).2 = -1
           then ((updateAction E c (some (argv upd))
                (assignApk E ((c.Tbl tmatch).col_type 0) pr) tmatch).1, ⟨INS_ERR, tsize, none⟩)
           else insertCommitted
             (updateAction E c (some (argv upd))
                (assignApk E ((c.Tbl tmatch).col_type 0) pr) tmatch).1 tsize
             (updateAction E c (some (argv upd))
                (assignApk E ((c.Tbl tmatch).col_type 0) pr) tmatch).2 INS_UP) ∧
      ((insertCommit E c argv vals ncols tmatch nmatches inds pcols cmatchs repl upd tsize
          false).2.ret = INS_UP ↔
        (updateAction E c (some (argv upd))
          (assignApk E ((c.Tbl tmatch).col_type 0) pr) tmatch).2 ≠ -1) ∧
      (∀ c1 f, updateFront E c (some (argv upd))
          (assignApk E ((c.Tbl tmatch).col_type 0) pr) tmatch = (c1, some f) →
        f.w.wtype = WType.SQL_SINGLE_LKP ∧
        f.w.wf.akey = assignApk E ((c.Tbl tmatch).col_type 0) pr ∧
        f.w.wf.tmatch = tmatch ∧ f.w.token = none) ∧
      ∀ g1 g2 g3 g4 g5,
        insertCommit { E with createRow := g1, addToIndex := g2, delFromIndex := g3, btReplace := g4, btAdd := g5 }
            c argv vals ncols tmatch nmatches inds pcols cmatchs repl upd tsize false
          = insertCommit E c argv vals ncols tmatch nmatches inds pcols cmatchs repl upd tsize
              false) := by
  refine ⟨fun hfind => ?_, fun rrow hfind => ?_⟩
  · have hpk0 := hpk
    rw [insertCommit_body E c argv vals ncols tmatch nmatches inds pcols cmatchs repl upd tsize pr
        hvals hpk,
      insertCommit_body E c argv vals ncols tmatch nmatches inds pcols cmatchs repl 0 tsize pr
        hvals hpk0]
    exact insertCommitBody_miss E c argv ncols tmatch nmatches inds repl upd tsize pr hfind
  · have h0 : insertCommit E c argv vals ncols tmatch nmatches inds pcols cmatchs repl upd tsize
          false = _ :=
      (insertCommit_body E c argv vals ncols tmatch nmatches inds pcols cmatchs repl upd tsize pr
        hvals hpk).trans
        (insertCommitBody_hit E c argv ncols tmatch nmatches inds repl upd tsize pr rrow hupd
          hfind)
    refine ⟨h0, ?_, ?_, ?_⟩
    · rw [h0]
      by_cases hl : (updateAction E c (some (argv upd))
          (assignApk E ((c.Tbl tmatch).col_type 0) pr) tmatch).2 = -1
      · simp [hl, INS_ERR, INS_UP]
      · simp [hl, insertCommitted]
    · intro c1 f hf
      exact updateFront_synthetic E c (argv upd) _ _ c1 f hf
    · intro g1 g2 g3 g4 g5
      rw [h0]
      have h1 := (insertCommit_body
        { E with createRow := g1, addToIndex := g2, delFromIndex := g3, btReplace := g4, btAdd := g5 }
        c argv vals ncols tmatch nmatches inds pcols cmatchs repl upd tsize pr hvals hpk).trans
        (insertCommitBody_hit
          { E with createRow := g1, addToIndex := g2, delFromIndex := g3, btReplace := g4, btAdd := g5 }
          c argv ncols tmatch nmatches inds repl upd tsize pr rrow hupd hfind)
      rw [h1]
      have h2 : assignApk
          { E with createRow := g1, addToIndex := g2, delFromIndex := g3, btReplace := g4, btAdd := g5 }
          ((c.Tbl tmatch).col_type 0) pr = assignApk E ((c.Tbl tmatch).col_type 0) pr := rfl
      rw [h2, updateAction_no_insert]

/-- The statement `INSERT INTO t VALUES (1,5) ON DUPLICATE KEY UPDATE v=7` on
the rows `(1,10)` and `(2,20)`: the primary key 1 is found, the update is
made, and the result is `INS_UP`. -/
theorem C12_on_duplicate_update_witness :
    toyUpd.btFind (toyUpdState.btr 0) (assignApk toyUpd ((toyUpdState.Tbl 0).col_type 0)
      ⟨[49, 44, 53], [49], 1, fun n => if n = 0 then ⟨0, 1⟩ else ⟨2, 3⟩⟩) = some 10 ∧
    (insertCommit toyUpd toyUpdState (fun _ => [118, 61, 55]) [49, 44, 53] 2 0 0 (fun _ => -1) 0
      (fun _ => 0) false 6 none false).2.ret = INS_UP ∧
    (insertCommit toyUpd toyUpdState (fun _ => [118, 61, 55]) [49, 44, 53] 2 0 0 (fun _ => -1) 0
      (fun _ => 0) false 6 none false).1.btr 0 = [(1, 7), (2, 20)] := by
  have h := (C12_on_duplicate_update toyUpd toyUpdState (fun _ => [118, 61, 55]) [49, 44, 53]
    2 0 0 (fun _ => -1) 0 (fun _ => 0) false 6 none
    ⟨[49, 44, 53], [49], 1, fun n => if n = 0 then ⟨0, 1⟩ else ⟨2, 3⟩⟩
    (by decide) (by rfl) (by decide)).2 10 (by rfl)
  refine ⟨by rfl, h.2.1.2 (by decide), ?_⟩
  rw [h.1]
  rfl

/-- Claim C12, counterexample: the statement `INSERT INTO t VALUES (1,5) ON
DUPLICATE KEY UPDATE pk=2` on the rows `(1,10)` and `(2,20)`.  The primary
key 1 is present and `upd` is set, `updateAction` replies
`update_pk_overwrite` and returns `-1`, and `insertCommit` returns `INS_ERR`,
not `INS_UP`. -/
theorem C12_on_duplicate_update_counterexample :
    toyUpd.btFind (toyUpdState.btr 0) { toyAobj with i := 1 } = some 10 ∧
    insertCommit toyUpd toyUpdState (fun _ => [112, 107, 61, 50]) [49, 44, 53] 2 0 0
      (fun _ => -1) 0 (fun _ => 0) false 6 none false
      = (addReply toyUpdState Reply.update_pk_overwrite, ⟨INS_ERR, none, none⟩) ∧
    INS_ERR ≠ INS_UP := by
  refine ⟨by rfl, by rfl, by decide⟩


/-! ## `insertCommit`: the reply `uint_pkbig` -/

/-- A reply other than `uint_pkbig` leaves the count of `uint_pkbig`
unchanged. -/
theorem pkbigCount_addReply {BT IX : Type} (c : State BT IX) (r : Reply)
    (h : r ≠ Reply.uint_pkbig) : pkbigCount (addReply c r) = pkbigCount c := by
  simp only [pkbigCount, addReply, List.count_append, List.count_cons, List.count_nil]
  simp [h]

/-- The function `check_constraints` adds no reply `uint_pkbig`. -/
theorem pkbigCount_check_constraints {BT IX NBT Row : Type} (E : Ext BT IX NBT Row)
    (c : State BT IX) (btr tmatch : Nat) (ncols : Int) (vals : List Nat)
    (cofsts : Nat → twoint) (apk : aobj) :
    pkbigCount (check_constraints E c btr tmatch ncols vals cofsts apk).1 = pkbigCount c := by
  simp only [check_constraints]
  repeat' split
  all_goals first | rfl | exact pkbigCount_addReply c _ (by decide)

/-- The loop over `addToIndex` adds no reply `uint_pkbig` when `addToIndex`
adds none. -/
theorem pkbigCount_addToIndexes {BT IX NBT Row : Type} (E : Ext BT IX NBT Row)
    (K : KeepsPkbig E) (btr : Nat) (apk : aobj) (nrow : Row) (inds : Nat → Int)
    (is : List Nat) (c : State BT IX) :
    pkbigCount (addToIndexes E btr apk nrow inds is c).1 = pkbigCount c := by
  induction is generalizing c with
  | nil => rfl
  | cons i is ih =>
    have h := K.addToIndex c btr apk nrow (inds i)
    rcases h1 : E.addToIndex c btr apk nrow (inds i) with ⟨c1, _ | _⟩
    · rw [h1] at h
      simp only [addToIndexes, h1]
      exact h
    · rw [h1] at h
      simp only [addToIndexes, h1]
      rw [ih c1]
      exact h

/-- The loop over `delFromIndex` adds no reply `uint_pkbig` when `delFromIndex`
adds none. -/
theorem pkbigCount_delFromIndexes {BT IX NBT Row : Type} (E : Ext BT IX NBT Row)
    (K : KeepsPkbig E) (btr : Nat) (apk : aobj) (rrow : Row) (inds : Nat → Int)
    (is : List Nat) (c : State BT IX) :
    pkbigCount (delFromIndexes E btr apk rrow inds is c) = pkbigCount c := by
  induction is generalizing c with
  | nil => rfl
  | cons i is ih =>
    simp only [delFromIndexes]
    rw [ih, K.delFromIndex]

/-- The loop of `assignMisses` adds no reply `uint_pkbig` when `parseExpr` adds
none. -/
theorem pkbigCount_assignMissesLoop {BT IX NBT Row : Type} (E : Ext BT IX NBT Row)
    (K : KeepsPkbig E) (tmatch : Nat) (qcols : Int) (cmatchs : Nat → Int)
    (mvals : Nat → List Nat) (mvlens : Nat → Nat) (rt : r_tbl_t) (cols : List Nat)
    (c : State BT IX) (A : MissArrays) :
    pkbigCount (assignMissesLoop E tmatch qcols cmatchs mvals mvlens rt cols c A).1
      = pkbigCount c := by
  induction cols generalizing c A with
  | nil => rfl
  | cons i cols ih =>
    simp only [assignMissesLoop]
    split
    · exact ih _ _
    · split
      · split
        · rename_i h
          have h2 := congrArg (fun p => pkbigCount p.1) h
          simp only [K.parseExpr] at h2
          exact h2.symm
        · rename_i h
          have h2 := congrArg (fun p => pkbigCount p.1) h
          simp only [K.parseExpr] at h2
          rw [ih]
          exact h2.symm
      · exact ih _ _


/-- The statements of `updateAction` before the test of `w.wtype`, entered
with a SET list, add no reply `uint_pkbig` when the collaborators add none. -/
theorem pkbigCount_updateFront {BT IX NBT Row : Type} (E : Ext BT IX NBT Row)
    (K : KeepsPkbig E) (c : State BT IX) (v : List Nat) (u_apk : aobj) (u_tmatch : Int) :
    pkbigCount (updateFront E c (some v) u_apk u_tmatch).1 = pkbigCount c := by
  have h2 := K.parseUpdateColListReply c u_tmatch.toNat v
  rcases hp : E.parseUpdateColListReply c u_tmatch.toNat v with ⟨c2, uc⟩
  rw [hp] at h2
  simp only at h2
  by_cases hq : uc.qcols = 0
  · simp only [updateFront, hp, hq, if_true]
    exact h2
  · by_cases hl : initLRUCS (c2.Tbl u_tmatch.toNat) uc.cmatchs uc.qcols = true
    · simp only [updateFront, hp, hq, hl, if_true, if_false]
      rw [pkbigCount_addReply c2 _ (by decide)]
      exact h2
    · have h3 := pkbigCount_assignMissesLoop E K u_tmatch.toNat uc.qcols uc.cmatchs uc.mvals
        uc.mvlens (c2.Tbl u_tmatch.toNat) (List.range (c2.Tbl u_tmatch.toNat).col_count) c2
        noArrays
      rcases ha : assignMisses E c2 u_tmatch.toNat (c2.Tbl u_tmatch.toNat).col_count
          uc.qcols uc.cmatchs noArrays uc.mvals uc.mvlens with ⟨c3, _ | A⟩
      · simp only [updateFront, hp, hq, hl, ha, if_false, Bool.false_eq_true]
        rw [assignMisses] at ha
        rw [ha] at h3
        exact h3.trans h2
      · simp only [updateFront, hp, hq, hl, ha, if_false, Bool.false_eq_true]
        rw [assignMisses] at ha
        rw [ha] at h3
        exact h3.trans h2

/-- The range path and the single-row path of `updateAction` add no reply
`uint_pkbig` when the collaborators add none. -/
theorem pkbigCount_updateExec {BT IX NBT Row : Type} (E : Ext BT IX NBT Row)
    (K : KeepsPkbig E) (c : State BT IX) (u_vallist : Option (List Nat)) (f : UpdateFront) :
    pkbigCount (updateExec E c u_vallist f).1 = pkbigCount c := by
  by_cases hw : f.w.wtype = WType.SQL_SINGLE_LKP
  · have hov : ∀ b, (if f.pkupc ≠ -1 then
          ovwrPKUp E c f.pkupc f.uc.mvals f.uc.mvlens (f.rt.col_type 0) f.w.wf.tmatch.toNat
        else (c, false)) = b → pkbigCount b.1 = pkbigCount c := by
      intro b hb
      subst hb
      simp only [ovwrPKUp]
      repeat' split
      all_goals first | rfl | exact pkbigCount_addReply c _ (by decide)
    rcases ho : (if f.pkupc ≠ -1 then
          ovwrPKUp E c f.pkupc f.uc.mvals f.uc.mvlens (f.rt.col_type 0) f.w.wf.tmatch.toNat
        else (c, false)) with ⟨c1, _ | _⟩
    · have h1 := hov _ ho
      simp only at h1
      rcases hf : E.btFind (c1.btr f.w.wf.tmatch.toNat) f.w.wf.akey with _ | row
      · simp only [updateExec, hw, ne_eq, not_true_eq_false, if_false, ho, hf]
        rw [pkbigCount_addReply c1 _ (by decide)]
        exact h1
      · have h2 := K.updateRow c1 f.w.wf.tmatch.toNat f.w.wf.akey row f.w.wf.tmatch f.ncols
          f.nmatches f.inds f.A
        rcases hu : E.updateRow c1 f.w.wf.tmatch.toNat f.w.wf.akey row f.w.wf.tmatch f.ncols
          f.nmatches f.inds f.A with ⟨c2, nsize⟩
        rw [hu] at h2
        simp only at h2
        simp only [updateExec, hw, ne_eq, not_true_eq_false, if_false, ho, hf, hu]
        split
        · exact h2.trans h1
        · dsimp only
          have h3 : pkbigCount (if u_vallist.isNone then addReply c2 Reply.cone else c2)
              = pkbigCount c2 := by
            split
            · exact pkbigCount_addReply c2 _ (by decide)
            · rfl
          split
          · rw [K.incrOffsetVar, h3]
            exact h2.trans h1
          · rw [h3]
            exact h2.trans h1
    · have h1 := hov _ ho
      simp only at h1
      simp only [updateExec, hw, ne_eq, not_true_eq_false, if_false, ho]
      exact h1
  · simp only [updateExec, hw, ne_eq, not_false_eq_true, if_true]
    repeat' split
    all_goals first
      | exact pkbigCount_addReply c _ (by decide)
      | exact K.iupdateAction c _ _ _ _ _ _

/-- The function `updateAction`, entered with a SET list, adds no reply
`uint_pkbig` when the collaborators add none. -/
theorem pkbigCount_updateAction {BT IX NBT Row : Type} (E : Ext BT IX NBT Row)
    (K : KeepsPkbig E) (c : State BT IX) (v : List Nat) (u_apk : aobj) (u_tmatch : Int) :
    pkbigCount (updateAction E c (some v) u_apk u_tmatch).1 = pkbigCount c := by
  have h1 := pkbigCount_updateFront E K c v u_apk u_tmatch
  rw [updateAction_stages]
  rcases hf : updateFront E c (some v) u_apk u_tmatch with ⟨c1, _ | f⟩
  · rw [hf] at h1
    exact h1
  · rw [hf] at h1
    exact (pkbigCount_updateExec E K c1 (some v) f).trans h1


/-- The statements `if (tsize) *tsize = *tsize + len; server.dirty++;` add no
reply. -/
theorem pkbigCount_insertCommitted {BT IX : Type} (c : State BT IX) (tsize : Option Nat)
    (len : Int) (ret : Nat) : pkbigCount (insertCommitted c tsize len ret).1 = pkbigCount c :=
  rfl

/-- The last branch of `insertCommit` adds no reply `uint_pkbig` when the
collaborators add none. -/
theorem pkbigCount_insertCommitRow {BT IX NBT Row : Type} (E : Ext BT IX NBT Row)
    (K : KeepsPkbig E) (c : State BT IX) (ncols tmatch nmatches : Nat)
    (inds : Nat → Int) (repl : Bool) (tsize : Option Nat) (pr : RowVals) (rrow : Option Row) :
    pkbigCount (insertCommitRow E c ncols tmatch nmatches inds repl tsize pr rrow).1
      = pkbigCount c := by
  have h3 := pkbigCount_check_constraints E c tmatch tmatch
    (if (c.Tbl tmatch).lrud ≠ 0 then (ncols : Int) - 1 else (ncols : Int)) pr.mvals pr.cofsts
    (assignApk E ((c.Tbl tmatch).col_type 0) pr)
  rcases hc : check_constraints E c tmatch tmatch
    (if (c.Tbl tmatch).lrud ≠ 0 then (ncols : Int) - 1 else (ncols : Int)) pr.mvals pr.cofsts
    (assignApk E ((c.Tbl tmatch).col_type 0) pr) with ⟨c1, _ | _⟩
  · rw [hc] at h3
    simp only at h3
    have h4 := K.createRow c1 tmatch tmatch
      (if (c.Tbl tmatch).lrud ≠ 0 then (ncols : Int) - 1 else (ncols : Int)) pr.mvals pr.cofsts
    rcases hr : E.createRow c1 tmatch tmatch
      (if (c.Tbl tmatch).lrud ≠ 0 then (ncols : Int) - 1 else (ncols : Int)) pr.mvals
      pr.cofsts with ⟨c2, _ | nrow⟩
    · rw [hr] at h4
      simp only [insertCommitRow, hc, hr]
      exact h4.trans h3
    · rw [hr] at h4
      simp only at h4
      have h5 := pkbigCount_addToIndexes E K tmatch
        (assignApk E ((c.Tbl tmatch).col_type 0) pr) nrow inds (List.range nmatches) c2
      by_cases hm : nmatches = 0
      · simp only [insertCommitRow, hc, hr, hm, ne_eq, not_true_eq_false, if_false]
        rw [pkbigCount_insertCommitted, K.UPDATE_AUTO_INC]
        exact h4.trans h3
      · rcases ha : addToIndexes E tmatch (assignApk E ((c.Tbl tmatch).col_type 0) pr) nrow
          inds (List.range nmatches) c2 with ⟨c3, _ | _⟩
        · rw [ha] at h5
          simp only [insertCommitRow, hc, hr, hm, ha, ne_eq, not_false_eq_true, if_true]
          exact h5.trans (h4.trans h3)
        · rw [ha] at h5
          simp only at h5
          cases rrow with
          | none =>
            simp only [insertCommitRow, hc, hr, hm, ha, ne_eq, not_false_eq_true, if_true]
            rw [pkbigCount_insertCommitted, K.UPDATE_AUTO_INC]
            exact h5.trans (h4.trans h3)
          | some old =>
            cases repl
            · simp only [insertCommitRow, hc, hr, hm, ha, ne_eq, not_false_eq_true, if_true,
                Bool.false_eq_true, if_false]
              rw [pkbigCount_insertCommitted, K.UPDATE_AUTO_INC]
              exact h5.trans (h4.trans h3)
            · simp only [insertCommitRow, hc, hr, hm, ha, ne_eq, not_false_eq_true, if_true]
              rw [pkbigCount_insertCommitted, K.UPDATE_AUTO_INC]
              exact (pkbigCount_delFromIndexes E K _ _ _ _ _ _).trans (h5.trans (h4.trans h3))
  · rw [hc] at h3
    simp only [insertCommitRow, hc]
    exact h3

/-- The part of `insertCommit` after the test of the primary key against
`TWO_POW_32` adds no reply `uint_pkbig` when the collaborators add none. -/
theorem pkbigCount_insertCommitBody {BT IX NBT Row : Type} (E : Ext BT IX NBT Row)
    (K : KeepsPkbig E) (c : State BT IX) (argv : Nat → List Nat) (ncols tmatch nmatches : Nat)
    (inds : Nat → Int) (repl : Bool) (upd : Nat) (tsize : Option Nat) (pr : RowVals) :
    pkbigCount (insertCommitBody E c argv ncols tmatch nmatches inds repl upd tsize pr).1
      = pkbigCount c := by
  unfold insertCommitBody
  dsimp only
  split
  · exact pkbigCount_addReply c _ (by decide)
  · split
    · have h3 := pkbigCount_updateAction E K c (argv upd)
        (assignApk E ((c.Tbl tmatch).col_type 0) pr) tmatch
      split
      · exact h3
      · exact h3
    · exact pkbigCount_insertCommitRow E K c ncols tmatch nmatches inds repl tsize pr _


/-- Claim C19: for a table whose primary key is of type INT and a tuple that
`parseRowVals` splits (not in parse mode): when `atol(pk) >= TWO_POW_32`,
`insertCommit` replies `uint_pkbig`, returns `INS_ERR` and leaves `tsize`, the
B-trees and `server.dirty` as they were; when `atol(pk) < TWO_POW_32`,
`insertCommit` is `insertCommitBody`, the statements after the test, which do
not add `uint_pkbig`; so, when the collaborators add no `uint_pkbig`, one more
`uint_pkbig` is in the reply list exactly when `atol(pk) >= TWO_POW_32`. -/
theorem C19_uint_pkbig {BT IX NBT Row : Type} (E : Ext BT IX NBT Row)
    (c : State BT IX) (argv : Nat → List Nat) (vals : List Nat) (ncols tmatch nmatches : Nat)
    (inds : Nat → Int) (pcols : Nat) (cmatchs : Nat → Int) (repl : Bool) (upd : Nat)
    (tsize : Option Nat) (pr : RowVals)
    (hint : C_IS_I ((c.Tbl tmatch).col_type 0) = true)
    (hvals : E.parseRowVals vals
      (if (c.Tbl tmatch).lrud ≠ 0 then (ncols : Int) - 1 else (ncols : Int))
      tmatch pcols cmatchs = some pr) :
    (E.atol pr.pk ≥ (TWO_POW_32 : Int) →
      insertCommit E c argv vals ncols tmatch nmatches inds pcols cmatchs repl upd tsize false
        = (addReply c Reply.uint_pkbig, ⟨INS_ERR, tsize, none⟩) ∧
      (insertCommit E c argv vals ncols tmatch nmatches inds pcols cmatchs repl upd tsize
        false).1.btr = c.btr ∧
      (insertCommit E c argv vals ncols tmatch nmatches inds pcols cmatchs repl upd tsize
        false).1.ibtr = c.ibtr ∧
      (insertCommit E c argv vals ncols tmatch nmatches inds pcols cmatchs repl upd tsize
        false).1.dirty = c.dirty) ∧
    (E.atol pr.pk < (TWO_POW_32 : Int) →
      insertCommit E c argv vals ncols tmatch nmatches inds pcols cmatchs repl upd tsize false
        = insertCommitBody E c argv ncols tmatch nmatches inds repl upd tsize pr) ∧
    (KeepsPkbig E →
      (pkbigCount (insertCommit E c argv vals ncols tmatch nmatches inds pcols cmatchs repl upd
          tsize false).1 = pkbigCount c + 1 ↔ E.atol pr.pk ≥ (TWO_POW_32 : Int)) ∧
      (pkbigCount (insertCommit E c argv vals ncols tmatch nmatches inds pcols cmatchs repl upd
          tsize false).1 = pkbigCount c ↔ E.atol pr.pk < (TWO_POW_32 : Int))) := by
  have hbig : E.atol pr.pk ≥ (TWO_POW_32 : Int) →
      insertCommit E c argv vals ncols tmatch nmatches inds pcols cmatchs repl upd tsize false
        = (addReply c Reply.uint_pkbig, ⟨INS_ERR, tsize, none⟩) := by
    intro h
    unfold insertCommit
    simp only [hvals, hint, h, and_self, if_true, if_false, Bool.false_eq_true]
  have hsmall : E.atol pr.pk < (TWO_POW_32 : Int) →
      insertCommit E c argv vals ncols tmatch nmatches inds pcols cmatchs repl upd tsize false
        = insertCommitBody E c argv ncols tmatch nmatches inds repl upd tsize pr := by
    intro h
    exact insertCommit_body E c argv vals ncols tmatch nmatches inds pcols cmatchs repl upd tsize
      pr hvals (fun hh => absurd hh.2 (not_le.mpr h))
  have hcnt : pkbigCount (addReply c Reply.uint_pkbig) = pkbigCount c + 1 := by
    simp [pkbigCount, addReply, List.count_append]
  refine ⟨fun h => ?_, hsmall, fun K => ⟨⟨fun h => ?_, fun h => ?_⟩, ⟨fun h => ?_, fun h => ?_⟩⟩⟩
  · have h0 := hbig h
    refine ⟨h0, ?_, ?_, ?_⟩
    · rw [h0]; rfl
    · rw [h0]; rfl
    · rw [h0]; rfl
  · by_contra hlt
    rw [hsmall (not_le.mp hlt), pkbigCount_insertCommitBody E K] at h
    omega
  · rw [hbig h]
    exact hcnt
  · by_contra hge
    rw [hbig (not_lt.mp hge), hcnt] at h
    omega
  · rw [hsmall h]
    exact pkbigCount_insertCommitBody E K _ _ _ _ _ _ _ _ _ _

/-- The tuple `(4294967296,5)` for the table `t` with the row `(1,10)`: the
reply is `uint_pkbig`, the B-tree is unchanged, and the collaborators of the
instance add no `uint_pkbig`. -/
theorem C19_uint_pkbig_witness :
    toyExt.atol [52, 50, 57, 52, 57, 54, 55, 50, 57, 54] = 4294967296 ∧
    insertCommit toyExt toyState (fun _ => []) [52, 50, 57, 52, 57, 54, 55, 50, 57, 54, 44, 53]
        2 0 0 (fun _ => -1) 0 (fun _ => 0) false 0 none false
      = (addReply toyState Reply.uint_pkbig, ⟨INS_ERR, none, none⟩) ∧
    (insertCommit toyExt toyState (fun _ => []) [52, 50, 57, 52, 57, 54, 55, 50, 57, 54, 44, 53]
        2 0 0 (fun _ => -1) 0 (fun _ => 0) false 0 none false).1.btr 0 = [(1, 10)] ∧
    KeepsPkbig toyExt ∧
    pkbigCount (insertCommit toyExt toyState (fun _ => [])
        [52, 50, 57, 52, 57, 54, 55, 50, 57, 54, 44, 53]
        2 0 0 (fun _ => -1) 0 (fun _ => 0) false 0 none false).1 = pkbigCount toyState + 1 := by
  have hk : KeepsPkbig toyExt :=
    ⟨fun _ _ _ _ _ _ => rfl, fun _ _ _ _ _ => rfl, fun _ _ _ _ _ => rfl, fun _ _ _ _ => rfl,
      fun _ _ _ => rfl, fun _ _ _ _ _ _ _ => rfl, fun _ _ _ _ _ _ _ => rfl,
      fun _ _ _ _ _ _ _ _ _ => rfl, fun _ _ _ => rfl⟩
  have h := C19_uint_pkbig toyExt toyState (fun _ => [])
    [52, 50, 57, 52, 57, 54, 55, 50, 57, 54, 44, 53] 2 0 0 (fun _ => -1) 0 (fun _ => 0) false 0
    none ⟨[52, 50, 57, 52, 57, 54, 55, 50, 57, 54, 44, 53],
      [52, 50, 57, 52, 57, 54, 55, 50, 57, 54], 10,
      fun n => if n = 0 then ⟨0, 10⟩ else ⟨11, 12⟩⟩ (by rfl) (by rfl)
  have h1 := h.1 (by decide)
  exact ⟨by decide, h1.1, by rw [h1.2.1]; rfl, hk, (h.2.2 hk).1.2 (by decide)⟩


/-! ## The B-tree API: `btAdd`, `btFindVal`, `btDelete` -/

/-- The loop `bt_insert(nbtr, be)` over the keys of a node: the keys are put
before the entries of `nbtr`, the last one first, and counted. -/
theorem foldl_bt_insert {N : Type} (l : List (Entry N)) (nb : bt N) :
    l.foldl bt_insert nb
      = { nb with root := l.reverse ++ nb.root, numkeys := nb.numkeys + l.length } := by
  induction l generalizing nb with
  | nil => rfl
  | cons a l ih =>
    rw [List.foldl_cons, ih]
    simp only [bt_insert, List.reverse_cons, List.append_assoc, List.singleton_append,
      List.length_cons]
    congr 1
    omega

mutual
/-- The function `bt_to_bt_insert` inserts every entry below the node, and
changes nothing else of the header of `nbtr`. -/
theorem bt_to_bt_insert_eq {N : Type} (nb : bt N) (n : bt_n N) :
    bt_to_bt_insert nb n
      = { nb with root := (nodeEntries n).reverse ++ nb.root,
                  numkeys := nb.numkeys + (nodeEntries n).length } := by
  cases n with
  | mk leaf keys nodes =>
    cases leaf with
    | true =>
      simp only [bt_to_bt_insert, nodeEntries, Bool.not_true, Bool.false_eq_true, if_false]
      exact foldl_bt_insert keys nb
    | false =>
      simp only [bt_to_bt_insert, nodeEntries, Bool.not_false, if_true]
      rw [bt_to_bt_insert_nodes_eq, foldl_bt_insert]
      simp only [List.reverse_append, List.append_assoc, List.length_append]
      congr 1
      omega
/-- The loop of `bt_to_bt_insert` over the children of a node. -/
theorem bt_to_bt_insert_nodes_eq {N : Type} (nb : bt N) (ns : List (bt_n N)) :
    bt_to_bt_insert_nodes nb ns
      = { nb with root := (nodesEntries ns).reverse ++ nb.root,
                  numkeys := nb.numkeys + (nodesEntries ns).length } := by
  cases ns with
  | nil =>
    simp only [bt_to_bt_insert_nodes, nodesEntries, List.reverse_nil, List.nil_append,
      List.length_nil, Nat.add_zero]
  | cons n ns =>
    simp only [bt_to_bt_insert_nodes, nodesEntries]
    rw [bt_to_bt_insert_nodes_eq, bt_to_bt_insert_eq]
    simp only [List.reverse_append, List.append_assoc, List.length_append]
    congr 1
    omega
end

/-- Claim C11, failing input: the table `u(pk, x)` with a secondary index on
`x` holds the row `(1,100)`, and the index holds the primary key 1 under 100.
`REPLACE INTO u VALUES (1,100)` succeeds (`INS_INS`) and the data B-tree holds
`(1,100)`, but the index no longer holds 1 under 100 (it is empty): the
`btIndNodeAdd` made by `addToIndex` was refused as a duplicate, and
`delFromIndex` then removed the key.  With a new value, `REPLACE INTO u VALUES
(1,200)`, the index holds 1 under 200 and no longer under 100. -/
theorem C11_replace_same_value_unindexed :
    ixOne.btr 0 = [(1, 100)] ∧ ixHolds ixOne 100 = [1] ∧
    (ixInsert true [49, 44, 49, 48, 48] ixOne).2.ret = INS_INS ∧
    (ixInsert true [49, 44, 49, 48, 48] ixOne).1.btr 0 = [(1, 100)] ∧
    ixHolds (ixInsert true [49, 44, 49, 48, 48] ixOne).1 100 = [] ∧
    ((ixInsert true [49, 44, 49, 48, 48] ixOne).1.ibtr 0).numkeys = 0 ∧
    (ixInsert true [49, 44, 50, 48, 48] ixOne).2.ret = INS_INS ∧
    ixHolds (ixInsert true [49, 44, 50, 48, 48] ixOne).1 200 = [1] ∧
    ixHolds (ixInsert true [49, 44, 50, 48, 48] ixOne).1 100 = [] := by
  refine ⟨by rfl, by rfl, by rfl, by rfl, by rfl, by rfl, by rfl, by rfl, by rfl⟩


/-! ## `getPkUpdateCol`, `assignMisses`, `initLRUCS` -/

/-- The first index of a list of consecutive numbers that satisfies a
predicate: it satisfies it, and no smaller index of the list does. -/
theorem find_range_first (p : Nat → Bool) (n i : Nat)
    (h : (List.range n).find? p = some i) :
    i < n ∧ p i = true ∧ ∀ j, j < i → p j = false := by
  induction n with
  | zero => simp at h
  | succ n ih =>
    rw [List.range_succ, List.find?_append] at h
    cases hf : (List.range n).find? p with
    | some k =>
      rw [hf] at h
      simp at h
      subst h
      obtain ⟨h1, h2, h3⟩ := ih hf
      exact ⟨by omega, h2, h3⟩
    | none =>
      rw [hf] at h
      simp at h
      obtain ⟨hp, rfl⟩ := h
      refine ⟨by omega, hp, ?_⟩
      intro j hj
      have := List.find?_eq_none.mp hf j (List.mem_range.mpr hj)
      simpa using this

/-- Claim C26: `getPkUpdateCol(qcols, cmatchs)` returns `-1` exactly when no
entry of `cmatchs[0..qcols)` is `0`; otherwise it returns an index `i` with
`0 <= i < qcols`, `cmatchs[i] = 0`, and `cmatchs[j] != 0` for every `j < i`:
the smallest index of the primary-key column in the SET list. -/
theorem C26_getPkUpdateCol (qcols : Int) (cmatchs : Nat → Int) :
    (getPkUpdateCol qcols cmatchs = -1 ↔ ∀ i : Nat, (i : Int) < qcols → cmatchs i ≠ 0) ∧
    (getPkUpdateCol qcols cmatchs ≠ -1 →
      ∃ i : Nat, getPkUpdateCol qcols cmatchs = (i : Int) ∧ (i : Int) < qcols ∧
        cmatchs i = 0 ∧ ∀ j : Nat, j < i → cmatchs j ≠ 0) := by
  unfold getPkUpdateCol
  cases hf : (List.range qcols.toNat).find? (fun i => cmatchs i == 0) with
  | none =>
    refine ⟨⟨fun _ i hi => ?_, fun _ => rfl⟩, fun h => absurd rfl h⟩
    have := List.find?_eq_none.mp hf i (List.mem_range.mpr (by omega))
    simpa using this
  | some i =>
    obtain ⟨h1, h2, h3⟩ := find_range_first _ _ _ hf
    have hi : (i : Int) < qcols := by omega
    have h0 : cmatchs i = 0 := by simpa using h2
    refine ⟨⟨fun h => ?_, fun h => absurd h0 (h i hi)⟩, fun _ => ⟨i, rfl, hi, h0, fun j hj => ?_⟩⟩
    · simp only at h
      omega
    · have := h3 j hj
      simpa using this


/-- The loop of `assignMisses` over distinct columns when no SET value is an
expression: it runs to its end with the client unchanged; a column that is
not visited keeps its four array elements; a visited column `i` gets `ue[i].yes
= 0` and, for the first SET entry `j` with `cmatchs[j] = i`, `cmiss[i] = 0`
with the value and length of that entry, or, without such an entry, `cmiss[i]
= 1` with `vals[i]` and `vlens[i]` as they were. -/
theorem assignMissesLoop_plain {BT IX NBT Row : Type} (E : Ext BT IX NBT Row)
    (tmatch : Nat) (qcols : Int) (cmatchs : Nat → Int) (mvals : Nat → List Nat)
    (mvlens : Nat → Nat) (rt : r_tbl_t)
    (hexpr : ∀ j : Nat, (j : Int) < qcols → E.isExpression (mvals j) (mvlens j) = 0)
    (cols : List Nat) (hnd : cols.Nodup) (c : State BT IX) (A : MissArrays) :
    ∃ A2, assignMissesLoop E tmatch qcols cmatchs mvals mvlens rt cols c A = (c, some A2) ∧
      (∀ i, i ∉ cols → A2.cmiss i = A.cmiss i ∧ A2.vals i = A.vals i ∧
        A2.vlens i = A.vlens i ∧ A2.ue i = A.ue i) ∧
      (∀ i, i ∈ cols → (A2.ue i).yes = 0 ∧
        (∀ j, (List.range qcols.toNat).find? (fun j => (i : Int) == cmatchs j) = some j →
          A2.cmiss i = 0 ∧ A2.vals i = mvals j ∧ A2.vlens i = mvlens j) ∧
        ((List.range qcols.toNat).find? (fun j => (i : Int) == cmatchs j) = none →
          A2.cmiss i = 1 ∧ A2.vals i = A.vals i ∧ A2.vlens i = A.vlens i)) := by
  induction cols generalizing A with
  | nil => exact ⟨A, rfl, fun _ _ => ⟨rfl, rfl, rfl, rfl⟩, fun i hi => by cases hi⟩
  | cons i0 cols ih =>
    obtain ⟨hi0, hnd2⟩ := List.nodup_cons.mp hnd
    cases hf : (List.range qcols.toNat).find? (fun j => (i0 : Int) == cmatchs j) with
    | none =>
      obtain ⟨A2, h1, h2, h3⟩ := ih hnd2
        { cmiss := setAt A.cmiss i0 1, vals := A.vals, vlens := A.vlens,
          ue := setAt A.ue i0 { A.ue i0 with yes := 0 } }
      refine ⟨A2, ?_, ?_, ?_⟩
      · simp only [assignMissesLoop, hf]
        exact h1
      · intro i hi
        have hne : i ≠ i0 := fun h => hi (h ▸ List.mem_cons_self _ _)
        obtain ⟨a, b, d, e⟩ := h2 i (fun h => hi (List.mem_cons_of_mem _ h))
        simp only [setAt, hne, if_false] at a e
        exact ⟨a, b, d, e⟩
      · intro i hi
        rcases List.mem_cons.mp hi with rfl | hi
        · obtain ⟨a, b, d, e⟩ := h2 i hi0
          simp only [setAt, if_true] at a e
          refine ⟨by rw [e], fun j hj => ?_, fun _ => ⟨a, b, d⟩⟩
          rw [hf] at hj
          cases hj
        · have hne : i ≠ i0 := fun h => hi0 (h ▸ hi)
          obtain ⟨a, b, d⟩ := h3 i hi
          exact ⟨a, b, d⟩
    | some j0 =>
      obtain ⟨hj1, _, _⟩ := find_range_first _ _ _ hf
      have he : E.isExpression (mvals j0) (mvlens j0) = 0 := hexpr j0 (by omega)
      obtain ⟨A2, h1, h2, h3⟩ := ih hnd2
        { cmiss := setAt A.cmiss i0 0, vals := setAt A.vals i0 (mvals j0),
          vlens := setAt A.vlens i0 (mvlens j0),
          ue := setAt A.ue i0 { A.ue i0 with yes := 0 } }
      refine ⟨A2, ?_, ?_, ?_⟩
      · simp only [assignMissesLoop, hf, setAt, if_true, he, ne_eq, not_true_eq_false, if_false]
        exact h1
      · intro i hi
        have hne : i ≠ i0 := fun h => hi (h ▸ List.mem_cons_self _ _)
        obtain ⟨a, b, d, e⟩ := h2 i (fun h => hi (List.mem_cons_of_mem _ h))
        simp only [setAt, hne, if_false] at a b d e
        exact ⟨a, b, d, e⟩
      · intro i hi
        rcases List.mem_cons.mp hi with rfl | hi
        · obtain ⟨a, b, d, e⟩ := h2 i hi0
          simp only [setAt, if_true] at a b d e
          refine ⟨by rw [e], fun j hj => ?_, fun hn => ?_⟩
          · rw [hf] at hj
            cases hj
            exact ⟨a, b, d⟩
          · rw [hf] at hn
            cases hn
        · have hne : i ≠ i0 := fun h => hi0 (h ▸ hi)
          obtain ⟨a, b, d⟩ := h3 i hi
          simp only [setAt, hne, if_false] at d
          exact ⟨a, b, d⟩


/-- Claim C27: when no SET value is an expression (`isExpression` returns `0`
for each of the `qcols` entries), `assignMisses` returns 1 with the client
unchanged, and for every column `i < ncols`: `cmiss[i]` is `0` when `i` occurs
in `cmatchs[0..qcols)` and `1` when it does not; for the first SET entry `j`
with `cmatchs[j] = i`, `vals[i]` and `vlens[i]` are `mvals[j]` and
`mvlens[j]`; without such an entry `vals[i]` and `vlens[i]` are as they were;
and `ue[i].yes` is `0`.  The array elements from `ncols` on are not
written. -/
theorem C27_assignMisses {BT IX NBT Row : Type} (E : Ext BT IX NBT Row) (c : State BT IX)
    (tmatch ncols : Nat) (qcols : Int) (cmatchs : Nat → Int) (A : MissArrays)
    (mvals : Nat → List Nat) (mvlens : Nat → Nat)
    (hexpr : ∀ j : Nat, (j : Int) < qcols → E.isExpression (mvals j) (mvlens j) = 0) :
    ∃ A2, assignMisses E c tmatch ncols qcols cmatchs A mvals mvlens = (c, some A2) ∧
      (∀ i, i < ncols →
        (A2.cmiss i = 0 ↔ ∃ j : Nat, (j : Int) < qcols ∧ cmatchs j = (i : Int)) ∧
        (A2.cmiss i = 0 ∨ A2.cmiss i = 1) ∧
        (∀ j : Nat, (j : Int) < qcols → cmatchs j = (i : Int) →
          (∀ k : Nat, k < j → cmatchs k ≠ (i : Int)) →
          A2.vals i = mvals j ∧ A2.vlens i = mvlens j) ∧
        ((∀ j : Nat, (j : Int) < qcols → cmatchs j ≠ (i : Int)) →
          A2.vals i = A.vals i ∧ A2.vlens i = A.vlens i) ∧
        (A2.ue i).yes = 0) ∧
      (∀ i, ncols ≤ i → A2.cmiss i = A.cmiss i ∧ A2.vals i = A.vals i ∧
        A2.vlens i = A.vlens i ∧ A2.ue i = A.ue i) := by
  obtain ⟨A2, h1, h2, h3⟩ := assignMissesLoop_plain E tmatch qcols cmatchs mvals mvlens
    (c.Tbl tmatch) hexpr (List.range ncols) (List.nodup_range ncols) c A
  refine ⟨A2, h1, fun i hi => ?_, fun i hi => h2 i (by simp; omega)⟩
  obtain ⟨hu, hs, hn⟩ := h3 i (List.mem_range.mpr hi)
  cases hf : (List.range qcols.toNat).find? (fun j => (i : Int) == cmatchs j) with
  | none =>
    obtain ⟨a, b, d⟩ := hn hf
    have hno : ∀ j : Nat, (j : Int) < qcols → cmatchs j ≠ (i : Int) := by
      intro j hj he
      have := List.find?_eq_none.mp hf j (List.mem_range.mpr (by omega))
      simp [he] at this
    refine ⟨⟨fun h => by omega, fun ⟨j, hj, he⟩ => absurd he (hno j hj)⟩, Or.inr a,
      fun j hj he _ => absurd he (hno j hj), fun _ => ⟨b, d⟩, hu⟩
  | some j0 =>
    obtain ⟨a, b, d⟩ := hs j0 hf
    obtain ⟨g1, g2, g3⟩ := find_range_first _ _ _ hf
    have g2 : cmatchs j0 = (i : Int) := by
      have := g2
      simp only [beq_iff_eq] at this
      exact this.symm
    have hj0 : (j0 : Int) < qcols := by omega
    refine ⟨⟨fun _ => ⟨j0, hj0, g2⟩, fun _ => a⟩, Or.inl a, fun j hj he hfirst => ?_,
      fun hno => absurd g2 (hno j0 hj0), hu⟩
    have hjj : j = j0 := by
      rcases Nat.lt_trichotomy j j0 with hlt | heq | hgt
      · have := g3 j hlt
        simp [he] at this
      · exact heq
      · exact absurd g2 (hfirst j0 hgt)
    rw [hjj]
    exact ⟨b, d⟩

/-- The SET list `v=7` (one entry, for column 1) on the two-column table `t`:
column 0 is a miss and column 1 a hit with the value `7`. -/
theorem C27_assignMisses_witness :
    toyUpd.isExpression [55] 1 = 0 ∧
    (assignMisses toyUpd toyUpdState 0 2 1 (fun _ => 1) noArrays (fun _ => [55])
      (fun _ => 1)).2.isSome = true ∧
    (assignMisses toyUpd toyUpdState 0 2 1 (fun _ => 1) noArrays (fun _ => [55])
      (fun _ => 1)).2.map (fun A => (A.cmiss 0, A.cmiss 1, A.vals 0, A.vals 1, A.vlens 1))
      = some (1, 0, [], [55], 1) := by
  obtain ⟨A2, h1, _, _⟩ := C27_assignMisses toyUpd toyUpdState 0 2 1 (fun _ => 1) noArrays
    (fun _ => [55]) (fun _ => 1) (fun _ _ => rfl)
  refine ⟨rfl, ?_, by rfl⟩
  rw [h1]
  rfl


/-- The function `initLRUCS` is true exactly when the table has an LRU column
and the index of that column occurs in `cmatchs[0..qcols)`. -/
theorem initLRUCS_iff (rt : r_tbl_t) (cmatchs : Nat → Int) (qcols : Int) :
    initLRUCS rt cmatchs qcols = true ↔
      rt.lrud ≠ 0 ∧ ∃ i : Nat, (i : Int) < qcols ∧ cmatchs i = rt.lruc := by
  unfold initLRUCS
  by_cases hl : rt.lrud ≠ 0
  · simp only [hl, if_true, List.any_eq_true, List.mem_range, beq_iff_eq, ne_eq,
      not_false_eq_true, true_and]
    constructor
    · rintro ⟨i, hi, he⟩
      exact ⟨i, by omega, he⟩
    · rintro ⟨i, hi, he⟩
      exact ⟨i, by omega, he⟩
  · simp [hl]

/-- The function `insertParse` on a column list in which `initLRUCS` finds the
LRU column. -/
theorem insertParse_lru {BT IX NBT Row : Type} (E : Ext BT IX NBT Row) (c : State BT IX)
    (argv : Nat → List Nat) (repl : Bool) (tmatch : Nat) (parse : Bool) (c1 : State BT IX)
    (cmatchs : Nat → Int) (pcols : Nat)
    (hcols : strcasecmp (argv 3) [86, 65, 76, 85, 69, 83] = true)
    (hparen : (argv 3).head? = some 40 ∧ (argv 3).getLast? = some 41)
    (hparse : E.parseCommaSpaceList c (((argv 3).drop 1).take ((argv 3).length - 2)) tmatch
      = (c1, cmatchs, pcols))
    (hlru : initLRUCS (c1.Tbl tmatch) cmatchs pcols = true) :
    insertParse E c argv repl tmatch parse = (addReply c1 Reply.insert_lru, none) := by
  have hp : pcols ≠ 0 := by
    obtain ⟨_, i, hi, _⟩ := (initLRUCS_iff _ _ _).mp hlru
    omega
  simp only [insertParse, insertParseCols, hcols, hparen, hparse, hp, hlru, and_self, if_true,
    ne_eq, not_false_eq_true]

/-- The function `updateAction` on a SET list in which `initLRUCS` finds the
LRU column, for the command `UPDATE`. -/
theorem updateAction_lru {BT IX NBT Row : Type} (E : Ext BT IX NBT Row) (c : State BT IX)
    (u_apk : aobj) (u_tmatch : Int) (c1 : State BT IX) (tm : Nat) (c2 : State BT IX)
    (uc : UpdateCols)
    (htbl : E.TABLE_CHECK_OR_REPLY c (c.argv 1) = (c1, some tm))
    (hset : strcasecmp (c1.argv 2) [83, 69, 84] = false)
    (hwhere : strcasecmp (c1.argv 4) [87, 72, 69, 82, 69] = false)
    (hparse : E.parseUpdateColListReply c1 tm (c1.argv 3) = (c2, uc))
    (hlru : initLRUCS (c2.Tbl tm) uc.cmatchs uc.qcols = true) :
    updateAction E c none u_apk u_tmatch = (addReply c2 Reply.update_lru, -1) := by
  have hq : uc.qcols ≠ 0 := by
    obtain ⟨_, i, hi, _⟩ := (initLRUCS_iff _ _ _).mp hlru
    omega
  have hparse2 : E.parseUpdateColListReply c1 (tm : Int).toNat (c1.argv 3) = (c2, uc) := hparse
  have hlru2 : initLRUCS (c2.Tbl (tm : Int).toNat) uc.cmatchs uc.qcols = true := hlru
  simp only [updateAction, htbl, hset, hwhere, hparse2, hq, hlru2, if_true, if_false,
    Bool.false_eq_true]

/-- The function `updateAction` on a SET list in which `initLRUCS` finds the
LRU column, for ON DUPLICATE KEY UPDATE. -/
theorem updateAction_lru_insert {BT IX NBT Row : Type} (E : Ext BT IX NBT Row)
    (c : State BT IX) (v : List Nat) (u_apk : aobj) (u_tmatch : Int) (c2 : State BT IX)
    (uc : UpdateCols)
    (hparse : E.parseUpdateColListReply c u_tmatch.toNat v = (c2, uc))
    (hlru : initLRUCS (c2.Tbl u_tmatch.toNat) uc.cmatchs uc.qcols = true) :
    updateAction E c (some v) u_apk u_tmatch = (addReply c2 Reply.update_lru, -1) := by
  have hq : uc.qcols ≠ 0 := by
    obtain ⟨_, i, hi, _⟩ := (initLRUCS_iff _ _ _).mp hlru
    omega
  simp only [updateAction, hparse, hq, hlru, if_true, if_false]


/-- Claim C28: `initLRUCS(tmatch, cmatchs, n)` is true exactly when the table
has an LRU column (`rt->lrud`) and the index `rt->lruc` of that column occurs
in `cmatchs[0..n)`.  When it is true of the column list of an INSERT,
`insertParse` replies `insert_lru` and returns: the state is the one the
column-list parser left plus that reply, and the result depends on no
collaborator but that parser (no `insertCommit`).  When it is true of the SET
list of an UPDATE, `updateAction` replies `update_lru` and returns `-1`: the
state is the one the SET-list parser left plus that reply, and the result
depends on no collaborator but the table check and that parser (no `btFind`,
no `updateRow`). -/
theorem C28_lru_column_rejected {BT IX NBT Row : Type} (E : Ext BT IX NBT Row) :
    (∀ (rt : r_tbl_t) (cmatchs : Nat → Int) (n : Int),
      initLRUCS rt cmatchs n = true ↔
        rt.lrud ≠ 0 ∧ ∃ i : Nat, (i : Int) < n ∧ cmatchs i = rt.lruc) ∧
    (∀ (c : State BT IX) (argv : Nat → List Nat) (repl : Bool) (tmatch : Nat) (parse : Bool)
        (c1 : State BT IX) (cmatchs : Nat → Int) (pcols : Nat),
      strcasecmp (argv 3) [86, 65, 76, 85, 69, 83] = true →
      (argv 3).head? = some 40 ∧ (argv 3).getLast? = some 41 →
      E.parseCommaSpaceList c (((argv 3).drop 1).take ((argv 3).length - 2)) tmatch
        = (c1, cmatchs, pcols) →
      initLRUCS (c1.Tbl tmatch) cmatchs pcols = true →
      insertParse E c argv repl tmatch parse = (addReply c1 Reply.insert_lru, none) ∧
      ∀ E2 : Ext BT IX NBT Row, E2.parseCommaSpaceList = E.parseCommaSpaceList →
        insertParse E2 c argv repl tmatch parse = insertParse E c argv repl tmatch parse) ∧
    (∀ (c : State BT IX) (u_apk : aobj) (u_tmatch : Int) (c1 : State BT IX) (tm : Nat)
        (c2 : State BT IX) (uc : UpdateCols),
      E.TABLE_CHECK_OR_REPLY c (c.argv 1) = (c1, some tm) →
      strcasecmp (c1.argv 2) [83, 69, 84] = false →
      strcasecmp (c1.argv 4) [87, 72, 69, 82, 69] = false →
      E.parseUpdateColListReply c1 tm (c1.argv 3) = (c2, uc) →
      initLRUCS (c2.Tbl tm) uc.cmatchs uc.qcols = true →
      updateAction E c none u_apk u_tmatch = (addReply c2 Reply.update_lru, -1) ∧
      ∀ E2 : Ext BT IX NBT Row, E2.TABLE_CHECK_OR_REPLY = E.TABLE_CHECK_OR_REPLY →
        E2.parseUpdateColListReply = E.parseUpdateColListReply →
        updateAction E2 c none u_apk u_tmatch = updateAction E c none u_apk u_tmatch) ∧
    (∀ (c : State BT IX) (v : List Nat) (u_apk : aobj) (u_tmatch : Int) (c2 : State BT IX)
        (uc : UpdateCols),
      E.parseUpdateColListReply c u_tmatch.toNat v = (c2, uc) →
      initLRUCS (c2.Tbl u_tmatch.toNat) uc.cmatchs uc.qcols = true →
      updateAction E c (some v) u_apk u_tmatch = (addReply c2 Reply.update_lru, -1)) := by
  refine ⟨initLRUCS_iff, ?_, ?_, ?_⟩
  · intro c argv repl tmatch parse c1 cmatchs pcols h1 h2 h3 h4
    have h0 := insertParse_lru E c argv repl tmatch parse c1 cmatchs pcols h1 h2 h3 h4
    refine ⟨h0, fun E2 he => ?_⟩
    rw [h0]
    exact insertParse_lru E2 c argv repl tmatch parse c1 cmatchs pcols h1 h2 (by rw [he]; exact h3)
      h4
  · intro c u_apk u_tmatch c1 tm c2 uc h1 h2 h3 h4 h5
    have h0 := updateAction_lru E c u_apk u_tmatch c1 tm c2 uc h1 h2 h3 h4 h5
    refine ⟨h0, fun E2 he1 he2 => ?_⟩
    rw [h0]
    exact updateAction_lru E2 c u_apk u_tmatch c1 tm c2 uc (by rw [he1]; exact h1) h2 h3
      (by rw [he2]; exact h4) h5
  · intro c v u_apk u_tmatch c2 uc h1 h2
    exact updateAction_lru_insert E c v u_apk u_tmatch c2 uc h1 h2

/-- The table `t` whose column `v` is the LRU column: `INSERT INTO t (pk,v)
VALUES (2,5)` replies `insert_lru` and `UPDATE t SET v=7 WHERE pk=2` replies
`update_lru`; the rows are as they were. -/
theorem C28_lru_column_rejected_witness :
    initLRUCS ((lruState [40, 112, 107, 44, 118, 41] [50, 44, 53]).Tbl 0)
      (toyParseCols [112, 107, 44, 118]).1 2 = true ∧
    insertParse colsExt (lruState [40, 112, 107, 44, 118, 41] [50, 44, 53])
        (lruState [40, 112, 107, 44, 118, 41] [50, 44, 53]).argv false 0 false
      = (addReply (lruState [40, 112, 107, 44, 118, 41] [50, 44, 53]) Reply.insert_lru, none) ∧
    updateAction toyUpd lruUpdState none toyAobj (-1)
      = (addReply lruUpdState Reply.update_lru, -1) := by
  have h := C28_lru_column_rejected colsExt
  have h2 := C28_lru_column_rejected toyUpd
  refine ⟨by decide, ?_, ?_⟩
  · exact (h.2.1 (lruState [40, 112, 107, 44, 118, 41] [50, 44, 53])
      (lruState [40, 112, 107, 44, 118, 41] [50, 44, 53]).argv false 0 false
      (lruState [40, 112, 107, 44, 118, 41] [50, 44, 53]) (toyParseCols [112, 107, 44, 118]).1 2
      (by decide) (by decide) (by rfl) (by decide)).1
  · exact (h2.2.2.1 lruUpdState toyAobj (-1) lruUpdState 0 lruUpdState
      (toyParseSet [118, 61, 55]) (by rfl) (by decide) (by decide) (by rfl) (by decide)).1


/-- The column-list block of `insertParse` on a column list with at least one
column that does not name the LRU column: the test for the narrow encoding,
then the test for VALUES. -/
theorem insertParseCols_list {BT IX NBT Row : Type} (E : Ext BT IX NBT Row) (c : State BT IX)
    (argv : Nat → List Nat) (tmatch : Nat) (c1 : State BT IX) (cmatchs : Nat → Int)
    (pcols : Nat)
    (hcols : strcasecmp (argv 3) [86, 65, 76, 85, 69, 83] = true)
    (hparen : (argv 3).head? = some 40 ∧ (argv 3).getLast? = some 41)
    (hparse : E.parseCommaSpaceList c (((argv 3).drop 1).take ((argv 3).length - 2)) tmatch
      = (c1, cmatchs, pcols))
    (hp : pcols ≠ 0)
    (hlru : initLRUCS (c1.Tbl tmatch) cmatchs pcols = false) :
    insertParseCols E c argv tmatch =
      if E.OTHER_BT (c1.btr tmatch) = true ∧ pcols ≠ 2 ∧ cmatchs 0 = 0 then
        (addReply c1 Reply.part_insert_other, none)
      else if strcasecmp (argv 4) [86, 65, 76, 85, 69, 83] = false then
        (c1, some ⟨4, pcols, cmatchs⟩)
      else (addReply c1 Reply.insertsyntax_no_values, none) := by
  simp only [insertParseCols, hcols, hparen, hparse, hp, hlru, and_self, if_true,
    ne_eq, not_false_eq_true, Bool.false_eq_true, if_false]

/-- Claim C29, amended: for a column list with at least one column that does
not name the LRU column, `insertParse` replies `part_insert_other` (and
returns, the state being the one the column-list parser left plus that reply,
whatever the collaborators of `insertCommit` are) when the B-tree is in the
narrow encoding (`OTHER_BT`), the list has a number of columns other than 2,
and its first column is the primary key (`cmatchs[0] = 0`); in every other
case the column-list block does not reply `part_insert_other`: it goes on to
the test for VALUES. -/
theorem C29_part_insert_other {BT IX NBT Row : Type} (E : Ext BT IX NBT Row)
    (c : State BT IX) (argv : Nat → List Nat) (repl : Bool) (tmatch : Nat) (parse : Bool)
    (c1 : State BT IX) (cmatchs : Nat → Int) (pcols : Nat)
    (hcols : strcasecmp (argv 3) [86, 65, 76, 85, 69, 83] = true)
    (hparen : (argv 3).head? = some 40 ∧ (argv 3).getLast? = some 41)
    (hparse : E.parseCommaSpaceList c (((argv 3).drop 1).take ((argv 3).length - 2)) tmatch
      = (c1, cmatchs, pcols))
    (hp : pcols ≠ 0)
    (hlru : initLRUCS (c1.Tbl tmatch) cmatchs pcols = false) :
    (E.OTHER_BT (c1.btr tmatch) = true ∧ pcols ≠ 2 ∧ cmatchs 0 = 0 →
      insertParse E c argv repl tmatch parse = (addReply c1 Reply.part_insert_other, none) ∧
      ∀ E2 : Ext BT IX NBT Row, E2.parseCommaSpaceList = E.parseCommaSpaceList →
        E2.OTHER_BT = E.OTHER_BT →
        insertParse E2 c argv repl tmatch parse = insertParse E c argv repl tmatch parse) ∧
    (¬ (E.OTHER_BT (c1.btr tmatch) = true ∧ pcols ≠ 2 ∧ cmatchs 0 = 0) →
      insertParseCols E c argv tmatch =
        if strcasecmp (argv 4) [86, 65, 76, 85, 69, 83] = false then
          (c1, some ⟨4, pcols, cmatchs⟩)
        else (addReply c1 Reply.insertsyntax_no_values, none)) := by
  have h0 := insertParseCols_list E c argv tmatch c1 cmatchs pcols hcols hparen hparse hp hlru
  constructor
  · intro ho
    have hins : ∀ E2 : Ext BT IX NBT Row, insertParseCols E2 c argv tmatch
          = (addReply c1 Reply.part_insert_other, none) →
        insertParse E2 c argv repl tmatch parse
          = (addReply c1 Reply.part_insert_other, none) := by
      intro E2 h
      simp only [insertParse, h]
    rw [if_pos ho] at h0
    refine ⟨hins E h0, fun E2 he1 he2 => ?_⟩
    rw [hins E h0]
    exact hins E2 ((insertParseCols_congr E E2 he1 he2 c argv tmatch).trans h0)
  · intro hn
    rw [if_neg hn] at h0
    exact h0

/-- The narrow table `t(pk, v)` and `INSERT INTO t (pk) VALUES (5)`: the
reply is `part_insert_other` and the rows are as they were. -/
theorem C29_part_insert_other_witness :
    insertParse otherExt (colsState [40, 112, 107, 41] [53])
        (colsState [40, 112, 107, 41] [53]).argv false 0 false
      = (addReply (colsState [40, 112, 107, 41] [53]) Reply.part_insert_other, none) ∧
    (insertParse otherExt (colsState [40, 112, 107, 41] [53])
        (colsState [40, 112, 107, 41] [53]).argv false 0 false).1.btr 0 = [(1, 10)] := by
  have h := ((C29_part_insert_other otherExt (colsState [40, 112, 107, 41] [53])
    (colsState [40, 112, 107, 41] [53]).argv false 0 false (colsState [40, 112, 107, 41] [53])
    (toyParseCols [112, 107]).1 1 (by decide) (by decide) (by rfl) (by decide) (by decide)).1
    (by decide)).1
  exact ⟨h, by rw [h]; rfl⟩

/-- Claim C29, counterexample: the narrow (`OTHER_BT`) table `t(pk, v)` and
`INSERT INTO t (v) VALUES (5)`, whose column list names only the column that
is not the primary key.  The list has one column and `cmatchs[0] = 1`, so the
test `pcols != 2 && !cmatchs[0]` fails: the column-list block accepts the list,
no `part_insert_other` is replied, and `insertCommit` is called for the tuple
(it is the function that replies `insertcolumn`, the tuple having no primary
key for the tuple parser of the instance). -/
theorem C29_part_insert_other_counterexample :
    otherExt.OTHER_BT ((colsState [40, 118, 41] [53]).btr 0) = true ∧
    (toyParseCols [118]).2 = 1 ∧ (toyParseCols [118]).1 0 = 1 ∧
    insertParseCols otherExt (colsState [40, 118, 41] [53])
        (colsState [40, 118, 41] [53]).argv 0
      = (colsState [40, 118, 41] [53], some ⟨4, 1, (toyParseCols [118]).1⟩) ∧
    insertParse otherExt (colsState [40, 118, 41] [53])
        (colsState [40, 118, 41] [53]).argv false 0 false
      = ((insertCommit otherExt (colsState [40, 118, 41] [53])
          (colsState [40, 118, 41] [53]).argv [53] 2 0 0 (fun _ => -1) 1
          (toyParseCols [118]).1 false 0 none false).1, none) ∧
    (insertParse otherExt (colsState [40, 118, 41] [53])
        (colsState [40, 118, 41] [53]).argv false 0 false).1.reply
      = [Reply.ok, Reply.insertcolumn] := by
  refine ⟨by rfl, by rfl, by rfl, by rfl, by rfl, by rfl⟩


/-- The function `check_constraints` leaves unchanged what `addReply` leaves
unchanged. -/
theorem frame_check_constraints {BT IX NBT Row α : Type} (π : State BT IX → α)
    (E : Ext BT IX NBT Row) (hrep : ∀ c r, π (addReply c r) = π c)
    (c : State BT IX) (btr tmatch : Nat) (ncols : Int) (vals : List Nat)
    (cofsts : Nat → twoint) (apk : aobj) :
    π (check_constraints E c btr tmatch ncols vals cofsts apk).1 = π c := by
  simp only [check_constraints]
  repeat' split
  all_goals first | rfl | exact hrep c _

/-- The loop over `addToIndex` leaves unchanged what `addToIndex` leaves
unchanged. -/
theorem frame_addToIndexes {BT IX NBT Row α : Type} (π : State BT IX → α)
    (E : Ext BT IX NBT Row) (K : Frame π E) (btr : Nat) (apk : aobj) (nrow : Row)
    (inds : Nat → Int) (is : List Nat) (c : State BT IX) :
    π (addToIndexes E btr apk nrow inds is c).1 = π c := by
  induction is generalizing c with
  | nil => rfl
  | cons i is ih =>
    have h := K.addToIndex c btr apk nrow (inds i)
    rcases h1 : E.addToIndex c btr apk nrow (inds i) with ⟨c1, _ | _⟩
    · rw [h1] at h
      simp only [addToIndexes, h1]
      exact h
    · rw [h1] at h
      simp only [addToIndexes, h1]
      rw [ih c1]
      exact h

/-- The loop over `delFromIndex` leaves unchanged what `delFromIndex` leaves
unchanged. -/
theorem frame_delFromIndexes {BT IX NBT Row α : Type} (π : State BT IX → α)
    (E : Ext BT IX NBT Row) (K : Frame π E) (btr : Nat) (apk : aobj) (rrow : Row)
    (inds : Nat → Int) (is : List Nat) (c : State BT IX) :
    π (delFromIndexes E btr apk rrow inds is c) = π c := by
  induction is generalizing c with
  | nil => rfl
  | cons i is ih =>
    simp only [delFromIndexes]
    rw [ih, K.delFromIndex]

/-- The loop of `assignMisses` leaves unchanged what `parseExpr` leaves
unchanged. -/
theorem frame_assignMissesLoop {BT IX NBT Row α : Type} (π : State BT IX → α)
    (E : Ext BT IX NBT Row) (K : Frame π E) (tmatch : Nat) (qcols : Int)
    (cmatchs : Nat → Int) (mvals : Nat → List Nat) (mvlens : Nat → Nat) (rt : r_tbl_t)
    (cols : List Nat) (c : State BT IX) (A : MissArrays) :
    π (assignMissesLoop E tmatch qcols cmatchs mvals mvlens rt cols c A).1 = π c := by
  induction cols generalizing c A with
  | nil => rfl
  | cons i cols ih =>
    simp only [assignMissesLoop]
    split
    · exact ih _ _
    · split
      · split
        · rename_i h
          have h2 := congrArg (fun p => π p.1) h
          simp only [K.parseExpr] at h2
          exact h2.symm
        · rename_i h
          have h2 := congrArg (fun p => π p.1) h
          simp only [K.parseExpr] at h2
          rw [ih]
          exact h2.symm
      · exact ih _ _

/-- The statements of `updateAction` before the test of `w.wtype` leave
unchanged what the collaborators and `addReply` leave unchanged. -/
theorem frame_updateFront {BT IX NBT Row α : Type} (π : State BT IX → α)
    (E : Ext BT IX NBT Row) (K : Frame π E) (c : State BT IX)
    (u_vallist : Option (List Nat)) (u_apk : aobj) (u_tmatch : Int) :
    π (updateFront E c u_vallist u_apk u_tmatch).1 = π c := by
  have tail : ∀ (c0 : State BT IX) (tm : Int) (vl : List Nat),
      π c0 = π c →
      ∀ c2 uc, E.parseUpdateColListReply c0 tm.toNat vl = (c2, uc) → π c2 = π c := by
    intro c0 tm vl h0 c2 uc hp
    have h2 := K.parseUpdateColListReply c0 tm.toNat vl
    rw [hp] at h2
    exact h2.trans h0
  have miss : ∀ (c2 : State BT IX) (tm : Nat) (uc : UpdateCols) c3 r,
      assignMisses E c2 tm (c2.Tbl tm).col_count uc.qcols uc.cmatchs noArrays uc.mvals uc.mvlens
        = (c3, r) → π c3 = π c2 := by
    intro c2 tm uc c3 r ha
    have h3 := frame_assignMissesLoop π E K tm uc.qcols uc.cmatchs uc.mvals uc.mvlens
      (c2.Tbl tm) (List.range (c2.Tbl tm).col_count) c2 noArrays
    rw [assignMisses] at ha
    rw [ha] at h3
    exact h3
  cases u_vallist with
  | some v =>
    rcases hp : E.parseUpdateColListReply c u_tmatch.toNat v with ⟨c2, uc⟩
    have h2 := tail c u_tmatch v rfl c2 uc hp
    by_cases hq : uc.qcols = 0
    · simp only [updateFront, hp, hq, if_true]
      exact h2
    · by_cases hl : initLRUCS (c2.Tbl u_tmatch.toNat) uc.cmatchs uc.qcols = true
      · simp only [updateFront, hp, hq, hl, if_true, if_false]
        rw [K.addReply]
        exact h2
      · rcases ha : assignMisses E c2 u_tmatch.toNat (c2.Tbl u_tmatch.toNat).col_count
            uc.qcols uc.cmatchs noArrays uc.mvals uc.mvlens with ⟨c3, _ | A⟩
        · simp only [updateFront, hp, hq, hl, ha, if_false, Bool.false_eq_true]
          exact (miss c2 _ uc c3 _ ha).trans h2
        · simp only [updateFront, hp, hq, hl, ha, if_false, Bool.false_eq_true]
          exact (miss c2 _ uc c3 _ ha).trans h2
  | none =>
    have ht := K.TABLE_CHECK_OR_REPLY c (c.argv 1)
    rcases h1 : E.TABLE_CHECK_OR_REPLY c (c.argv 1) with ⟨c1, _ | tm⟩
    · rw [h1] at ht
      simp only [updateFront, h1]
      exact ht
    · rw [h1] at ht
      simp only at ht
      by_cases hs : strcasecmp (c1.argv 2) [83, 69, 84] = true
      · simp only [updateFront, h1, hs, if_true]
        rw [K.addReply]
        exact ht
      · by_cases hw : strcasecmp (c1.argv 4) [87, 72, 69, 82, 69] = true
        · simp only [updateFront, h1, hs, hw, if_true, if_false, Bool.false_eq_true]
          rw [K.addReply]
          exact ht
        · rcases hp : E.parseUpdateColListReply c1 (tm : Int).toNat (c1.argv 3) with ⟨c2, uc⟩
          have h2 := tail c1 (tm : Int) (c1.argv 3) ht c2 uc hp
          by_cases hq : uc.qcols = 0
          · simp only [updateFront, h1, hs, hw, hp, hq, if_true, if_false, Bool.false_eq_true]
            exact h2
          · by_cases hl : initLRUCS (c2.Tbl (tm : Int).toNat) uc.cmatchs uc.qcols = true
            · simp only [updateFront, h1, hs, hw, hp, hq, hl, if_true, if_false,
                Bool.false_eq_true]
              rw [K.addReply]
              exact h2
            · rcases ha : assignMisses E c2 (tm : Int).toNat (c2.Tbl (tm : Int).toNat).col_count
                uc.qcols uc.cmatchs noArrays uc.mvals uc.mvlens with ⟨c3, _ | A⟩
              · simp only [updateFront, h1, hs, hw, hp, hq, hl, ha, if_true, if_false,
                  Bool.false_eq_true]
                exact (miss c2 _ uc c3 _ ha).trans h2
              · have h3 := (miss c2 _ uc c3 _ ha).trans h2
                have h4 := K.parseWCReply c3
                  (init_check_sql_where_clause E ((tm : Int).toNat : Int) (some (c3.argv 5)))
                  init_wob
                rcases hwc : E.parseWCReply c3
                  (init_check_sql_where_clause E ((tm : Int).toNat : Int) (some (c3.argv 5)))
                  init_wob with ⟨c4, w, wb⟩
                rw [hwc] at h4
                simp only at h4
                by_cases he : w.wtype = WType.SQL_ERR_LKP
                · simp only [updateFront, h1, hs, hw, hp, hq, hl, ha, hwc, he, if_true, if_false,
                    Bool.false_eq_true]
                  exact h4.trans h3
                · have h5 : π (leftoverParsingReply E c4 w.lvr).1 = π c4 := by
                    unfold leftoverParsingReply
                    split
                    · rfl
                    · dsimp only
                      split
                      · exact K.addReply _ _
                      · rfl
                  rcases hlo : leftoverParsingReply E c4 w.lvr with ⟨c5, _ | _⟩
                  · rw [hlo] at h5
                    simp only [updateFront, h1, hs, hw, hp, hq, hl, ha, hwc, he, hlo, if_true,
                      if_false, Bool.false_eq_true]
                    exact h5.trans (h4.trans h3)
                  · rw [hlo] at h5
                    simp only [updateFront, h1, hs, hw, hp, hq, hl, ha, hwc, he, hlo, if_true,
                      if_false, Bool.false_eq_true]
                    exact h5.trans (h4.trans h3)


/-- The range path and the single-row path of `updateAction` leave unchanged
what the collaborators and `addReply` leave unchanged. -/
theorem frame_updateExec {BT IX NBT Row α : Type} (π : State BT IX → α)
    (E : Ext BT IX NBT Row) (K : Frame π E) (c : State BT IX)
    (u_vallist : Option (List Nat)) (f : UpdateFront) :
    π (updateExec E c u_vallist f).1 = π c := by
  by_cases hw : f.w.wtype = WType.SQL_SINGLE_LKP
  · have hov : ∀ b, (if f.pkupc ≠ -1 then
          ovwrPKUp E c f.pkupc f.uc.mvals f.uc.mvlens (f.rt.col_type 0) f.w.wf.tmatch.toNat
        else (c, false)) = b → π b.1 = π c := by
      intro b hb
      subst hb
      simp only [ovwrPKUp]
      repeat' split
      all_goals first | rfl | exact K.addReply c _
    rcases ho : (if f.pkupc ≠ -1 then
          ovwrPKUp E c f.pkupc f.uc.mvals f.uc.mvlens (f.rt.col_type 0) f.w.wf.tmatch.toNat
        else (c, false)) with ⟨c1, _ | _⟩
    · have h1 := hov _ ho
      simp only at h1
      rcases hf : E.btFind (c1.btr f.w.wf.tmatch.toNat) f.w.wf.akey with _ | row
      · simp only [updateExec, hw, ne_eq, not_true_eq_false, if_false, ho, hf]
        rw [K.addReply]
        exact h1
      · have h2 := K.updateRow c1 f.w.wf.tmatch.toNat f.w.wf.akey row f.w.wf.tmatch f.ncols
          f.nmatches f.inds f.A
        rcases hu : E.updateRow c1 f.w.wf.tmatch.toNat f.w.wf.akey row f.w.wf.tmatch f.ncols
          f.nmatches f.inds f.A with ⟨c2, nsize⟩
        rw [hu] at h2
        simp only at h2
        simp only [updateExec, hw, ne_eq, not_true_eq_false, if_false, ho, hf, hu]
        split
        · exact h2.trans h1
        · dsimp only
          have h3 : π (if u_vallist.isNone then addReply c2 Reply.cone else c2) = π c2 := by
            split
            · exact K.addReply c2 _
            · rfl
          split
          · rw [K.incrOffsetVar, h3]
            exact h2.trans h1
          · rw [h3]
            exact h2.trans h1
    · have h1 := hov _ ho
      simp only at h1
      simp only [updateExec, hw, ne_eq, not_true_eq_false, if_false, ho]
      exact h1
  · simp only [updateExec, hw, ne_eq, not_false_eq_true, if_true]
    repeat' split
    all_goals first
      | exact K.addReply c _
      | exact K.iupdateAction c _ _ _ _ _ _

/-- The function `updateAction` leaves unchanged what the collaborators and
`addReply` leave unchanged. -/
theorem frame_updateAction {BT IX NBT Row α : Type} (π : State BT IX → α)
    (E : Ext BT IX NBT Row) (K : Frame π E) (c : State BT IX)
    (u_vallist : Option (List Nat)) (u_apk : aobj) (u_tmatch : Int) :
    π (updateAction E c u_vallist u_apk u_tmatch).1 = π c := by
  have h1 := frame_updateFront π E K c u_vallist u_apk u_tmatch
  rw [updateAction_stages]
  rcases hf : updateFront E c u_vallist u_apk u_tmatch with ⟨c1, _ | f⟩
  · rw [hf] at h1
    exact h1
  · rw [hf] at h1
    exact (frame_updateExec π E K c1 u_vallist f).trans h1

/-- The last branch of `insertCommit` increments `server.dirty` when it
returns `INS_INS` and leaves it unchanged when it returns `INS_ERR`; it
returns nothing else. -/
theorem dirty_insertCommitRow {BT IX NBT Row : Type} (E : Ext BT IX NBT Row)
    (K : Frame (fun c => c.dirty) E) (c : State BT IX) (ncols tmatch nmatches : Nat)
    (inds : Nat → Int) (repl : Bool) (tsize : Option Nat) (pr : RowVals) (rrow : Option Row) :
    ((insertCommitRow E c ncols tmatch nmatches inds repl tsize pr rrow).2.ret = INS_ERR ∧
      (insertCommitRow E c ncols tmatch nmatches inds repl tsize pr rrow).1.dirty = c.dirty) ∨
    ((insertCommitRow E c ncols tmatch nmatches inds repl tsize pr rrow).2.ret = INS_INS ∧
      (insertCommitRow E c ncols tmatch nmatches inds repl tsize pr rrow).1.dirty
        = c.dirty + 1) := by
  have h3 := frame_check_constraints (fun c => c.dirty) E K.addReply c tmatch tmatch
    (if (c.Tbl tmatch).lrud ≠ 0 then (ncols : Int) - 1 else (ncols : Int)) pr.mvals pr.cofsts
    (assignApk E ((c.Tbl tmatch).col_type 0) pr)
  rcases hc : check_constraints E c tmatch tmatch
    (if (c.Tbl tmatch).lrud ≠ 0 then (ncols : Int) - 1 else (ncols : Int)) pr.mvals pr.cofsts
    (assignApk E ((c.Tbl tmatch).col_type 0) pr) with ⟨c1, _ | _⟩
  · rw [hc] at h3
    simp only at h3
    have h4 := K.createRow c1 tmatch tmatch
      (if (c.Tbl tmatch).lrud ≠ 0 then (ncols : Int) - 1 else (ncols : Int)) pr.mvals pr.cofsts
    rcases hr : E.createRow c1 tmatch tmatch
      (if (c.Tbl tmatch).lrud ≠ 0 then (ncols : Int) - 1 else (ncols : Int)) pr.mvals
      pr.cofsts with ⟨c2, _ | nrow⟩
    · rw [hr] at h4
      simp only at h4
      left
      simp only [insertCommitRow, hc, hr]
      exact ⟨trivial, h4.trans h3⟩
    · rw [hr] at h4
      simp only at h4
      have h5 := frame_addToIndexes (fun c => c.dirty) E K tmatch
        (assignApk E ((c.Tbl tmatch).col_type 0) pr) nrow inds (List.range nmatches) c2
      have hauto : ∀ (x : State BT IX) a b d,
          (E.UPDATE_AUTO_INC x a b d).dirty = x.dirty := K.UPDATE_AUTO_INC
      by_cases hm : nmatches = 0
      · right
        simp only [insertCommitRow, hc, hr, hm, ne_eq, not_true_eq_false, if_false,
          insertCommitted, hauto]
        exact ⟨trivial, by rw [h4.trans h3]⟩
      · rcases ha : addToIndexes E tmatch (assignApk E ((c.Tbl tmatch).col_type 0) pr) nrow
          inds (List.range nmatches) c2 with ⟨c3, _ | _⟩
        · rw [ha] at h5
          simp only at h5
          left
          simp only [insertCommitRow, hc, hr, hm, ha, ne_eq, not_false_eq_true, if_true]
          exact ⟨trivial, h5.trans (h4.trans h3)⟩
        · rw [ha] at h5
          simp only at h5
          right
          cases rrow with
          | none =>
            simp only [insertCommitRow, hc, hr, hm, ha, ne_eq, not_false_eq_true, if_true,
              insertCommitted, hauto]
            exact ⟨trivial, by rw [h5.trans (h4.trans h3)]⟩
          | some old =>
            cases repl
            · simp only [insertCommitRow, hc, hr, hm, ha, ne_eq, not_false_eq_true, if_true,
                Bool.false_eq_true, if_false, insertCommitted, hauto]
              exact ⟨trivial, by rw [h5.trans (h4.trans h3)]⟩
            · have h6 := frame_delFromIndexes (fun c => c.dirty) E K tmatch
                (assignApk E ((c.Tbl tmatch).col_type 0) pr) old inds (List.range nmatches) c3
              simp only at h6
              simp only [insertCommitRow, hc, hr, hm, ha, ne_eq, not_false_eq_true, if_true,
                insertCommitted, hauto]
              exact ⟨trivial, by rw [h6, h5.trans (h4.trans h3)]⟩
  · rw [hc] at h3
    simp only at h3
    left
    simp only [insertCommitRow, hc]
    exact ⟨trivial, h3⟩


/-- The function `insertCommit` returns `INS_ERR` with `server.dirty`
unchanged, or `INS_INS` or `INS_UP` with `server.dirty` incremented, when the
collaborators leave `server.dirty` alone. -/
theorem dirty_insertCommit {BT IX NBT Row : Type} (E : Ext BT IX NBT Row)
    (K : Frame (fun c => c.dirty) E) (c : State BT IX) (argv : Nat → List Nat)
    (vals : List Nat) (ncols tmatch nmatches : Nat) (inds : Nat → Int) (pcols : Nat)
    (cmatchs : Nat → Int) (repl : Bool) (upd : Nat) (tsize : Option Nat) (parse : Bool) :
    ((insertCommit E c argv vals ncols tmatch nmatches inds pcols cmatchs repl upd tsize
        parse).2.ret = INS_ERR ∧
      (insertCommit E c argv vals ncols tmatch nmatches inds pcols cmatchs repl upd tsize
        parse).1.dirty = c.dirty) ∨
    (((insertCommit E c argv vals ncols tmatch nmatches inds pcols cmatchs repl upd tsize
        parse).2.ret = INS_INS ∨
      (insertCommit E c argv vals ncols tmatch nmatches inds pcols cmatchs repl upd tsize
        parse).2.ret = INS_UP) ∧
      (insertCommit E c argv vals ncols tmatch nmatches inds pcols cmatchs repl upd tsize
        parse).1.dirty = c.dirty + 1) := by
  rcases hv : E.parseRowVals vals
      (if (c.Tbl tmatch).lrud ≠ 0 then (ncols : Int) - 1 else (ncols : Int))
      tmatch pcols cmatchs with _ | pr
  · left
    simp only [insertCommit, hv]
    exact ⟨trivial, rfl⟩
  · cases parse with
    | true =>
      left
      simp only [insertCommit, hv, if_true]
      exact ⟨trivial, trivial⟩
    | false =>
      by_cases hpk : C_IS_I ((c.Tbl tmatch).col_type 0) ∧ E.atol pr.pk ≥ (TWO_POW_32 : Int)
      · left
        simp only [insertCommit, hv, hpk, and_self, if_true, if_false, Bool.false_eq_true]
        exact ⟨trivial, rfl⟩
      · rw [insertCommit_body E c argv vals ncols tmatch nmatches inds pcols cmatchs repl upd
          tsize pr hv hpk]
        unfold insertCommitBody
        dsimp only
        split
        · left
          exact ⟨rfl, rfl⟩
        · split
          · have h3 := frame_updateAction (fun c => c.dirty) E K c (some (argv upd))
              (assignApk E ((c.Tbl tmatch).col_type 0) pr) tmatch
            simp only at h3
            split
            · left
              exact ⟨rfl, h3⟩
            · right
              refine ⟨Or.inr rfl, ?_⟩
              simp only [insertCommitted, h3]
          · rcases dirty_insertCommitRow E K c ncols tmatch nmatches inds repl tsize pr
              (E.btFind (c.btr tmatch) (assignApk E ((c.Tbl tmatch).col_type 0) pr))
              with ⟨h1, h2⟩ | ⟨h1, h2⟩
            · exact Or.inl ⟨h1, h2⟩
            · exact Or.inr ⟨Or.inl h1, h2⟩

/-- The loop of `insertParse` over the tuples, when it runs to its end (every
`insertCommit` returned `INS_INS` or `INS_UP`), has incremented `server.dirty`
once for each tuple. -/
theorem dirty_insertParseLoop {BT IX NBT Row : Type} (E : Ext BT IX NBT Row)
    (K : Frame (fun c => c.dirty) E) (argv : Nat → List Nat) (ncols tmatch nmatches : Nat)
    (inds : Nat → Int) (pcols : Nat) (cmatchs : Nat → Int) (repl : Bool) (upd : Nat)
    (print parse : Bool) (is : List Nat) (c : State BT IX) (tsize : Nat) :
    (insertParseLoop E argv ncols tmatch nmatches inds pcols cmatchs repl upd print parse is c
        tsize).2.2.2 = true →
      (insertParseLoop E argv ncols tmatch nmatches inds pcols cmatchs repl upd print parse is c
        tsize).1.dirty = c.dirty + is.length := by
  induction is generalizing c tsize with
  | nil => intro _; rfl
  | cons i is ih =>
    intro h
    have hd := dirty_insertCommit E K c argv (argv i) ncols tmatch nmatches inds pcols cmatchs
      repl (upd % 256) (if print then some tsize else none) parse
    rcases hc : insertCommit E c argv (argv i) ncols tmatch nmatches inds pcols cmatchs repl
      (upd % 256) (if print then some tsize else none) parse with ⟨c1, r⟩
    rw [hc] at hd
    simp only at hd
    simp only [insertParseLoop, hc] at h ⊢
    by_cases he : r.ret = INS_ERR
    · simp only [he, if_true] at h
      cases h
    · simp only [he, if_false] at h ⊢
      rw [ih c1 _ h]
      rcases hd with ⟨h1, _⟩ | ⟨_, h2⟩
      · exact absurd h1 he
      · rw [h2, List.length_cons]
        omega


/-- The column-list block of `insertParse` leaves unchanged what
`parseCommaSpaceList` and `addReply` leave unchanged. -/
theorem frame_insertParseCols {BT IX NBT Row α : Type} (π : State BT IX → α)
    (E : Ext BT IX NBT Row) (K : Frame π E) (c : State BT IX) (argv : Nat → List Nat)
    (tmatch : Nat) : π (insertParseCols E c argv tmatch).1 = π c := by
  have hp := K.parseCommaSpaceList c (((argv 3).drop 1).take ((argv 3).length - 2)) tmatch
  rcases h : E.parseCommaSpaceList c (((argv 3).drop 1).take ((argv 3).length - 2)) tmatch
    with ⟨c1, cmatchs, pcols⟩
  rw [h] at hp
  simp only at hp
  simp only [insertParseCols, h]
  repeat' split
  all_goals first
    | rfl
    | exact hp
    | exact K.addReply c _
    | exact (K.addReply c1 _).trans hp

/-- Claim C22: when the collaborators leave `server.dirty` alone,
`insertCommit` returns `INS_ERR`, `INS_INS` or `INS_UP`; `server.dirty` is
incremented by one when it returns `INS_INS` or `INS_UP` and unchanged when it
returns `INS_ERR`.  So the loop of `insertParse`, when every tuple commits,
raises `server.dirty` by the number of tuples, and so does `insertParse`. -/
theorem C22_dirty_counter {BT IX NBT Row : Type} (E : Ext BT IX NBT Row)
    (K : Frame (fun c => c.dirty) E) (c : State BT IX) (argv : Nat → List Nat)
    (vals : List Nat) (ncols tmatch nmatches : Nat) (inds : Nat → Int) (pcols : Nat)
    (cmatchs : Nat → Int) (repl : Bool) (upd : Nat) (tsize : Option Nat) (parse : Bool) :
    ((insertCommit E c argv vals ncols tmatch nmatches inds pcols cmatchs repl upd tsize
        parse).2.ret = INS_ERR ∨
      (insertCommit E c argv vals ncols tmatch nmatches inds pcols cmatchs repl upd tsize
        parse).2.ret = INS_INS ∨
      (insertCommit E c argv vals ncols tmatch nmatches inds pcols cmatchs repl upd tsize
        parse).2.ret = INS_UP) ∧
    ((insertCommit E c argv vals ncols tmatch nmatches inds pcols cmatchs repl upd tsize
        parse).2.ret = INS_INS ∨
      (insertCommit E c argv vals ncols tmatch nmatches inds pcols cmatchs repl upd tsize
        parse).2.ret = INS_UP →
      (insertCommit E c argv vals ncols tmatch nmatches inds pcols cmatchs repl upd tsize
        parse).1.dirty = c.dirty + 1) ∧
    ((insertCommit E c argv vals ncols tmatch nmatches inds pcols cmatchs repl upd tsize
        parse).2.ret = INS_ERR →
      (insertCommit E c argv vals ncols tmatch nmatches inds pcols cmatchs repl upd tsize
        parse).1.dirty = c.dirty) ∧
    (∀ (print : Bool) (is : List Nat) (c0 : State BT IX) (t0 : Nat),
      (insertParseLoop E argv ncols tmatch nmatches inds pcols cmatchs repl upd print parse is
        c0 t0).2.2.2 = true →
      (insertParseLoop E argv ncols tmatch nmatches inds pcols cmatchs repl upd print parse is
        c0 t0).1.dirty = c0.dirty + is.length) ∧
    (∀ (c1 : State BT IX) (cols : InsertCols),
      insertParseCols E c argv tmatch = (c1, some cols) →
      ¬ ((insertParseOpts c1).upd ≠ 0 ∧ repl = true) →
      (insertParseLoop E argv (c.Tbl tmatch).col_count tmatch (E.MATCH_INDICES c tmatch).1
        (E.MATCH_INDICES c tmatch).2 cols.pcols cols.cmatchs repl (insertParseOpts c1).upd
        (insertParseOpts c1).print parse
        (List.range' (cols.valc + 1) ((insertParseOpts c1).largc - (cols.valc + 1))) c1
        0).2.2.2 = true →
      (insertParse E c argv repl tmatch parse).1.dirty
        = c.dirty + ((insertParseOpts c1).largc - (cols.valc + 1))) := by
  have hd := dirty_insertCommit E K c argv vals ncols tmatch nmatches inds pcols cmatchs repl upd
    tsize parse
  refine ⟨?_, ?_, ?_, ?_, ?_⟩
  · rcases hd with ⟨h, _⟩ | ⟨h | h, _⟩
    · exact Or.inl h
    · exact Or.inr (Or.inl h)
    · exact Or.inr (Or.inr h)
  · intro h
    rcases hd with ⟨h1, _⟩ | ⟨_, h2⟩
    · rcases h with h | h <;> rw [h1] at h <;> cases h
    · exact h2
  · intro h
    rcases hd with ⟨_, h2⟩ | ⟨h1, _⟩
    · exact h2
    · rcases h1 with h1 | h1 <;> rw [h] at h1 <;> cases h1
  · intro print is c0 t0 h
    exact dirty_insertParseLoop E K argv ncols tmatch nmatches inds pcols cmatchs repl upd print
      parse is c0 t0 h
  · intro c1 cols hcols hnot hfin
    have hc1 : c1.dirty = c.dirty := by
      have := frame_insertParseCols (fun c => c.dirty) E K c argv tmatch
      rw [hcols] at this
      exact this
    have hl := dirty_insertParseLoop E K argv (c.Tbl tmatch).col_count tmatch
      (E.MATCH_INDICES c tmatch).1 (E.MATCH_INDICES c tmatch).2 cols.pcols cols.cmatchs repl
      (insertParseOpts c1).upd (insertParseOpts c1).print parse
      (List.range' (cols.valc + 1) ((insertParseOpts c1).largc - (cols.valc + 1))) c1 0 hfin
    rw [List.length_range', hc1] at hl
    rcases hloop : insertParseLoop E argv (c.Tbl tmatch).col_count tmatch
      (E.MATCH_INDICES c tmatch).1 (E.MATCH_INDICES c tmatch).2 cols.pcols cols.cmatchs repl
      (insertParseOpts c1).upd (insertParseOpts c1).print parse
      (List.range' (cols.valc + 1) ((insertParseOpts c1).largc - (cols.valc + 1))) c1 0
      with ⟨c2, t2, key, fin⟩
    rw [hloop] at hl hfin
    simp only at hl hfin
    subst hfin
    simp only [insertParse, hcols, hnot, if_false, hloop]
    split
    · simp only [addRowSizeReply]
      rw [K.addReply]
      exact hl
    · rw [K.addReply]
      exact hl

/-- The command `INSERT INTO t VALUES (2,5) (3,6)` on the table `t` with the
row `(1,10)` and `server.dirty = 1`: both tuples commit and `server.dirty` is
3. -/
theorem C22_dirty_counter_witness :
    Frame (fun c => c.dirty) toyExt ∧
    (insertCommit toyExt toyTwoState toyTwoState.argv [50, 44, 53] 2 0 0 (fun _ => -1) 0
      (fun _ => 0) false 0 none false).2.ret = INS_INS ∧
    (insertCommit toyExt toyTwoState toyTwoState.argv [50, 44, 53] 2 0 0 (fun _ => -1) 0
      (fun _ => 0) false 0 none false).1.dirty = toyTwoState.dirty + 1 ∧
    (insertParse toyExt toyTwoState toyTwoState.argv false 0 false).1.dirty = 1 + 2 ∧
    (insertParse toyExt toyTwoState toyTwoState.argv false 0 false).1.btr 0
      = [(3, 6), (2, 5), (1, 10)] := by
  have hk : Frame (fun c => c.dirty) toyExt :=
    ⟨fun _ _ => rfl, fun _ _ _ _ _ _ => rfl, fun _ _ _ _ _ => rfl, fun _ _ _ _ _ => rfl,
      fun _ _ _ _ => rfl, fun _ _ => rfl, fun _ _ _ => rfl, fun _ _ _ _ _ _ _ => rfl,
      fun _ _ _ => rfl, fun _ _ _ _ _ _ _ => rfl, fun _ _ _ _ _ _ _ _ _ => rfl,
      fun _ _ _ => rfl, fun _ _ _ => rfl⟩
  have h := C22_dirty_counter toyExt hk toyTwoState toyTwoState.argv [50, 44, 53] 2 0 0
    (fun _ => -1) 0 (fun _ => 0) false 0 none false
  refine ⟨hk, by rfl, h.2.1 (Or.inl (by rfl)), ?_, by rfl⟩
  exact h.2.2.2.2 toyTwoState ⟨3, 0, fun _ => 0⟩ (by rfl) (by decide) (by rfl)


/-- The `INS_ERR` exits of `insertCommit` after the tuple has been split: on a
constraint violation the state is the one `check_constraints` returns, on a
failed `createRow` the one `createRow` returns, and on a failed `addToIndex`
the one the loop over the indexes has reached, with the additions to the
indexes before the failing one in place (no statement of the function undoes
them). -/
theorem insertCommitRow_err_exits {BT IX NBT Row : Type} (E : Ext BT IX NBT Row)
    (c : State BT IX) (ncols tmatch nmatches : Nat) (inds : Nat → Int) (repl : Bool)
    (tsize : Option Nat) (pr : RowVals) (rrow : Option Row) :
    let lncols : Int := if (c.Tbl tmatch).lrud ≠ 0 then (ncols : Int) - 1 else (ncols : Int)
    let apk := assignApk E ((c.Tbl tmatch).col_type 0) pr
    let chk := check_constraints E c tmatch tmatch lncols pr.mvals pr.cofsts apk
    let crt := E.createRow chk.1 tmatch tmatch lncols pr.mvals pr.cofsts
    (chk.2 = true →
      insertCommitRow E c ncols tmatch nmatches inds repl tsize pr rrow
        = (addReply c Reply.constraint_viol, ⟨INS_ERR, tsize, none⟩)) ∧
    (chk.2 = false → crt.2 = none →
      insertCommitRow E c ncols tmatch nmatches inds repl tsize pr rrow
        = (crt.1, ⟨INS_ERR, tsize, none⟩)) ∧
    (∀ nrow, chk.2 = false → crt.2 = some nrow → nmatches ≠ 0 →
      (addToIndexes E tmatch apk nrow inds (List.range nmatches) crt.1).2 = false →
      insertCommitRow E c ncols tmatch nmatches inds repl tsize pr rrow
        = ((addToIndexes E tmatch apk nrow inds (List.range nmatches) crt.1).1,
            ⟨INS_ERR, tsize, none⟩)) := by
  intro lncols apk chk crt
  have hst : chk.2 = true → chk.1 = addReply c Reply.constraint_viol := by
    intro h
    simp only [chk, check_constraints] at h ⊢
    repeat' split at h
    all_goals first | rfl | (exfalso; simp at h; done) | skip
    all_goals simp_all
  rcases hc : chk with ⟨c1, b⟩
  rcases hr : crt with ⟨c2, r⟩
  have hc' : check_constraints E c tmatch tmatch
      (if (c.Tbl tmatch).lrud ≠ 0 then (ncols : Int) - 1 else (ncols : Int)) pr.mvals pr.cofsts
      (assignApk E ((c.Tbl tmatch).col_type 0) pr) = (c1, b) := hc
  have hr' : E.createRow c1 tmatch tmatch
      (if (c.Tbl tmatch).lrud ≠ 0 then (ncols : Int) - 1 else (ncols : Int)) pr.mvals pr.cofsts
      = (c2, r) := by
    have := hr
    simp only [crt, hc] at this
    exact this
  rw [hc] at hst
  refine ⟨?_, ?_, ?_⟩
  · intro h
    simp only at h hst
    subst h
    rw [← hst rfl]
    simp only [insertCommitRow, hc']
  · intro h h2
    simp only at h h2
    subst h
    subst h2
    simp only [insertCommitRow, hc', hr']
  · intro nrow h h2 hn h3
    simp only at h h2
    subst h
    subst h2
    rcases ha : addToIndexes E tmatch (assignApk E ((c.Tbl tmatch).col_type 0) pr) nrow inds
      (List.range nmatches) c2 with ⟨c3, b3⟩
    have ha' := ha
    simp only [apk, ha] at h3 ⊢
    subst h3
    simp only [insertCommitRow, hc', hr', ha', hn, ne_eq, not_false_eq_true, if_true]

/-- Claim C21, the divergence: `INSERT INTO u VALUES (1,100)` into the empty
table `u` with two secondary indexes, where `addToIndex` succeeds on index 0
and fails on index 1: `insertCommit` returns `INS_ERR`, the data B-tree is as
before (empty), but index 0, which held no primary key under the value 100
before the call, holds the primary key 1 under 100 afterwards: the addition
made for the refused tuple survives. -/
theorem C21_index_addition_survives :
    (insertCommit ix2Ext ixEmpty (fun _ => []) [49, 44, 49, 48, 48] 2 0 2 (fun i => (i : Int)) 0
      (fun _ => 0) false 0 none false).2.ret = INS_ERR ∧
    (insertCommit ix2Ext ixEmpty (fun _ => []) [49, 44, 49, 48, 48] 2 0 2 (fun i => (i : Int)) 0
      (fun _ => 0) false 0 none false).1.btr 0 = ixEmpty.btr 0 ∧
    ixHolds ixEmpty 100 = [] ∧
    ixHolds (insertCommit ix2Ext ixEmpty (fun _ => []) [49, 44, 49, 48, 48] 2 0 2
      (fun i => (i : Int)) 0 (fun _ => 0) false 0 none false).1 100 = [1] ∧
    (insertCommit ix2Ext ixEmpty (fun _ => []) [49, 44, 49, 48, 48] 2 0 2 (fun i => (i : Int)) 0
      (fun _ => 0) false 0 none false).1.ibtr 0 ≠ ixEmpty.ibtr 0 := by
  refine ⟨by rfl, by rfl, by rfl, by rfl, ?_⟩
  intro h
  have h2 := congrArg (fun t => t.numkeys) h
  revert h2
  decide


/-- A search gives the same result on a rearranged list when the elements
that satisfy the predicate are all equal. -/
theorem find_perm_unique {α : Type} (p : α → Bool) (l1 l2 : List α) (h : l1.Perm l2)
    (hu : ∀ a ∈ l2, ∀ b ∈ l2, p a = true → p b = true → a = b) :
    l1.find? p = l2.find? p := by
  rcases h1 : l1.find? p with _ | a
  · symm
    rw [List.find?_eq_none] at h1 ⊢
    intro x hx
    exact h1 x (h.mem_iff.mpr hx)
  · have ha := List.find?_some h1
    have hm := h.mem_iff.mp (List.mem_of_find?_eq_some h1)
    rcases h2 : l2.find? p with _ | b
    · rw [List.find?_eq_none] at h2
      exact absurd ha (h2 a hm)
    · rw [hu a hm b (List.mem_of_find?_eq_some h2) ha (List.find?_some h2)]

/-- The header after `abt_resize` of a container with entries. -/
theorem abt_resize_eq {N : Type} (E : BtEnv) (obtr : bt N) (new_size : Nat)
    (hne : obtr.root ≠ []) :
    abt_resize E obtr new_size
      = { ktype := obtr.ktype, is_index := obtr.is_index, num := obtr.num,
          numkeys := obtr.root.length, malloc_size := E.bt_overhead new_size,
          data_size := obtr.data_size, capacity := new_size, root := obtr.root } := by
  have h : obtr.root.isEmpty = false := by
    cases hr : obtr.root with
    | nil => exact absurd hr hne
    | cons a l => rfl
  simp only [abt_resize, rootNode, h, if_false, Bool.false_eq_true, bt_to_bt_insert_eq,
    nodeEntries, Bool.not_true, List.reverse_reverse, bt_create, List.append_nil,
    List.length_reverse, Nat.zero_add]

/-- The function `abt_insert` on a key that `createSimKey` encodes, with a row
when `vtype` is `REDIS_ROW`: it returns the bytes charged, and the B-tree
(resized when `numkeys` was `TRANSITION_ONE_MAX`) with the block charged and
one entry inserted. -/
theorem abt_insert_some {N : Type} (E : BtEnv) (buf : List Nat) (btr : bt N) (key : KeyRobj)
    (val : Option (ValPtr N)) (ktype : ColType) (vtype : RedisType) (k : SimKey)
    (hk : createSimKey E.atol buf key.encoding key.ptr ktype = SimKeyRet.ok k)
    (hval : vtype = RedisType.REDIS_ROW → ∃ bytes, val = some (ValPtr.row bytes)) :
    ∃ ssize e, abt_insert E buf btr key val ktype vtype
      = some ⟨ssize, bufferAfter buf k,
          bt_insert (bt_malloc ssize (if btr.numkeys = E.TRANSITION_ONE_MAX then
            abt_resize E btr E.TRANSITION_TWO_BTREE_BYTES else btr)).2 e⟩ := by
  by_cases hv : vtype = RedisType.REDIS_ROW
  · obtain ⟨bytes, rfl⟩ := hval hv
    subst hv
    simp only [abt_insert, hk, if_true, Option.getD_some, Option.map_some']
    exact ⟨_, _, rfl⟩
  · cases hvp : val.getD ValPtr.NULL <;>
      simp only [abt_insert, hk, hv, if_false, hvp, Option.map_some'] <;>
      exact ⟨_, _, rfl⟩

/-- Claim C25: `abt_resize` on a container with entries, whose `numkeys` is the
number of its entries, returns a container of the new capacity with the same
`ktype`, `is_index`, `num` and `numkeys`, in which `bt_find` gives for every
key what it gave before; this does not depend on how the nodes hold the
entries: for every node `n` below which the entries of the container lie (in
any order), `bt_to_bt_insert` into the new container gives a container in
which `bt_find` finds the same entry for every key that at most one entry
matches.  And `abt_insert` on such a container with `numkeys =
TRANSITION_ONE_MAX`, for a key that `createSimKey` encodes and a value of the
right kind, returns a container of capacity `TRANSITION_TWO_BTREE_BYTES` that
holds one new entry before the old ones, with `numkeys` one higher and the
same `ktype`, `is_index` and `num`. -/
theorem C25_abt_resize {N : Type} (E : BtEnv) (obtr : bt N) (new_size : Nat)
    (hne : obtr.root ≠ []) (hnum : obtr.numkeys = obtr.root.length) :
    (abt_resize E obtr new_size).ktype = obtr.ktype ∧
    (abt_resize E obtr new_size).is_index = obtr.is_index ∧
    (abt_resize E obtr new_size).num = obtr.num ∧
    (abt_resize E obtr new_size).numkeys = obtr.numkeys ∧
    (abt_resize E obtr new_size).capacity = new_size ∧
    (∀ simkey, bt_find E (abt_resize E obtr new_size) simkey = bt_find E obtr simkey) ∧
    (∀ (n : bt_n N) (nbtr : bt N) (simkey : List Nat), nbtr.root = [] →
      (nodeEntries n).Perm obtr.root →
      (∀ e1 ∈ obtr.root, ∀ e2 ∈ obtr.root, keyMatches E simkey e1 = true →
        keyMatches E simkey e2 = true → e1 = e2) →
      (bt_to_bt_insert nbtr n).numkeys = nbtr.numkeys + obtr.numkeys ∧
      bt_find E (bt_to_bt_insert nbtr n) simkey = bt_find E obtr simkey) ∧
    (∀ (buf : List Nat) (key : KeyRobj) (val : Option (ValPtr N)) (ktype : ColType)
      (vtype : RedisType) (k : SimKey),
      obtr.numkeys = E.TRANSITION_ONE_MAX →
      createSimKey E.atol buf key.encoding key.ptr ktype = SimKeyRet.ok k →
      (vtype = RedisType.REDIS_ROW → ∃ bytes, val = some (ValPtr.row bytes)) →
      ∃ o e, abt_insert E buf obtr key val ktype vtype = some o ∧
        o.btr.capacity = E.TRANSITION_TWO_BTREE_BYTES ∧
        o.btr.root = e :: obtr.root ∧ o.btr.numkeys = obtr.numkeys + 1 ∧
        o.btr.ktype = obtr.ktype ∧ o.btr.is_index = obtr.is_index ∧ o.btr.num = obtr.num ∧
        ∀ simkey, keyMatches E simkey e = false →
          bt_find E o.btr simkey = bt_find E obtr simkey) := by
  have hr := abt_resize_eq E obtr new_size hne
  refine ⟨by rw [hr], by rw [hr], by rw [hr], by rw [hr, hnum], by rw [hr], ?_, ?_, ?_⟩
  · intro simkey
    rw [hr]
    rfl
  · intro n nbtr simkey hnb hp hu
    rw [bt_to_bt_insert_eq]
    refine ⟨?_, ?_⟩
    · show nbtr.numkeys + (nodeEntries n).length = nbtr.numkeys + obtr.numkeys
      rw [hp.length_eq, hnum]
    · show ((nodeEntries n).reverse ++ nbtr.root).find? (keyMatches E simkey)
        = obtr.root.find? (keyMatches E simkey)
      rw [hnb, List.append_nil]
      exact find_perm_unique _ _ _ ((List.reverse_perm _).trans hp) hu
  · intro buf key val ktype vtype k hmax hk hval
    obtain ⟨ssize, e, h⟩ := abt_insert_some E buf obtr key val ktype vtype k hk hval
    refine ⟨_, e, h, ?_⟩
    simp only [hmax, if_true, abt_resize_eq E obtr E.TRANSITION_TWO_BTREE_BYTES hne, bt_insert,
      bt_malloc, ← hnum]
    refine ⟨trivial, trivial, trivial, trivial, trivial, trivial, ?_⟩
    intro simkey hs
    simp only [bt_find, List.find?_cons, hs]

/-- The B-tree `toyTree` (one entry, and `TRANSITION_ONE_MAX` is 1) resized to
4096 bytes: capacity 4096, one key, and the key 5 is found with its entry;
`bt_to_bt_insert` from an inner node with one leaf finds it too; `abt_insert`
of the key 7 with the row `[1, 2, 3]` resizes and holds both entries. -/
theorem C25_abt_resize_witness :
    toyTree.root ≠ [] ∧ toyTree.numkeys = toyTree.root.length ∧
    (abt_resize toyBt toyTree 4096).capacity = 4096 ∧
    (abt_resize toyBt toyTree 4096).numkeys = 1 ∧
    bt_find toyBt (abt_resize toyBt toyTree 4096) [22, 0, 0, 0, 0, 0]
      = some ⟨[22, 0, 9, 9], ValPtr.NULL⟩ ∧
    bt_find toyBt (bt_to_bt_insert (bt_create toyBt 4096)
      (bt_n.mk false [] [bt_n.mk true toyTree.root []])) [22, 0, 0, 0, 0, 0]
      = some ⟨[22, 0, 9, 9], ValPtr.NULL⟩ ∧
    (abt_insert toyBt [0, 0, 0, 0, 0, 0] toyTree (toyKey 7) (some (ValPtr.row [1, 2, 3]))
      ColType.INT RedisType.REDIS_ROW).map (fun o => (o.btr.capacity, o.btr.numkeys, o.btr.root))
      = some (4096, 2, [⟨[30, 0, 1, 2, 3], ValPtr.NULL⟩, ⟨[22, 0, 9, 9], ValPtr.NULL⟩]) := by
  have h := C25_abt_resize toyBt toyTree 4096 (by decide) (by rfl)
  exact ⟨by decide, by rfl, h.2.2.2.2.1, h.2.2.2.1, (h.2.2.2.2.2.1 _).trans (by rfl), by rfl,
    by rfl⟩


/-- A string key of 2043 bytes: the encoded key has 2048 bytes, the size of
the static buffer, and is written into a block from `malloc`. -/
theorem simkey_boundary (buf : List Nat) (k : KeyPtr) (hn : k.addr ≠ 0)
    (h : k.sds.length = 2043) :
    ∃ r, createSimKeyFromRaw buf k ColType.STRING = SimKeyRet.ok r ∧
      r.ksize = 2048 ∧ r.ksize ≤ SIMKEY_BUFFER_SIZE ∧ r.med = true := by
  refine ⟨_, simkey_long buf k hn (by omega) (by omega), ?_, ?_, ?_⟩
  · simp [h]
  · simp [h, SIMKEY_BUFFER_SIZE]
  · simp [h]

/-- Claim C31, amended: for every stream that `createSimKeyFromRaw` returns,
`*med` is set (the stream is in a block from `malloc`, of exactly the bytes of
the encoded key) exactly for a string key with `sdslen + 5 >=
SIMKEY_BUFFER_SIZE`; otherwise the stream is the static buffer (the bytes
after the key are those the buffer held).  When `ksize` has not wrapped, the
static buffer is used exactly when `ksize < SIMKEY_BUFFER_SIZE`.  Integer and
float keys and strings shorter than 128 bytes never set `*med`. -/
theorem C31_simkey_buffer (buf : List Nat) (k : KeyPtr) (t : ColType) (r : SimKey)
    (h : createSimKeyFromRaw buf k t = SimKeyRet.ok r) :
    (r.med = true ↔ t = ColType.STRING ∧ SIMKEY_BUFFER_SIZE ≤ k.sds.length + 5) ∧
    ((t = ColType.STRING → k.sds.length + 5 < 2 ^ 32) →
      (r.med = false ↔ r.ksize < SIMKEY_BUFFER_SIZE)) ∧
    (r.med = false → r.simkey.drop r.ksize = buf.drop r.ksize) ∧
    (r.med = true → r.simkey.length = k.sds.length + 5) ∧
    (t ≠ ColType.STRING ∨ k.sds.length < 128 → r.med = false) := by
  rcases simkey_shapes buf k t r h with
    ⟨rfl, _, rfl⟩ | ⟨rfl, _, _, rfl⟩ | ⟨rfl, _, _, rfl⟩ | ⟨rfl, rfl⟩ | ⟨rfl, _, hlen, rfl⟩ |
    ⟨rfl, _, h128, hlen, rfl⟩
  · simp [SIMKEY_BUFFER_SIZE, le16]
  · simp [SIMKEY_BUFFER_SIZE, le32]
  · simp [SIMKEY_BUFFER_SIZE, le32]
  · simp [SIMKEY_BUFFER_SIZE, le32]
  · refine ⟨?_, ?_, ?_, ?_, ?_⟩
    · simp [SIMKEY_BUFFER_SIZE]
      omega
    · intro _
      simp [SIMKEY_BUFFER_SIZE]
      omega
    · intro _
      simp
    · intro hm
      simp at hm
    · intro _
      rfl
  · by_cases hb : k.sds.length + 5 ≥ 2048
    · refine ⟨?_, ?_, ?_, ?_, ?_⟩
      · simp [SIMKEY_BUFFER_SIZE, hb]
      · intro hw
        have hw2 := hw rfl
        have hm : (k.sds.length + 5) % 4294967296 = k.sds.length + 5 :=
          Nat.mod_eq_of_lt (by omega)
        simp [SIMKEY_BUFFER_SIZE, hb, hm]
      · intro hm
        simp [hb] at hm
      · intro _
        simp [longTail, SIMKEY_BUFFER_SIZE, hb, le32]
      · intro ho
        rcases ho with ho | ho
        · exact absurd rfl ho
        · omega
    · have hm : (k.sds.length + 5) % 4294967296 = k.sds.length + 5 :=
        Nat.mod_eq_of_lt (by omega)
      refine ⟨?_, ?_, ?_, ?_, ?_⟩
      · simp [SIMKEY_BUFFER_SIZE, hb]
      · intro _
        simp [SIMKEY_BUFFER_SIZE, hb, hm]
        omega
      · intro _
        simp only [hm, longTail, SIMKEY_BUFFER_SIZE, hb, if_false]
        have hl : (4 :: (le32 k.sds.length ++ k.sds)).length = k.sds.length + 5 := by
          simp [le32]
        have : 4 :: (le32 k.sds.length ++ (k.sds ++ List.drop (k.sds.length + 5) buf))
            = (4 :: (le32 k.sds.length ++ k.sds)) ++ List.drop (k.sds.length + 5) buf := by
          simp
        rw [this, ← hl, List.drop_left]
      · intro hmed
        simp [hb] at hmed
      · intro _
        simp [hb]

/-- The string key `AB` in a buffer that holds an older key: `*med` is not set,
the key has 3 bytes, and the bytes after them are those of the buffer. -/
theorem C31_simkey_buffer_witness :
    createSimKeyFromRaw [16, 255, 255, 255, 255, 7] ⟨1, [65, 66], 0⟩ ColType.STRING
      = SimKeyRet.ok ⟨[5, 65, 66, 255, 255, 7], false, 1, 3⟩ ∧
    (⟨[5, 65, 66, 255, 255, 7], false, 1, 3⟩ : SimKey).med = false ∧
    (⟨[5, 65, 66, 255, 255, 7], false, 1, 3⟩ : SimKey).ksize < SIMKEY_BUFFER_SIZE ∧
    (⟨[5, 65, 66, 255, 255, 7], false, 1, 3⟩ : SimKey).simkey.drop 3
      = List.drop 3 [16, 255, 255, 255, 255, 7] := by
  have hk : createSimKeyFromRaw [16, 255, 255, 255, 255, 7] ⟨1, [65, 66], 0⟩ ColType.STRING
      = SimKeyRet.ok ⟨[5, 65, 66, 255, 255, 7], false, 1, 3⟩ := by decide
  have h := C31_simkey_buffer [16, 255, 255, 255, 255, 7] ⟨1, [65, 66], 0⟩ ColType.STRING _ hk
  exact ⟨hk, h.2.2.2.2 (Or.inr (by decide)), (h.2.1 (fun _ => by decide)).mp rfl, h.2.2.1 rfl⟩

/-- Claim C31 as stated fails at the boundary: a string key of 2043 bytes has
an encoded key of 2048 bytes, which is `SIMKEY_BUFFER_SIZE`, yet `*med` is set:
the test is `sdslen(key_ptr) + 5 >= SIMKEY_BUFFER_SIZE`. -/
theorem C31_simkey_buffer_counterexample :
    ∃ r, createSimKeyFromRaw [] ⟨1, List.replicate 2043 65, 0⟩ ColType.STRING
        = SimKeyRet.ok r ∧
      r.ksize = 2048 ∧ r.ksize ≤ SIMKEY_BUFFER_SIZE ∧ r.med = true :=
  simkey_boundary [] ⟨1, List.replicate 2043 65, 0⟩ (by decide)
    (List.length_replicate 2043 65)


/-- The loop of `insertParse` over the tuples `pre` followed by `rest`: when
it runs to its end on `pre`, it goes on with `rest` from the state and the
`tsize` reached; else it has stopped in `pre`. -/
theorem insertParseLoop_append {BT IX NBT Row : Type} (E : Ext BT IX NBT Row)
    (argv : Nat → List Nat) (ncols tmatch nmatches : Nat) (inds : Nat → Int) (pcols : Nat)
    (cmatchs : Nat → Int) (repl : Bool) (upd : Nat) (print parse : Bool)
    (pre rest : List Nat) (c : State BT IX) (t : Nat) :
    insertParseLoop E argv ncols tmatch nmatches inds pcols cmatchs repl upd print parse
        (pre ++ rest) c t
      = if (insertParseLoop E argv ncols tmatch nmatches inds pcols cmatchs repl upd print parse
            pre c t).2.2.2 = true then
          insertParseLoop E argv ncols tmatch nmatches inds pcols cmatchs repl upd print parse
            rest
            (insertParseLoop E argv ncols tmatch nmatches inds pcols cmatchs repl upd print parse
              pre c t).1
            (insertParseLoop E argv ncols tmatch nmatches inds pcols cmatchs repl upd print parse
              pre c t).2.1
        else insertParseLoop E argv ncols tmatch nmatches inds pcols cmatchs repl upd print parse
          pre c t := by
  induction pre generalizing c t with
  | nil => simp only [List.nil_append, insertParseLoop, if_true]
  | cons i pre ih =>
    rcases hc : insertCommit E c argv (argv i) ncols tmatch nmatches inds pcols cmatchs repl
      (upd % 256) (if print then some t else none) parse with ⟨c1, r⟩
    by_cases he : r.ret = INS_ERR
    · simp only [List.cons_append, insertParseLoop, hc, he, if_true, Bool.false_eq_true,
        if_false]
    · simp only [List.cons_append, insertParseLoop, hc, he, if_false]
      exact ih c1 _

/-- The loop of `insertParse` that does not run to its end has a first tuple
for which `insertCommit` returns `INS_ERR`. -/
theorem insertParseLoop_stops {BT IX NBT Row : Type} (E : Ext BT IX NBT Row)
    (argv : Nat → List Nat) (ncols tmatch nmatches : Nat) (inds : Nat → Int) (pcols : Nat)
    (cmatchs : Nat → Int) (repl : Bool) (upd : Nat) (print parse : Bool)
    (is : List Nat) (c : State BT IX) (t : Nat)
    (h : (insertParseLoop E argv ncols tmatch nmatches inds pcols cmatchs repl upd print parse
      is c t).2.2.2 = false) :
    ∃ (pre : List Nat) (i : Nat) (post : List Nat), is = pre ++ i :: post ∧
      (insertParseLoop E argv ncols tmatch nmatches inds pcols cmatchs repl upd print parse
        pre c t).2.2.2 = true ∧
      (insertCommit E
        (insertParseLoop E argv ncols tmatch nmatches inds pcols cmatchs repl upd print parse
          pre c t).1 argv (argv i) ncols tmatch nmatches inds pcols cmatchs repl (upd % 256)
        (if print then some (insertParseLoop E argv ncols tmatch nmatches inds pcols cmatchs
          repl upd print parse pre c t).2.1 else none) parse).2.ret = INS_ERR := by
  induction is generalizing c t with
  | nil =>
    simp only [insertParseLoop] at h
    cases h
  | cons i is ih =>
    rcases hc : insertCommit E c argv (argv i) ncols tmatch nmatches inds pcols cmatchs repl
      (upd % 256) (if print then some t else none) parse with ⟨c1, r⟩
    by_cases he : r.ret = INS_ERR
    · refine ⟨[], i, is, rfl, rfl, ?_⟩
      simp only [insertParseLoop, hc]
      exact he
    · simp only [insertParseLoop, hc, he, if_false] at h
      obtain ⟨pre, j, post, h1, h2, h3⟩ := ih c1 _ h
      refine ⟨i :: pre, j, post, by rw [h1]; rfl, ?_, ?_⟩
      · simp only [insertParseLoop, hc, he, if_false]
        exact h2
      · simp only [insertParseLoop, hc, he, if_false]
        exact h3


/-- Claim C32: when the column-list block of `insertParse` has left the state
`c1` and the locals `cols`, the tuples are at the positions `pre ++ i :: post`,
the loop runs to its end over `pre` (every `insertCommit` there returned
`INS_INS` or `INS_UP`) and `insertCommit` returns `INS_ERR` for the tuple at
`i`: `insertParse` returns the state that this call of `insertCommit` left
(which it entered with the state reached after `pre`), adding no reply of its
own (neither `ok` nor the size reply); the loop gives the same result whatever
the later tuples `post` are; and, when the collaborators leave `server.dirty`
alone, `server.dirty` has grown by the number of tuples in `pre`.  Conversely
a loop that does not run to its end has such a first tuple. -/
theorem C32_insert_stops_at_first_error {BT IX NBT Row : Type} (E : Ext BT IX NBT Row)
    (c : State BT IX) (argv : Nat → List Nat) (repl : Bool) (tmatch : Nat) (parse : Bool)
    (c1 : State BT IX) (cols : InsertCols) (pre post : List Nat) (i : Nat)
    (hcols : insertParseCols E c argv tmatch = (c1, some cols))
    (hnot : ¬ ((insertParseOpts c1).upd ≠ 0 ∧ repl = true))
    (hsplit : List.range' (cols.valc + 1) ((insertParseOpts c1).largc - (cols.valc + 1))
      = pre ++ i :: post)
    (hpre : (insertParseRun E c argv repl tmatch parse c1 cols pre c1 0).2.2.2 = true)
    (herr : (insertParseCall E c argv repl tmatch parse c1 cols i
      (insertParseRun E c argv repl tmatch parse c1 cols pre c1 0).1
      (insertParseRun E c argv repl tmatch parse c1 cols pre c1 0).2.1).2.ret = INS_ERR) :
    insertParse E c argv repl tmatch parse
      = ((insertParseCall E c argv repl tmatch parse c1 cols i
          (insertParseRun E c argv repl tmatch parse c1 cols pre c1 0).1
          (insertParseRun E c argv repl tmatch parse c1 cols pre c1 0).2.1).1,
         (insertParseCall E c argv repl tmatch parse c1 cols i
          (insertParseRun E c argv repl tmatch parse c1 cols pre c1 0).1
          (insertParseRun E c argv repl tmatch parse c1 cols pre c1 0).2.1).2.key) ∧
    (∀ post2 : List Nat,
      insertParseRun E c argv repl tmatch parse c1 cols (pre ++ i :: post2) c1 0
        = insertParseRun E c argv repl tmatch parse c1 cols (pre ++ [i]) c1 0 ∧
      (insertParseRun E c argv repl tmatch parse c1 cols (pre ++ i :: post2) c1 0).1
        = (insertParseCall E c argv repl tmatch parse c1 cols i
            (insertParseRun E c argv repl tmatch parse c1 cols pre c1 0).1
            (insertParseRun E c argv repl tmatch parse c1 cols pre c1 0).2.1).1 ∧
      (insertParseRun E c argv repl tmatch parse c1 cols (pre ++ i :: post2) c1 0).2.2.2
        = false) ∧
    (Frame (fun c => c.dirty) E →
      (insertParse E c argv repl tmatch parse).1.dirty = c.dirty + pre.length) ∧
    (∀ (is : List Nat) (c0 : State BT IX) (t0 : Nat),
      (insertParseRun E c argv repl tmatch parse c1 cols is c0 t0).2.2.2 = false →
      ∃ (pre2 : List Nat) (j : Nat) (post2 : List Nat), is = pre2 ++ j :: post2 ∧
        (insertParseRun E c argv repl tmatch parse c1 cols pre2 c0 t0).2.2.2 = true ∧
        (insertParseCall E c argv repl tmatch parse c1 cols j
          (insertParseRun E c argv repl tmatch parse c1 cols pre2 c0 t0).1
          (insertParseRun E c argv repl tmatch parse c1 cols pre2 c0 t0).2.1).2.ret
          = INS_ERR) := by
  have hstep : ∀ post2 : List Nat,
      insertParseRun E c argv repl tmatch parse c1 cols (pre ++ i :: post2) c1 0
        = ((insertParseCall E c argv repl tmatch parse c1 cols i
            (insertParseRun E c argv repl tmatch parse c1 cols pre c1 0).1
            (insertParseRun E c argv repl tmatch parse c1 cols pre c1 0).2.1).1,
          (insertParseCall E c argv repl tmatch parse c1 cols i
            (insertParseRun E c argv repl tmatch parse c1 cols pre c1 0).1
            (insertParseRun E c argv repl tmatch parse c1 cols pre c1 0).2.1).2.tsize.getD
            (insertParseRun E c argv repl tmatch parse c1 cols pre c1 0).2.1,
          (insertParseCall E c argv repl tmatch parse c1 cols i
            (insertParseRun E c argv repl tmatch parse c1 cols pre c1 0).1
            (insertParseRun E c argv repl tmatch parse c1 cols pre c1 0).2.1).2.key, false) := by
    intro post2
    unfold insertParseRun insertParseCall at *
    rw [insertParseLoop_append, if_pos hpre]
    simp only [insertParseLoop, herr, if_true]
  have hmain := hstep post
  have hins : insertParse E c argv repl tmatch parse
      = ((insertParseCall E c argv repl tmatch parse c1 cols i
          (insertParseRun E c argv repl tmatch parse c1 cols pre c1 0).1
          (insertParseRun E c argv repl tmatch parse c1 cols pre c1 0).2.1).1,
         (insertParseCall E c argv repl tmatch parse c1 cols i
          (insertParseRun E c argv repl tmatch parse c1 cols pre c1 0).1
          (insertParseRun E c argv repl tmatch parse c1 cols pre c1 0).2.1).2.key) := by
    have hloop : insertParseLoop E argv (c.Tbl tmatch).col_count tmatch
        (E.MATCH_INDICES c tmatch).1 (E.MATCH_INDICES c tmatch).2 cols.pcols cols.cmatchs repl
        (insertParseOpts c1).upd (insertParseOpts c1).print parse
        (List.range' (cols.valc + 1) ((insertParseOpts c1).largc - (cols.valc + 1))) c1 0
        = insertParseRun E c argv repl tmatch parse c1 cols (pre ++ i :: post) c1 0 := by
      rw [hsplit]
      rfl
    simp only [insertParse, hcols, hnot, if_false]
    rw [hloop, hmain]
  refine ⟨hins, ?_, ?_, ?_⟩
  · intro post2
    rw [hstep post2, hstep []]
    exact ⟨rfl, rfl, rfl⟩
  · intro K
    rw [hins]
    have h1 : c1.dirty = c.dirty := by
      have := frame_insertParseCols (fun c => c.dirty) E K c argv tmatch
      rw [hcols] at this
      exact this
    have h2 := dirty_insertParseLoop E K argv (c.Tbl tmatch).col_count tmatch
      (E.MATCH_INDICES c tmatch).1 (E.MATCH_INDICES c tmatch).2 cols.pcols cols.cmatchs repl
      (insertParseOpts c1).upd (insertParseOpts c1).print parse pre c1 0 hpre
    have h3 := dirty_insertCommit E K
      (insertParseRun E c argv repl tmatch parse c1 cols pre c1 0).1 argv (argv i)
      (c.Tbl tmatch).col_count tmatch (E.MATCH_INDICES c tmatch).1 (E.MATCH_INDICES c tmatch).2
      cols.pcols cols.cmatchs repl ((insertParseOpts c1).upd % 256)
      (if (insertParseOpts c1).print then
        some (insertParseRun E c argv repl tmatch parse c1 cols pre c1 0).2.1 else none) parse
    rcases h3 with ⟨_, h4⟩ | ⟨h4, _⟩
    · show (insertParseCall E c argv repl tmatch parse c1 cols i _ _).1.dirty = _
      unfold insertParseCall
      rw [h4]
      unfold insertParseRun
      rw [h2, h1]
    · unfold insertParseCall at herr
      rw [herr] at h4
      rcases h4 with h4 | h4 <;> cases h4
  · intro is c0 t0 h
    exact insertParseLoop_stops E argv (c.Tbl tmatch).col_count tmatch
      (E.MATCH_INDICES c tmatch).1 (E.MATCH_INDICES c tmatch).2 cols.pcols cols.cmatchs repl
      (insertParseOpts c1).upd (insertParseOpts c1).print parse is c0 t0 h

/-- The command `INSERT INTO t VALUES 2,5 1,7 3,6` on the table `t` with the
row `(1,10)`: the first tuple commits, the second is refused
(`insert_ovrwrt`), the third is not attempted; no `ok` is replied and
`server.dirty` has grown by one. -/
theorem C32_insert_stops_at_first_error_witness :
    insertParseCols toyExt toyThreeState toyThreeState.argv 0
      = (toyThreeState, some ⟨3, 0, fun _ => 0⟩) ∧
    List.range' 4 ((insertParseOpts toyThreeState).largc - 4) = [4] ++ 5 :: [6] ∧
    (insertParse toyExt toyThreeState toyThreeState.argv false 0 false).1.btr 0
      = [(2, 5), (1, 10)] ∧
    (insertParse toyExt toyThreeState toyThreeState.argv false 0 false).1.reply
      = [Reply.ok, Reply.insert_ovrwrt] ∧
    (insertParse toyExt toyThreeState toyThreeState.argv false 0 false).1.dirty
      = toyThreeState.dirty + 1 := by
  have hk : Frame (fun c => c.dirty) toyExt :=
    ⟨fun _ _ => rfl, fun _ _ _ _ _ _ => rfl, fun _ _ _ _ _ => rfl, fun _ _ _ _ _ => rfl,
      fun _ _ _ _ => rfl, fun _ _ => rfl, fun _ _ _ => rfl, fun _ _ _ _ _ _ _ => rfl,
      fun _ _ _ => rfl, fun _ _ _ _ _ _ _ => rfl, fun _ _ _ _ _ _ _ _ _ => rfl,
      fun _ _ _ => rfl, fun _ _ _ => rfl⟩
  have h := C32_insert_stops_at_first_error toyExt toyThreeState toyThreeState.argv false 0
    false toyThreeState ⟨3, 0, fun _ => 0⟩ [4] [6] 5 (by rfl) (by decide) (by rfl) (by rfl)
    (by rfl)
  refine ⟨by rfl, by rfl, ?_, ?_, h.2.2.1 hk⟩
  · rw [h.1]
    rfl
  · rw [h.1]
    rfl


/-- The single-row path of `updateAction` when the SET list assigns the
primary key and neither the proposed primary key nor the key of the
where-clause is found: `czero` is replied. -/
theorem updateExec_absent {BT IX NBT Row : Type} (E : Ext BT IX NBT Row) (c : State BT IX)
    (u_vallist : Option (List Nat)) (f : UpdateFront)
    (hsingle : f.w.wtype = WType.SQL_SINGLE_LKP)
    (hnew : E.btFind (c.btr f.w.wf.tmatch.toNat)
      (E.createAobjFromString (f.uc.mvals f.pkupc.toNat) (f.uc.mvlens f.pkupc.toNat)
        (f.rt.col_type 0)) = none)
    (hold : E.btFind (c.btr f.w.wf.tmatch.toNat) f.w.wf.akey = none) :
    updateExec E c u_vallist f = (addReply c Reply.czero, -1) := by
  by_cases hpk : f.pkupc ≠ -1
  · simp only [updateExec, ovwrPKUp, hsingle, hpk, hnew, hold, ne_eq, not_true_eq_false,
      not_false_eq_true, if_true, if_false, Option.isSome_none, Bool.false_eq_true]
  · simp only [updateExec, hsingle, hpk, hold, ne_eq, not_true_eq_false, if_false]

/-- Claim C33: when `updateAction` reaches the single-row path (`updateFront`
hands back the state `c1` and the locals `f` with `f.w.wtype =
SQL_SINGLE_LKP`) and the SET list assigns the primary key (`f.pkupc ≠ -1`):
`ovwrPKUp` replies `update_pk_overwrite` exactly when `btFind` finds the
proposed primary key, whatever the key of the where-clause is.  So (1) when
the proposed key is the key of the row being updated (both lookups give the
same, present, row), `updateAction` replies `update_pk_overwrite` and returns
`-1`; (2) when the row of the where-clause is absent and the proposed key is
present, it replies `update_pk_overwrite` too, not `czero`; (3) `czero` is
replied for an absent row only when the proposed key is absent as well. -/
theorem C33_update_pk_same_value {BT IX NBT Row : Type} (E : Ext BT IX NBT Row)
    (c : State BT IX) (u_vallist : Option (List Nat)) (u_apk : aobj) (u_tmatch : Int)
    (c1 : State BT IX) (f : UpdateFront)
    (hfront : updateFront E c u_vallist u_apk u_tmatch = (c1, some f))
    (hsingle : f.w.wtype = WType.SQL_SINGLE_LKP)
    (hpk : f.pkupc ≠ -1) :
    (ovwrPKUp E c1 f.pkupc f.uc.mvals f.uc.mvlens (f.rt.col_type 0) f.w.wf.tmatch.toNat
      = if (E.btFind (c1.btr f.w.wf.tmatch.toNat)
          (E.createAobjFromString (f.uc.mvals f.pkupc.toNat) (f.uc.mvlens f.pkupc.toNat)
            (f.rt.col_type 0))).isSome = true
        then (addReply c1 Reply.update_pk_overwrite, true) else (c1, false)) ∧
    (∀ row : Row, E.btFind (c1.btr f.w.wf.tmatch.toNat) f.w.wf.akey = some row →
      E.btFind (c1.btr f.w.wf.tmatch.toNat)
        (E.createAobjFromString (f.uc.mvals f.pkupc.toNat) (f.uc.mvlens f.pkupc.toNat)
          (f.rt.col_type 0)) = E.btFind (c1.btr f.w.wf.tmatch.toNat) f.w.wf.akey →
      updateAction E c u_vallist u_apk u_tmatch
        = (addReply c1 Reply.update_pk_overwrite, -1)) ∧
    (∀ xrow : Row, E.btFind (c1.btr f.w.wf.tmatch.toNat) f.w.wf.akey = none →
      E.btFind (c1.btr f.w.wf.tmatch.toNat)
        (E.createAobjFromString (f.uc.mvals f.pkupc.toNat) (f.uc.mvlens f.pkupc.toNat)
          (f.rt.col_type 0)) = some xrow →
      updateAction E c u_vallist u_apk u_tmatch
        = (addReply c1 Reply.update_pk_overwrite, -1) ∧
      updateAction E c u_vallist u_apk u_tmatch ≠ (addReply c1 Reply.czero, -1)) ∧
    (E.btFind (c1.btr f.w.wf.tmatch.toNat) f.w.wf.akey = none →
      E.btFind (c1.btr f.w.wf.tmatch.toNat)
        (E.createAobjFromString (f.uc.mvals f.pkupc.toNat) (f.uc.mvlens f.pkupc.toNat)
          (f.rt.col_type 0)) = none →
      updateAction E c u_vallist u_apk u_tmatch = (addReply c1 Reply.czero, -1)) := by
  have hst : updateAction E c u_vallist u_apk u_tmatch = updateExec E c1 u_vallist f := by
    rw [updateAction_stages, hfront]
  refine ⟨rfl, ?_, ?_, ?_⟩
  · intro row hold hsame
    rw [hst]
    exact updateExec_overwrite E c1 u_vallist f row hsingle hpk (hsame.trans hold)
  · intro xrow _ hnew
    rw [hst, updateExec_overwrite E c1 u_vallist f xrow hsingle hpk hnew]
    refine ⟨rfl, ?_⟩
    intro h
    have h2 := congrArg (fun p => p.1.reply) h
    simp only [addReply, List.append_cancel_left_eq, List.cons.injEq, and_true] at h2
    cases h2
  · intro hold hnew
    rw [hst]
    exact updateExec_absent E c1 u_vallist f hsingle hnew hold

/-- The rows `(1,10)` and `(2,20)`: `UPDATE t SET pk=2 WHERE pk=2` and `UPDATE
t SET pk=1 WHERE pk=7` reply `update_pk_overwrite` and leave the rows as they
were; `UPDATE t SET pk=8 WHERE pk=7` replies `czero`. -/
theorem C33_update_pk_same_value_witness :
    (updateFront toyUpd toySameState none toyAobj (-1)).2.isSome = true ∧
    toyUpd.btFind (toySameState.btr 0) { toyAobj with i := 2 } = some 20 ∧
    updateAction toyUpd toySameState none toyAobj (-1)
      = (addReply toySameState Reply.update_pk_overwrite, -1) ∧
    toyUpd.btFind (toyAbsentState.btr 0) { toyAobj with i := 7 } = none ∧
    updateAction toyUpd toyAbsentState none toyAobj (-1)
      = (addReply toyAbsentState Reply.update_pk_overwrite, -1) ∧
    updateAction toyUpd toyNoneState none toyAobj (-1)
      = (addReply toyNoneState Reply.czero, -1) := by
  have h1 := C33_update_pk_same_value toyUpd toySameState none toyAobj (-1) toySameState
    ((updateFront toyUpd toySameState none toyAobj (-1)).2.getD
      ⟨toyParseSet [], 0, 0, fun _ => 0, toyTbl, 0, noArrays, toyParseWC
        (init_check_sql_where_clause toyUpd 0 none), init_wob⟩)
    (by rfl) (by rfl) (by decide)
  have h2 := C33_update_pk_same_value toyUpd toyAbsentState none toyAobj (-1) toyAbsentState
    ((updateFront toyUpd toyAbsentState none toyAobj (-1)).2.getD
      ⟨toyParseSet [], 0, 0, fun _ => 0, toyTbl, 0, noArrays, toyParseWC
        (init_check_sql_where_clause toyUpd 0 none), init_wob⟩)
    (by rfl) (by rfl) (by decide)
  have h3 := C33_update_pk_same_value toyUpd toyNoneState none toyAobj (-1) toyNoneState
    ((updateFront toyUpd toyNoneState none toyAobj (-1)).2.getD
      ⟨toyParseSet [], 0, 0, fun _ => 0, toyTbl, 0, noArrays, toyParseWC
        (init_check_sql_where_clause toyUpd 0 none), init_wob⟩)
    (by rfl) (by rfl) (by decide)
  exact ⟨by rfl, by rfl, h1.2.1 20 (by rfl) (by rfl), by rfl, (h2.2.2.1 10 (by rfl) (by rfl)).1,
    h3.2.2.2 (by rfl) (by rfl)⟩


end AlchemyDB
